import Mathlib

/-! # montblanc: the CreateAntennaJones CPU operator

A shallow embedding of
`montblanc/impl/rime/tensorflow/rime_ops/create_antenna_jones_op_cpu.h`
(the kernel `CreateAntennaJones<CPUDevice, FT, CT>::Compute`), of
`create_antenna_jones_op_cpu.cpp` (the shape function) and of the shape
functions of `phase_op_cpu.cpp` and `gauss_shape_op_cpu.cpp`, followed by the
theorems that settle the specification claims about them.

Conventions of the embedding.
* The element type `CT` (`std::complex<FT>`) is any commutative ring: the
  arithmetic is exact, floating point rounding is not modelled. `Cplx` is a
  computable instance (rational real and imaginary parts) for concrete runs.
* A tensor is its shape together with its flattened row-major buffer.
* `int` variables that hold sizes are integers; the one narrowing conversion
  in the source (`int64` to `int` in `update_dim`) wraps modulo `2^32`.
  Index arithmetic is exact: signed overflow is undefined behaviour in C++,
  so the embedding describes the executions that are defined.
-/

set_option autoImplicit false

namespace montblanc
namespace create_antenna_jones

/-! ## Element type -/

/-- Exact stand-in for `std::complex<FT>`: a complex number whose real and
imaginary parts are rationals. -/
structure Cplx where
  re : ℚ
  im : ℚ
deriving DecidableEq

namespace Cplx

instance : Zero Cplx := ⟨⟨0, 0⟩⟩
instance : One Cplx := ⟨⟨1, 0⟩⟩
instance : Add Cplx := ⟨fun x y => ⟨x.re + y.re, x.im + y.im⟩⟩
instance : Neg Cplx := ⟨fun x => ⟨-x.re, -x.im⟩⟩
instance : Sub Cplx := ⟨fun x y => ⟨x.re - y.re, x.im - y.im⟩⟩
instance : Mul Cplx :=
  ⟨fun x y => ⟨x.re * y.re - x.im * y.im, x.re * y.im + x.im * y.re⟩⟩

instance : CommRing Cplx where
  add_assoc x y z := by
    show Cplx.mk _ _ = Cplx.mk _ _
    congr 1 <;> exact add_assoc _ _ _
  zero_add x := by
    show Cplx.mk _ _ = x
    cases x; congr 1 <;> exact zero_add _
  add_zero x := by
    show Cplx.mk _ _ = x
    cases x; congr 1 <;> exact add_zero _
  add_comm x y := by
    show Cplx.mk _ _ = Cplx.mk _ _
    congr 1 <;> exact add_comm _ _
  neg_add_cancel x := by
    show Cplx.mk _ _ = Cplx.mk _ _
    congr 1 <;> exact neg_add_cancel _
  sub_eq_add_neg x y := by
    show Cplx.mk _ _ = Cplx.mk _ _
    congr 1 <;> exact sub_eq_add_neg _ _
  mul_assoc x y z := by
    obtain ⟨a, b⟩ := x
    obtain ⟨c, d⟩ := y
    obtain ⟨e, f⟩ := z
    show Cplx.mk ((a * c - b * d) * e - (a * d + b * c) * f)
        ((a * c - b * d) * f + (a * d + b * c) * e) =
      Cplx.mk (a * (c * e - d * f) - b * (c * f + d * e))
        (a * (c * f + d * e) + b * (c * e - d * f))
    congr 1 <;> ring
  one_mul x := by
    obtain ⟨a, b⟩ := x
    show Cplx.mk (1 * a - 0 * b) (1 * b + 0 * a) = Cplx.mk a b
    congr 1 <;> ring
  mul_one x := by
    obtain ⟨a, b⟩ := x
    show Cplx.mk (a * 1 - b * 0) (a * 0 + b * 1) = Cplx.mk a b
    congr 1 <;> ring
  mul_comm x y := by
    obtain ⟨a, b⟩ := x
    obtain ⟨c, d⟩ := y
    show Cplx.mk (a * c - b * d) (a * d + b * c) = Cplx.mk (c * a - d * b) (c * b + d * a)
    congr 1 <;> ring
  left_distrib x y z := by
    obtain ⟨a, b⟩ := x
    obtain ⟨c, d⟩ := y
    obtain ⟨e, f⟩ := z
    show Cplx.mk (a * (c + e) - b * (d + f)) (a * (d + f) + b * (c + e)) =
      Cplx.mk (a * c - b * d + (a * e - b * f)) (a * d + b * c + (a * f + b * e))
    congr 1 <;> ring
  right_distrib x y z := by
    obtain ⟨a, b⟩ := x
    obtain ⟨c, d⟩ := y
    obtain ⟨e, f⟩ := z
    show Cplx.mk ((a + c) * e - (b + d) * f) ((a + c) * f + (b + d) * e) =
      Cplx.mk (a * e - b * f + (c * e - d * f)) (a * f + b * e + (c * f + d * e))
    congr 1 <;> ring
  zero_mul x := by
    obtain ⟨a, b⟩ := x
    show Cplx.mk (0 * a - 0 * b) (0 * b + 0 * a) = Cplx.mk 0 0
    congr 1 <;> ring
  mul_zero x := by
    obtain ⟨a, b⟩ := x
    show Cplx.mk (a * 0 - b * 0) (a * 0 + b * 0) = Cplx.mk 0 0
    congr 1 <;> ring
  nsmul := nsmulRec
  zsmul := zsmulRec

end Cplx

/-! ## Tensors and statuses -/

/-- A dense tensor as the kernel sees it: the sizes of its axes
(`dim_size`) and its flattened row-major data buffer (`flat<T>()`). -/
structure Tensor (α : Type) where
  shape : List Int
  flat : Int → α

/-- The call `tensor.dim_size(dim)`: the size of axis `dim`, when the tensor has
that axis. -/
def Tensor.dim_size {α : Type} (tensor : Tensor α) (dim : Nat) : Option Int :=
  tensor.shape[dim]?

/-- The non-OK statuses with which `Compute` can end. -/
inductive Status where
  /-- `InvalidArgument("Previously set dimension size old_size does not equal
  new size new_size")`, returned by `update_dim`. -/
  | DimensionConflict (old_size new_size : Int)
  /-- `InvalidArgument("Number of polarisations npol does not equal 4.")`. -/
  | InvalidNpol (npol : Int)
  /-- A non-OK status of `context->allocate_output`. -/
  | AllocateOutput
  /-- The framework check of `dim_size` fails: the tensor has no such axis. -/
  | NoSuchAxis
deriving DecidableEq, Repr

/-- Modelled from the spec: the constant `CREATE_ANTENNA_JONES_NPOL` of the header
`create_antenna_jones_op.h`, which is not among the sources; the specification
fixes the correlation count at 4 (one full 2x2 matrix). -/
def CREATE_ANTENNA_JONES_NPOL : Int := 4

/-- Conversion of an `int64` value to `int`: the value modulo `2^32`, taken in
the range `[-2^31, 2^31)`. -/
def to_int (x : Int) : Int := (x + 2 ^ 31) % 2 ^ 32 - 2 ^ 31

/-- The lambda `update_dim` of `Compute` (lines 59-77). `old_size` is an `int`
passed by reference in the source; here its new value is returned on success.
`new_size` is the `int64` that `dim_size` returns: the assignment
`old_size = new_size` converts it to `int`, the comparison
`old_size != new_size` is made on the values. -/
def update_dim {α : Type} (old_size : Int) (tensor : Tensor α) (dim : Nat) :
    Except Status Int :=
  match tensor.dim_size dim with
  | none => .error .NoSuchAxis
  | some new_size =>
    if old_size = -1 then
      .ok (to_int new_size)
    else if old_size ≠ new_size then
      .error (.DimensionConflict old_size new_size)
    else
      .ok old_size

/-- The four attributes read by the constructor of the kernel. -/
structure Flags where
  have_bsqrt : Bool
  have_complex_phase : Bool
  have_feed_rotation : Bool
  have_ddes : Bool
deriving DecidableEq, Repr

/-- The five `int` size variables of `Compute` (line 57). -/
structure Dims where
  nsrc : Int
  ntime : Int
  narow : Int
  nchan : Int
  npol : Int
deriving DecidableEq, Repr

/-- The initial value of the size variables: every size is unset, `-1`. -/
def Dims.unset : Dims := ⟨-1, -1, -1, -1, -1⟩

/-- Lines 79-85 of `Compute`: the sizes taken from `bsqrt`. -/
def dims_bsqrt {α : Type} (f : Flags) (in_bsqrt : Tensor α) (d : Dims) :
    Except Status Dims :=
  if f.have_bsqrt then do
    let nsrc ← update_dim d.nsrc in_bsqrt 0
    let ntime ← update_dim d.ntime in_bsqrt 1
    let nchan ← update_dim d.nchan in_bsqrt 2
    let npol ← update_dim d.npol in_bsqrt 3
    pure { d with nsrc := nsrc, ntime := ntime, nchan := nchan, npol := npol }
  else pure d

/-- Lines 87-92 of `Compute`: the sizes taken from `complex_phase`. -/
def dims_complex_phase {α : Type} (f : Flags) (in_complex_phase : Tensor α) (d : Dims) :
    Except Status Dims :=
  if f.have_complex_phase then do
    let nsrc ← update_dim d.nsrc in_complex_phase 0
    let narow ← update_dim d.narow in_complex_phase 1
    let nchan ← update_dim d.nchan in_complex_phase 2
    pure { d with nsrc := nsrc, narow := narow, nchan := nchan }
  else pure d

/-- Lines 94-97 of `Compute`: the size taken from `feed_rotation`. -/
def dims_feed_rotation {α : Type} (f : Flags) (in_feed_rotation : Tensor α) (d : Dims) :
    Except Status Dims :=
  if f.have_feed_rotation then do
    let narow ← update_dim d.narow in_feed_rotation 0
    pure { d with narow := narow }
  else pure d

/-- Lines 99-105 of `Compute`: the sizes taken from `ddes`. -/
def dims_ddes {α : Type} (f : Flags) (in_ddes : Tensor α) (d : Dims) :
    Except Status Dims :=
  if f.have_ddes then do
    let nsrc ← update_dim d.nsrc in_ddes 0
    let narow ← update_dim d.narow in_ddes 1
    let nchan ← update_dim d.nchan in_ddes 2
    let npol ← update_dim d.npol in_ddes 3
    pure { d with nsrc := nsrc, narow := narow, nchan := nchan, npol := npol }
  else pure d

/-- Lines 57-105 of `Compute`: dimension resolution, the `update_dim` calls on
the present tensors in the order of the source. -/
def resolve_dims {α : Type} (f : Flags)
    (in_bsqrt in_complex_phase in_feed_rotation in_ddes : Tensor α) :
    Except Status Dims := do
  let d ← dims_bsqrt f in_bsqrt Dims.unset
  let d ← dims_complex_phase f in_complex_phase d
  let d ← dims_feed_rotation f in_feed_rotation d
  dims_ddes f in_ddes d

/-- Lines 57-110 of `Compute`: dimension resolution followed by the check
`npol == CREATE_ANTENNA_JONES_NPOL`. -/
def validate {α : Type} (f : Flags)
    (in_bsqrt in_complex_phase in_feed_rotation in_ddes : Tensor α) :
    Except Status Dims := do
  let d ← resolve_dims f in_bsqrt in_complex_phase in_feed_rotation in_ddes
  if d.npol = CREATE_ANTENNA_JONES_NPOL then pure d
  else .error (.InvalidNpol d.npol)

/-! ## The per-element computation -/

/-- The local variables of one pass through the innermost loop body (lines
136-144): four two-slot buffers, the active and inactive slot indices and the
flag `initialised`. -/
structure Bufs (CT : Type) where
  buf0 : Fin 2 → CT
  buf1 : Fin 2 → CT
  buf2 : Fin 2 → CT
  buf3 : Fin 2 → CT
  a : Fin 2
  i : Fin 2
  initialised : Bool

variable {CT : Type} [CommRing CT]

/-- Lines 137-144: the buffers are default-constructed complex values (zero),
`a = 0`, `i = 1`, `initialised = false`. -/
def Bufs.init : Bufs CT :=
  { buf0 := fun _ => 0, buf1 := fun _ => 0, buf2 := fun _ => 0, buf3 := fun _ => 0,
    a := 0, i := 1, initialised := false }

/-- The body shared by the `bsqrt` block (lines 155-171), the `feed_rotation`
block (lines 209-225) and the `ddes` block (lines 238-254), which are the same
statements up to the names `b`, `l`, `e` of the four values read. The
assignments are made one after the other, each reading the buffers as the
previous assignments left them. -/
def matrix_block (m0 m1 m2 m3 : CT) (s : Bufs CT) : Bufs CT :=
  let s :=
    if s.initialised then
      let s := { s with buf0 := Function.update s.buf0 s.i (m0 * s.buf0 s.a + m1 * s.buf2 s.a) }
      let s := { s with buf1 := Function.update s.buf1 s.i (m0 * s.buf1 s.a + m1 * s.buf3 s.a) }
      let s := { s with buf2 := Function.update s.buf2 s.i (m2 * s.buf0 s.a + m3 * s.buf2 s.a) }
      { s with buf3 := Function.update s.buf3 s.i (m2 * s.buf1 s.a + m3 * s.buf3 s.a) }
    else
      let s := { s with buf0 := Function.update s.buf0 s.i m0 }
      let s := { s with buf1 := Function.update s.buf1 s.i m1 }
      let s := { s with buf2 := Function.update s.buf2 s.i m2 }
      let s := { s with buf3 := Function.update s.buf3 s.i m3 }
      { s with initialised := true }
  { s with a := s.i, i := s.a }

/-- The body of the `complex_phase` block (lines 180-196). -/
def scalar_block (cp : CT) (s : Bufs CT) : Bufs CT :=
  let s :=
    if s.initialised then
      let s := { s with buf0 := Function.update s.buf0 s.i (cp * s.buf0 s.a) }
      let s := { s with buf1 := Function.update s.buf1 s.i (cp * s.buf1 s.a) }
      let s := { s with buf2 := Function.update s.buf2 s.i (cp * s.buf2 s.a) }
      { s with buf3 := Function.update s.buf3 s.i (cp * s.buf3 s.a) }
    else
      let s := { s with buf0 := Function.update s.buf0 s.i cp }
      let s := { s with buf1 := Function.update s.buf1 s.i cp }
      let s := { s with buf2 := Function.update s.buf2 s.i cp }
      let s := { s with buf3 := Function.update s.buf3 s.i cp }
      { s with initialised := true }
  { s with a := s.i, i := s.a }

/-- Lines 258-264: the identity matrix is stored in the active slot when no
term was present. -/
def identity_block (s : Bufs CT) : Bufs CT :=
  if !s.initialised then
    let s := { s with buf0 := Function.update s.buf0 s.a 1 }
    let s := { s with buf1 := Function.update s.buf1 s.a 0 }
    let s := { s with buf2 := Function.update s.buf2 s.a 0 }
    { s with buf3 := Function.update s.buf3 s.a 1 }
  else s

/-- Lines 136-264: the buffers at the end of the chain for the element
`(src, row, chan)`, where `time = arow_time_index(row)`. The arguments `bsqrt`,
`complex_phase`, `feed_rotation`, `ddes` are the flattened buffers (lines
120-123). -/
def chain (f : Flags) (d : Dims) (bsqrt complex_phase feed_rotation ddes : Int → CT)
    (src row time chan : Int) : Bufs CT :=
  let s : Bufs CT := Bufs.init
  let s :=
    if f.have_bsqrt then
      let index := ((src * d.ntime + time) * d.nchan + chan) * d.npol
      matrix_block (bsqrt (index + 0)) (bsqrt (index + 1)) (bsqrt (index + 2))
        (bsqrt (index + 3)) s
    else s
  let s :=
    if f.have_complex_phase then
      let index := (src * d.narow + row) * d.nchan + chan
      scalar_block (complex_phase index) s
    else s
  let s :=
    if f.have_feed_rotation then
      let index := row * d.npol
      matrix_block (feed_rotation (index + 0)) (feed_rotation (index + 1))
        (feed_rotation (index + 2)) (feed_rotation (index + 3)) s
    else s
  let s :=
    if f.have_ddes then
      let index := ((src * d.narow + row) * d.nchan + chan) * d.npol
      matrix_block (ddes (index + 0)) (ddes (index + 1)) (ddes (index + 2))
        (ddes (index + 3)) s
    else s
  identity_block s

/-- The flattened offset of the element `(src, row, chan)` in the output (line
267). -/
def out_index (d : Dims) (src row chan : Int) : Int :=
  ((src * d.narow + row) * d.nchan + chan) * d.npol

/-- Lines 136-271: one pass through the innermost loop body, as a transformer
of the output buffer `ant_jones`. -/
def element (f : Flags) (d : Dims) (bsqrt complex_phase feed_rotation ddes : Int → CT)
    (src row time chan : Int) (ant_jones : Int → CT) : Int → CT :=
  let s := chain f d bsqrt complex_phase feed_rotation ddes src row time chan
  let index := out_index d src row chan
  let ant_jones := Function.update ant_jones (index + 0) (s.buf0 s.a)
  let ant_jones := Function.update ant_jones (index + 1) (s.buf1 s.a)
  let ant_jones := Function.update ant_jones (index + 2) (s.buf2 s.a)
  Function.update ant_jones (index + 3) (s.buf3 s.a)

/-- Lines 128-274: the three nested loops, run in the sequential order of the
source (the `omp parallel for` pragma only distributes the iterations). A loop
`for(int x=0; x < n; ++x)` runs over `0, ..., n-1` and not at all when
`n <= 0`. -/
def loops (f : Flags) (d : Dims) (bsqrt complex_phase feed_rotation ddes : Int → CT)
    (arow_time_index : Int → Int) (ant_jones : Int → CT) : Int → CT :=
  (List.range d.nsrc.toNat).foldl (fun ant_jones (src : Nat) =>
    (List.range d.narow.toNat).foldl (fun ant_jones (row : Nat) =>
      let time := arow_time_index row
      (List.range d.nchan.toNat).foldl (fun ant_jones (chan : Nat) =>
        element f d bsqrt complex_phase feed_rotation ddes src row time chan ant_jones)
        ant_jones) ant_jones) ant_jones

/-- The method `CreateAntennaJones<CPUDevice, FT, CT>::Compute` (lines 46-275).
`allocate_output` stands for the construction of the `TensorShape` and the call
`context->allocate_output` of the framework: given the requested shape it
either fails or hands back a buffer whose content is not specified. The checks
that the framework makes when a tensor is viewed (`flat<CT>()`,
`tensor<int, 1>()`) are not part of the embedding. The result is the output
tensor `ant_jones`, or the status with which the kernel ends. -/
def Compute (f : Flags) (allocate_output : List Int → Option (Int → CT))
    (in_bsqrt in_complex_phase in_feed_rotation in_ddes : Tensor CT)
    (in_arow_time_index : Tensor Int) : Except Status (Tensor CT) := do
  let d ← validate f in_bsqrt in_complex_phase in_feed_rotation in_ddes
  let ant_jones_shape := [d.nsrc, d.narow, d.nchan, d.npol]
  match allocate_output ant_jones_shape with
  | none => .error .AllocateOutput
  | some ant_jones =>
    pure ⟨ant_jones_shape,
      loops f d in_bsqrt.flat in_complex_phase.flat in_feed_rotation.flat in_ddes.flat
        in_arow_time_index.flat ant_jones⟩

/-! ## The shape function -/

/-- Modelled from the spec: the type `InferenceDimSizes` of the header `shapes.h`,
which is not among the sources. The specification describes it as the mapping
from an axis name to its resolved size; it is read here as an association list
searched from the front. -/
abbrev InferenceDimSizes := List (String × Int)

/-- The lambda `create_antenna_jones_shape_function` (lines 20-65 of the
`.cpp` file). The calls `get_input_and_schema_for_inference` and
`merge_input_dims` belong to `shapes.h`; their outcome, an error or the merged
map `dim_sizes`, is the argument. The result is the shape given to
`set_output`, or the error returned. -/
def create_antenna_jones_shape_function (merged : Except String InferenceDimSizes) :
    Except String (List Int) :=
  match merged with
  | .error e => .error e
  | .ok dim_sizes =>
    match dim_sizes.lookup "source" with
    | none => .error "No source dimension found"
    | some nsrc =>
    match dim_sizes.lookup "time" with
    | none => .error "No time dimension found"
    | some ntime =>
    match dim_sizes.lookup "ant" with
    | none => .error "No ant dimension found"
    | some na =>
    match dim_sizes.lookup "chan" with
    | none => .error "No chan dimension found"
    | some nchan =>
    match dim_sizes.lookup "corr" with
    | none => .error "No corr dimension found"
    | some ncorr => .ok [nsrc, ntime, na, nchan, ncorr]

/-! ## Vocabulary of the claims -/

/-- Four values read row-major as a 2x2 matrix. -/
def jones (v0 v1 v2 v3 : CT) : Matrix (Fin 2) (Fin 2) CT := !![v0, v1; v2, v3]

/-- The four consecutive values of a buffer from `index` on, read row-major as a
2x2 matrix. -/
def jones_at (buffer : Int → CT) (index : Int) : Matrix (Fin 2) (Fin 2) CT :=
  jones (buffer index) (buffer (index + 1)) (buffer (index + 2)) (buffer (index + 3))

/-- The matrix held by the active slot of the buffers. -/
def Bufs.active (s : Bufs CT) : Matrix (Fin 2) (Fin 2) CT :=
  jones (s.buf0 s.a) (s.buf1 s.a) (s.buf2 s.a) (s.buf3 s.a)

/-- The row-major offset of a multi-index in a tensor of the given shape. -/
def row_major (shape : List Int) (index : List Int) : Int :=
  (shape.zip index).foldl (fun acc p => acc * p.1 + p.2) 0

/-- The element `tensor[index]` of a tensor, by its multi-index. -/
def Tensor.elem {α : Type} (tensor : Tensor α) (index : List Int) : α :=
  tensor.flat (row_major tensor.shape index)

/-- The 2x2 matrix `tensor[index]` of a tensor whose last axis holds the four
correlations. -/
def Tensor.matrix {α : Type} [CommRing α] (tensor : Tensor α) (index : List Int) :
    Matrix (Fin 2) (Fin 2) α :=
  jones (tensor.elem (index ++ [0])) (tensor.elem (index ++ [1]))
    (tensor.elem (index ++ [2])) (tensor.elem (index ++ [3]))

/-- The single accumulator that the buffers stand for: the matrix in the active
slot once a term has initialised it. -/
def Bufs.acc (s : Bufs CT) : Option (Matrix (Fin 2) (Fin 2) CT) :=
  if s.initialised then some s.active else none

/-- A matrix term met by the accumulator, by the rule of the source: it
initialises the accumulator or multiplies it from the left. -/
def acc_matrix (m : Matrix (Fin 2) (Fin 2) CT) :
    Option (Matrix (Fin 2) (Fin 2) CT) → Option (Matrix (Fin 2) (Fin 2) CT)
  | none => some m
  | some x => some (m * x)

/-- The scalar term met by the accumulator, by the rule of the source: it
initialises every cell of the accumulator with the scalar, or scales the
accumulator. -/
def acc_scalar (cp : CT) :
    Option (Matrix (Fin 2) (Fin 2) CT) → Option (Matrix (Fin 2) (Fin 2) CT)
  | none => some (jones cp cp cp cp)
  | some x => some (cp • x)

/-- The chain on a single accumulator: the present terms are met in the order
`bsqrt`, `complex_phase`, `feed_rotation`, `ddes`; the result is the identity
when no term is present. -/
def fold_terms (f : Flags) (b : Matrix (Fin 2) (Fin 2) CT) (cp : CT)
    (l e : Matrix (Fin 2) (Fin 2) CT) : Matrix (Fin 2) (Fin 2) CT :=
  let acc : Option (Matrix (Fin 2) (Fin 2) CT) := none
  let acc := if f.have_bsqrt then acc_matrix b acc else acc
  let acc := if f.have_complex_phase then acc_scalar cp acc else acc
  let acc := if f.have_feed_rotation then acc_matrix l acc else acc
  let acc := if f.have_ddes then acc_matrix e acc else acc
  acc.getD 1

/-- The iteration space of the three loops, in the order the loops visit it. -/
def triples (d : Dims) : List (Nat × Nat × Nat) :=
  (List.range d.nsrc.toNat).flatMap fun src =>
    (List.range d.narow.toNat).flatMap fun row =>
      (List.range d.nchan.toNat).map fun chan => (src, row, chan)

/-- Dimension resolution of one axis name: `update_dim` applied in turn, from
the unset value `-1`, to tensors that declare the sizes `sizes` for the axis. -/
def fold_update_dim (sizes : List Int) : Except Status Int :=
  sizes.foldlM
    (fun old_size new_size => update_dim old_size (⟨[new_size], fun _ => ()⟩ : Tensor Unit) 0)
    (-1)

/-! ## Dimension resolution, call site by call site -/

/-- The axis names of the schemas of the kernel. -/
inductive Axis where
  | source | time | row | chan | corr
deriving DecidableEq, Repr

/-- The size variable of `Compute` that holds an axis. -/
def Dims.get (d : Dims) : Axis → Int
  | .source => d.nsrc
  | .time => d.ntime
  | .row => d.narow
  | .chan => d.nchan
  | .corr => d.npol

/-- Assignment to the size variable of `Compute` that holds an axis. -/
def Dims.set (d : Dims) (a : Axis) (v : Int) : Dims :=
  match a with
  | .source => { d with nsrc := v }
  | .time => { d with ntime := v }
  | .row => { d with narow := v }
  | .chan => { d with nchan := v }
  | .corr => { d with npol := v }

/-- One call site of `update_dim`: whether its block runs, the size variable it
updates, and the tensor and the axis position it reads. -/
structure Update (α : Type) where
  present : Bool
  axis : Axis
  tensor : Tensor α
  dim : Nat

/-- The effect of one call site on the size variables. -/
def Update.apply {α : Type} (d : Dims) (u : Update α) : Except Status Dims :=
  if u.present then do
    let v ← update_dim (d.get u.axis) u.tensor u.dim
    pure (d.set u.axis v)
  else pure d

/-- The call sites of `update_dim` in `Compute` (lines 79-105), in the order of
the source. -/
def updates {α : Type} (f : Flags)
    (in_bsqrt in_complex_phase in_feed_rotation in_ddes : Tensor α) : List (Update α) :=
  [⟨f.have_bsqrt, .source, in_bsqrt, 0⟩, ⟨f.have_bsqrt, .time, in_bsqrt, 1⟩,
   ⟨f.have_bsqrt, .chan, in_bsqrt, 2⟩, ⟨f.have_bsqrt, .corr, in_bsqrt, 3⟩,
   ⟨f.have_complex_phase, .source, in_complex_phase, 0⟩,
   ⟨f.have_complex_phase, .row, in_complex_phase, 1⟩,
   ⟨f.have_complex_phase, .chan, in_complex_phase, 2⟩,
   ⟨f.have_feed_rotation, .row, in_feed_rotation, 0⟩,
   ⟨f.have_ddes, .source, in_ddes, 0⟩, ⟨f.have_ddes, .row, in_ddes, 1⟩,
   ⟨f.have_ddes, .chan, in_ddes, 2⟩, ⟨f.have_ddes, .corr, in_ddes, 3⟩]

/-- The size that a tensor declares for an axis name, as a list: empty when the
tensor is absent. -/
def declared (flag : Bool) (size : Int) : List Int := if flag then [size] else []

/-- The sizes of a list agree: any two of them are equal. -/
def agree (sizes : List Int) : Prop := ∀ a ∈ sizes, ∀ b ∈ sizes, a = b

/-- The sizes that the call sites of a list read for an axis, in order. -/
def Update.sizes {α : Type} (us : List (Update α)) (a : Axis) : List Int :=
  us.flatMap fun u =>
    if u.present ∧ u.axis = a then (u.tensor.dim_size u.dim).toList else []

/-- A size variable is settled for the sizes read so far: still unset when
there are none, else equal to each of them. -/
def settled (v : Int) (sizes : List Int) : Prop :=
  (sizes = [] ∧ v = -1) ∨ (sizes ≠ [] ∧ ∀ s ∈ sizes, s = v)

/-! ## Concrete inputs -/

/-- A tensor given by its shape and the list of its values in row-major order. -/
def Tensor.of_list {α : Type} (shape : List Int) (data : List α) (default : α) : Tensor α :=
  ⟨shape, fun k => data.getD k.toNat default⟩

/-- An absent input: a tensor without axes. -/
def absent : Tensor Cplx := Tensor.of_list [] [] 0

/-- A rotation by a quarter turn, `[[0, -1], [1, 0]]`, as a tensor of shape
`(1, 1, 1, 4)`. -/
def rotation : Tensor Cplx := Tensor.of_list [1, 1, 1, 4] [⟨0, 0⟩, ⟨-1, 0⟩, ⟨1, 0⟩, ⟨0, 0⟩] 0

/-- A non-uniform scale, `[[2, 0], [0, 3]]`, as a tensor of shape `(1, 1, 1, 4)`. -/
def scale : Tensor Cplx := Tensor.of_list [1, 1, 1, 4] [⟨2, 0⟩, ⟨0, 0⟩, ⟨0, 0⟩, ⟨3, 0⟩] 0

/-- The identity matrix as a tensor of shape `(1, 1, 1, 4)`. -/
def unit_ddes : Tensor Cplx := Tensor.of_list [1, 1, 1, 4] [1, 0, 0, 1] 0

/-- The value `0.5 + 0.5i` as a `complex_phase` of shape `(1, 1, 1)`. -/
def phase_half : Tensor Cplx := Tensor.of_list [1, 1, 1] [⟨1 / 2, 1 / 2⟩] 0

/-- The identity matrix as a `feed_rotation` of shape `(1, 4)`. -/
def feed_identity : Tensor Cplx := Tensor.of_list [1, 4] [1, 0, 0, 1] 0

/-- A `feed_rotation` of shape `(1, 3)`: its last axis holds three values. -/
def feed_three : Tensor Cplx := Tensor.of_list [1, 3] [1, 0, 0] 0

/-- The row to time index of a single row, mapped to time 0. -/
def one_row : Tensor Int := Tensor.of_list [1] [0] 0

/-- An allocator that always succeeds and hands back a zeroed buffer. -/
def fresh : List Int → Option (Int → Cplx) := fun _ => some (fun _ => 0)

/-- An empty `bsqrt` of shape `(2^31, 1, 0, 4)`: its source axis does not fit an
`int`. -/
def wide_bsqrt : Tensor Cplx := Tensor.of_list [2147483648, 1, 0, 4] [] 0

/-- An empty `ddes` of shape `(2^31, 1, 0, 4)`. -/
def wide_ddes : Tensor Cplx := Tensor.of_list [2147483648, 1, 0, 4] [] 0

/-- The axis names that the shape function looks up, in the order of the
lookups (lines 38-56 of the `.cpp` file). -/
def required_names : List String := ["source", "time", "ant", "chan", "corr"]

/-! ## Shape inference of the framework -/

/-- A shape of known rank as the shape functions see it (`ShapeHandle`): the
list of its dimensions, each a size or `-1` when it is not known. -/
abbrev ShapeHandle := List Int

/-- A shape is fully known: every dimension is a size. -/
def ShapeHandle.known (s : ShapeHandle) : Prop := ∀ x ∈ s, 0 ≤ x

/-- The call `c->Rank(s)` of the framework. -/
def Rank (s : ShapeHandle) : Int := s.length

/-- The call `c->Dim(s, idx)` of the framework: dimension `idx` of the shape, a
negative `idx` counting from the end. Outside the shape the framework does not
define the result; an unknown dimension stands for it. -/
def Dim (s : ShapeHandle) (idx : Int) : Int :=
  if idx < 0 then s.getD (s.length + idx).toNat (-1) else s.getD idx.toNat (-1)

/-- The call `c->WithRank(s, rank, &out)` of the framework on a shape of known
rank: the shape, or no result when its rank differs. -/
def WithRank (s : ShapeHandle) (rank : Int) : Option ShapeHandle :=
  if Rank s = rank then some s else none

/-- The call `c->WithRankAtLeast(s, rank, &out)` of the framework. -/
def WithRankAtLeast (s : ShapeHandle) (rank : Int) : Option ShapeHandle :=
  if rank ≤ Rank s then some s else none

/-- The call `c->WithRankAtMost(s, rank, &out)` of the framework. -/
def WithRankAtMost (s : ShapeHandle) (rank : Int) : Option ShapeHandle :=
  if Rank s ≤ rank then some s else none

/-- The call `c->WithValue(dim, value, &out)` of the framework: an unknown
dimension takes the value, a known one must equal it. -/
def WithValue (dim : Int) (value : Int) : Option Int :=
  if dim = -1 then some value else if dim = value then some dim else none

/-- The method `Status::Update`: the status keeps its first error. -/
def Status.Update {α β : Type} (status : Option α) (new_status : Option β) : Option Unit :=
  match status with
  | none => none
  | some _ => new_status.map fun _ => ()

/-- The lambda `phase_shape_function` (lines 13-65 of `phase_op_cpu.cpp`) on
the shapes of `lm`, `uvw` and `frequency`. The result is the shape given to
`set_output`, or the context of the error returned (the text that
`DebugString` adds to it is left out). -/
def phase_shape_function (lm uvw frequency : ShapeHandle) : Except String ShapeHandle :=
  match WithRankAtLeast lm 2 with
  | none => .error "lm shape must be [nsrc, 2] but is "
  | some _ =>
  match WithValue (Dim lm 1) 2 with
  | none => .error "lm shape must be [nsrc, 2] but is "
  | some _ =>
  let uvw_status := WithRankAtLeast uvw 2
  let uvw_status := Status.Update uvw_status (WithRankAtMost uvw 3)
  let uvw_status := Status.Update uvw_status (WithValue (Dim uvw (Rank uvw - 1)) 3)
  match uvw_status with
  | none => .error "uvw shape must either be [nrow, 3] or [ntime, na, 3] but is "
  | some _ =>
  match WithRank frequency 1 with
  | none => .error "frequency shape must be [nchan,] but is "
  | some _ =>
  if Rank uvw = 3 then
    .ok [Dim lm 0, Dim uvw 0, Dim uvw 1, Dim frequency 0]
  else
    .ok [Dim lm 0, Dim uvw 0, Dim frequency 0]

/-- The lambda `gauss_shape_shape_function` (lines 13-63 of
`gauss_shape_op_cpu.cpp`) on the shapes of its six inputs. The result is the
shape given to `set_output`, or the context of the error returned. -/
def gauss_shape_shape_function (time_index uvw antenna1 antenna2 frequency params : ShapeHandle) :
    Except String ShapeHandle :=
  match WithRank time_index 1 with
  | none => .error "time_index shape must be [nvrows] but is "
  | some _ =>
  match WithRank uvw 3 with
  | none => .error "uvw shape must be [ntime, na, 3] but is "
  | some _ =>
  match WithValue (Dim uvw 2) 3 with
  | none => .error "uvw shape must be [ntime, na, 3] but is "
  | some _ =>
  match WithRank antenna1 1 with
  | none => .error "antenna1 shape must be [nvrow] but is "
  | some _ =>
  match WithRank antenna2 1 with
  | none => .error "antenna2 shape must be [nvrow] but is "
  | some _ =>
  match WithRank frequency 1 with
  | none => .error "frequency shape must be [nchan,] but is "
  | some _ =>
  match WithRank params 2 with
  | none => .error "params shape must be [3, ngsrc] but is "
  | some _ =>
  match WithValue (Dim params 0) 3 with
  | none => .error "params shape must be [3, ngsrc] but is "
  | some _ =>
  .ok [Dim params 1, Dim antenna1 0, Dim frequency 0]

/-! ## The indices read and written by the loop body -/

/-- The tensors that the body of the loop reads. -/
inductive Input where
  | arow_time_index | bsqrt | complex_phase | feed_rotation | ddes
deriving DecidableEq, Repr

/-- The call `tensor.NumElements()` of the framework: the number of cells of
the flattened buffer, the product of the sizes of the axes. -/
def Tensor.num_elements {α : Type} (tensor : Tensor α) : Int := tensor.shape.prod

/-- The flat indices that one pass through the loop body reads, each with the
tensor it indexes, in the order of the source: `arow_time_index(row)` (line
131), then for each present term the index expressions of its block: `bsqrt`
(lines 149-153), `complex_phase` (lines 177-178), `feed_rotation` (lines
202-207) and `ddes` (lines 232-236). -/
def reads (f : Flags) (d : Dims) (src row time chan : Int) : List (Input × Int) :=
  [(Input.arow_time_index, row)] ++
  (if f.have_bsqrt then
    let index := ((src * d.ntime + time) * d.nchan + chan) * d.npol
    [(Input.bsqrt, index + 0), (Input.bsqrt, index + 1), (Input.bsqrt, index + 2),
      (Input.bsqrt, index + 3)]
  else []) ++
  (if f.have_complex_phase then
    let index := (src * d.narow + row) * d.nchan + chan
    [(Input.complex_phase, index)]
  else []) ++
  (if f.have_feed_rotation then
    let index := row * d.npol
    [(Input.feed_rotation, index + 0), (Input.feed_rotation, index + 1),
      (Input.feed_rotation, index + 2), (Input.feed_rotation, index + 3)]
  else []) ++
  (if f.have_ddes then
    let index := ((src * d.narow + row) * d.nchan + chan) * d.npol
    [(Input.ddes, index + 0), (Input.ddes, index + 1), (Input.ddes, index + 2),
      (Input.ddes, index + 3)]
  else [])

/-- The flat indices of the output that one pass through the loop body writes
(lines 267-271). -/
def writes (d : Dims) (src row chan : Int) : List Int :=
  let index := ((src * d.narow + row) * d.nchan + chan) * d.npol
  [index + 0, index + 1, index + 2, index + 3]

/-- The number of cells of each tensor that the loop body reads. -/
def Input.num_elements {α : Type}
    (in_bsqrt in_complex_phase in_feed_rotation in_ddes : Tensor α)
    (in_arow_time_index : Tensor Int) : Input → Int
  | .arow_time_index => in_arow_time_index.num_elements
  | .bsqrt => in_bsqrt.num_elements
  | .complex_phase => in_complex_phase.num_elements
  | .feed_rotation => in_feed_rotation.num_elements
  | .ddes => in_ddes.num_elements

/-- A flat index is within the bounds of a buffer of `size` cells. -/
def in_bounds (size index : Int) : Prop := 0 ≤ index ∧ index < size

instance (size index : Int) : Decidable (in_bounds size index) := by
  unfold in_bounds; infer_instance

/-- Every read of one pass through the loop body is within the bounds of the
tensor it indexes. -/
def reads_in_bounds {α : Type} (f : Flags) (d : Dims)
    (in_bsqrt in_complex_phase in_feed_rotation in_ddes : Tensor α)
    (in_arow_time_index : Tensor Int) (src row chan : Int) : Prop :=
  ∀ p ∈ reads f d src row (in_arow_time_index.flat row) chan,
    in_bounds (Input.num_elements in_bsqrt in_complex_phase in_feed_rotation in_ddes
      in_arow_time_index p.1) p.2

/-- The row to time index of a single row, mapped to time 5. -/
def late_row : Tensor Int := Tensor.of_list [1] [5] 0

/-- The identity matrix as a `ddes` of shape `(1, 2, 1, 4)`: one source, two
rows, one channel. -/
def two_row_ddes : Tensor Cplx := Tensor.of_list [1, 2, 1, 4] [1, 0, 0, 1, 1, 0, 0, 1] 0

/-- The row to time index of two rows, both mapped to time 0. -/
def two_rows : Tensor Int := Tensor.of_list [2] [0, 0] 0

/-- A tensor of the given shape whose cells all hold zero. -/
def zeros (shape : List Int) : Tensor Cplx := ⟨shape, fun _ => 0⟩

/-- The row to time index of two rows, mapped to the times 1 and 2. -/
def row_times : Tensor Int := Tensor.of_list [2] [1, 2] 0

/-- The flat indices of the output that the loops write, in the order of the
writes: those of each pass through the loop body, pass after pass. -/
def write_trace (d : Dims) : List Int :=
  (triples d).flatMap fun x => writes d x.1 x.2.1 x.2.2

/-! ## Index arithmetic in the type `int` -/

/-- Addition of two `int` values with the result reduced to the 32-bit two's
complement range (the sum itself is not defined by the language when it does
not fit). -/
def int_add (a b : Int) : Int := to_int (a + b)

/-- Multiplication of two `int` values with the result reduced to the 32-bit
two's complement range. -/
def int_mul (a b : Int) : Int := to_int (a * b)

/-- A value fits a signed 32-bit `int`. -/
def fits_int (x : Int) : Prop := -2 ^ 31 ≤ x ∧ x < 2 ^ 31

/-- The expression `((src*ntime + time)*nchan + chan)*npol` of line 149, every
operation made on `int` values. -/
def bsqrt_index_int (d : Dims) (src time chan : Int) : Int :=
  int_mul (int_add (int_mul (int_add (int_mul src d.ntime) time) d.nchan) chan) d.npol

/-- The expression `((src*narow + row)*nchan + chan)*npol` of lines 232 and
267, every operation made on `int` values. -/
def ddes_index_int (d : Dims) (src row chan : Int) : Int :=
  int_mul (int_add (int_mul (int_add (int_mul src d.narow) row) d.nchan) chan) d.npol

/-- The mathematical values of the subexpressions of
`((src*ntime + time)*nchan + chan)*npol + 3`, innermost first. -/
def bsqrt_index_steps (d : Dims) (src time chan : Int) : List Int :=
  [src * d.ntime, src * d.ntime + time, (src * d.ntime + time) * d.nchan,
    (src * d.ntime + time) * d.nchan + chan,
    ((src * d.ntime + time) * d.nchan + chan) * d.npol,
    ((src * d.ntime + time) * d.nchan + chan) * d.npol + 3]

/-- The mathematical values of the subexpressions of
`((src*narow + row)*nchan + chan)*npol + 3`, innermost first. -/
def ddes_index_steps (d : Dims) (src row chan : Int) : List Int :=
  [src * d.narow, src * d.narow + row, (src * d.narow + row) * d.nchan,
    (src * d.narow + row) * d.nchan + chan,
    ((src * d.narow + row) * d.nchan + chan) * d.npol,
    ((src * d.narow + row) * d.nchan + chan) * d.npol + 3]

/-! ## Lemmas on the element type -/

namespace Cplx

@[ext] theorem ext {x y : Cplx} (hre : x.re = y.re) (him : x.im = y.im) : x = y := by
  cases x; cases y; simp_all

@[simp] theorem zero_re : (0 : Cplx).re = 0 := rfl
@[simp] theorem zero_im : (0 : Cplx).im = 0 := rfl
@[simp] theorem one_re : (1 : Cplx).re = 1 := rfl
@[simp] theorem one_im : (1 : Cplx).im = 0 := rfl
@[simp] theorem add_re (x y : Cplx) : (x + y).re = x.re + y.re := rfl
@[simp] theorem add_im (x y : Cplx) : (x + y).im = x.im + y.im := rfl
@[simp] theorem neg_re (x : Cplx) : (-x).re = -x.re := rfl
@[simp] theorem neg_im (x : Cplx) : (-x).im = -x.im := rfl
@[simp] theorem sub_re (x y : Cplx) : (x - y).re = x.re - y.re := rfl
@[simp] theorem sub_im (x y : Cplx) : (x - y).im = x.im - y.im := rfl
@[simp] theorem mul_re (x y : Cplx) : (x * y).re = x.re * y.re - x.im * y.im := rfl
@[simp] theorem mul_im (x y : Cplx) : (x * y).im = x.re * y.im + x.im * y.re := rfl

end Cplx

/-! ## Lemmas on 2x2 matrices -/

theorem jones_mul (a0 a1 a2 a3 b0 b1 b2 b3 : CT) :
    jones a0 a1 a2 a3 * jones b0 b1 b2 b3 =
      jones (a0 * b0 + a1 * b2) (a0 * b1 + a1 * b3) (a2 * b0 + a3 * b2) (a2 * b1 + a3 * b3) := by
  simp [jones, Matrix.mul_fin_two]

theorem jones_smul (c b0 b1 b2 b3 : CT) :
    c • jones b0 b1 b2 b3 = jones (c * b0) (c * b1) (c * b2) (c * b3) := by
  simp [jones, Matrix.smul_of, Matrix.smul_cons]

theorem jones_one : (1 : Matrix (Fin 2) (Fin 2) CT) = jones 1 0 0 1 := by
  simp [jones, Matrix.one_fin_two]

omit [CommRing CT] in
theorem jones_inj (a0 a1 a2 a3 b0 b1 b2 b3 : CT) :
    jones a0 a1 a2 a3 = jones b0 b1 b2 b3 ↔ a0 = b0 ∧ a1 = b1 ∧ a2 = b2 ∧ a3 = b3 := by
  constructor
  · intro h
    have h00 := congrFun (congrFun h 0) 0
    have h01 := congrFun (congrFun h 0) 1
    have h10 := congrFun (congrFun h 1) 0
    have h11 := congrFun (congrFun h 1) 1
    simp [jones] at h00 h01 h10 h11
    exact ⟨h00, h01, h10, h11⟩
  · rintro ⟨rfl, rfl, rfl, rfl⟩; rfl

theorem matrix4_eq (tensor : Tensor CT) (n0 n1 n2 : Int) (hs : tensor.shape = [n0, n1, n2, 4])
    (i j k : Int) :
    tensor.matrix [i, j, k] = jones_at tensor.flat (((i * n1 + j) * n2 + k) * 4) := by
  simp [Tensor.matrix, Tensor.elem, row_major, hs, jones_at]

theorem matrix2_eq (tensor : Tensor CT) (n0 : Int) (hs : tensor.shape = [n0, 4]) (i : Int) :
    tensor.matrix [i] = jones_at tensor.flat (i * 4) := by
  simp [Tensor.matrix, Tensor.elem, row_major, hs, jones_at]

theorem elem3_eq {α : Type} (tensor : Tensor α) (n0 n1 n2 : Int) (hs : tensor.shape = [n0, n1, n2])
    (i j k : Int) : tensor.elem [i, j, k] = tensor.flat ((i * n1 + j) * n2 + k) := by
  simp [Tensor.elem, row_major, hs]

/-- The product of the scale and the rotation depends on the order. -/
theorem scale_rotation_ne :
    scale.matrix [0, 0, 0] * rotation.matrix [0, 0, 0] ≠
      rotation.matrix [0, 0, 0] * scale.matrix [0, 0, 0] := by
  rw [matrix4_eq scale 1 1 1 rfl, matrix4_eq rotation 1 1 1 rfl]
  simp only [jones_at, jones_mul, ne_eq, jones_inj]
  simp [scale, rotation, Tensor.of_list, Cplx.ext_iff]

theorem half_ne : jones (⟨1 / 2, 1 / 2⟩ : Cplx) ⟨1 / 2, 1 / 2⟩ ⟨1 / 2, 1 / 2⟩ ⟨1 / 2, 1 / 2⟩ ≠
    jones (⟨1 / 2, 1 / 2⟩ : Cplx) 0 0 ⟨1 / 2, 1 / 2⟩ := by
  simp [jones_inj, Cplx.ext_iff]

/-! ## The buffers and the single accumulator -/

@[simp] theorem matrix_block_a (m0 m1 m2 m3 : CT) (s : Bufs CT) :
    (matrix_block m0 m1 m2 m3 s).a = s.i := by
  cases hi : s.initialised <;> simp [matrix_block, hi]

@[simp] theorem matrix_block_i (m0 m1 m2 m3 : CT) (s : Bufs CT) :
    (matrix_block m0 m1 m2 m3 s).i = s.a := by
  cases hi : s.initialised <;> simp [matrix_block, hi]

@[simp] theorem scalar_block_a (cp : CT) (s : Bufs CT) : (scalar_block cp s).a = s.i := by
  cases hi : s.initialised <;> simp [scalar_block, hi]

@[simp] theorem scalar_block_i (cp : CT) (s : Bufs CT) : (scalar_block cp s).i = s.a := by
  cases hi : s.initialised <;> simp [scalar_block, hi]

theorem matrix_block_acc (m0 m1 m2 m3 : CT) (s : Bufs CT) (h : s.a ≠ s.i) :
    (matrix_block m0 m1 m2 m3 s).acc = acc_matrix (jones m0 m1 m2 m3) s.acc := by
  have h' : s.i ≠ s.a := fun e => h e.symm
  cases hi : s.initialised <;>
    simp [matrix_block, Bufs.acc, Bufs.active, acc_matrix, hi, jones_mul,
      Function.update_noteq h, h']

theorem scalar_block_acc (cp : CT) (s : Bufs CT) (h : s.a ≠ s.i) :
    (scalar_block cp s).acc = acc_scalar cp s.acc := by
  have h' : s.i ≠ s.a := fun e => h e.symm
  cases hi : s.initialised <;>
    simp [scalar_block, Bufs.acc, Bufs.active, acc_scalar, hi, jones_smul,
      Function.update_noteq h, h']

theorem identity_block_active (s : Bufs CT) : (identity_block s).active = s.acc.getD 1 := by
  cases hi : s.initialised <;> simp [identity_block, Bufs.acc, Bufs.active, hi, jones_one]

theorem init_acc : (Bufs.init : Bufs CT).acc = none := rfl

/-- The active slot at the end of the chain holds what the single accumulator
holds. -/
theorem chain_active (f : Flags) (d : Dims) (bsqrt complex_phase feed_rotation ddes : Int → CT)
    (src row time chan : Int) :
    (chain f d bsqrt complex_phase feed_rotation ddes src row time chan).active =
      fold_terms f
        (jones_at bsqrt (((src * d.ntime + time) * d.nchan + chan) * d.npol))
        (complex_phase ((src * d.narow + row) * d.nchan + chan))
        (jones_at feed_rotation (row * d.npol))
        (jones_at ddes (((src * d.narow + row) * d.nchan + chan) * d.npol)) := by
  have h01 : (Bufs.init : Bufs CT).a ≠ (Bufs.init : Bufs CT).i := by simp [Bufs.init]
  have h10 : (Bufs.init : Bufs CT).i ≠ (Bufs.init : Bufs CT).a := by simp [Bufs.init]
  obtain ⟨fb, fc, fl, fe⟩ := f
  cases fb <;> cases fc <;> cases fl <;> cases fe <;>
    simp [chain, fold_terms, identity_block_active, matrix_block_acc, scalar_block_acc,
      init_acc, h01, h10, jones_at]

/-! ## The loops -/

theorem foldl_flat {α β γ : Type} (g : α → List β) (step : γ → β → γ) (l : List α) (init : γ) :
    (l.flatMap g).foldl step init = l.foldl (fun acc x => (g x).foldl step acc) init := by
  induction l generalizing init with
  | nil => rfl
  | cons x xs ih => simp [List.flatMap_cons, List.foldl_append, ih]

/-- A cell of a buffer holds, after a list of writes, what the one step that
writes it puts there. -/
theorem foldl_last_write {β γ : Type} (step : (Int → γ) → β → (Int → γ)) (x : β) (p : Int)
    (v : γ) (hx : ∀ o, step o x p = v) (l : List β)
    (hne : ∀ y ∈ l, y ≠ x → ∀ o, step o y p = o p) (o : Int → γ)
    (hmem : x ∈ l ∨ o p = v) : l.foldl step o p = v := by
  induction l generalizing o with
  | nil => simpa using hmem
  | cons y ys ih =>
    simp only [List.foldl_cons]
    apply ih (fun z hz => hne z (List.mem_cons_of_mem _ hz))
    by_cases hyx : y = x
    · right; rw [hyx]; exact hx o
    · rcases hmem with hmem | hmem
      · left
        rcases List.mem_cons.mp hmem with h | h
        · exact absurd h.symm hyx
        · exact h
      · right; rw [hne y (List.mem_cons_self _ _) hyx o]; exact hmem

theorem radix_inj (X X' c c' C : Int) (hc : 0 ≤ c) (hc' : 0 ≤ c') (h1 : c < C) (h2 : c' < C)
    (h : X * C + c = X' * C + c') : X = X' ∧ c = c' := by
  have hX : X = X' := by
    by_contra hne
    rcases lt_or_gt_of_ne hne with hlt | hgt
    · have : (X + 1) * C ≤ X' * C := by
        apply mul_le_mul_of_nonneg_right _ (by omega); omega
      nlinarith
    · have : (X' + 1) * C ≤ X * C := by
        apply mul_le_mul_of_nonneg_right _ (by omega); omega
      nlinarith
  subst hX
  exact ⟨rfl, by omega⟩

theorem out_index_inj (d : Dims) (hp : d.npol = 4) (s r c s' r' c' j k : Int)
    (hr : 0 ≤ r ∧ r < d.narow) (hr' : 0 ≤ r' ∧ r' < d.narow)
    (hc : 0 ≤ c ∧ c < d.nchan) (hc' : 0 ≤ c' ∧ c' < d.nchan)
    (hj : 0 ≤ j ∧ j < 4) (hk : 0 ≤ k ∧ k < 4)
    (h : out_index d s r c + j = out_index d s' r' c' + k) :
    s = s' ∧ r = r' ∧ c = c' ∧ j = k := by
  unfold out_index at h
  rw [hp] at h
  obtain ⟨h1, h2⟩ := radix_inj _ _ j k 4 hj.1 hk.1 hj.2 hk.2 h
  obtain ⟨h3, h4⟩ := radix_inj _ _ c c' d.nchan hc.1 hc'.1 hc.2 hc'.2 h1
  obtain ⟨h5, h6⟩ := radix_inj _ _ r r' d.narow hr.1 hr'.1 hr.2 hr'.2 h3
  exact ⟨h5, h6, h4, h2⟩

theorem mem_triples (d : Dims) (s r c : Nat) :
    (s, r, c) ∈ triples d ↔ (s : Int) < d.nsrc ∧ (r : Int) < d.narow ∧ (c : Int) < d.nchan := by
  simp only [triples, List.mem_flatMap, List.mem_map, List.mem_range, Int.lt_toNat,
    Prod.mk.injEq]
  constructor
  · rintro ⟨a, ha, b, hb, e, he, rfl, rfl, rfl⟩
    exact ⟨ha, hb, he⟩
  · rintro ⟨h1, h2, h3⟩
    exact ⟨s, h1, r, h2, c, h3, rfl, rfl, rfl⟩

theorem loops_eq_foldl (f : Flags) (d : Dims) (bsqrt complex_phase feed_rotation ddes : Int → CT)
    (arow_time_index : Int → Int) (ant_jones : Int → CT) :
    loops f d bsqrt complex_phase feed_rotation ddes arow_time_index ant_jones =
      (triples d).foldl (fun o x => element f d bsqrt complex_phase feed_rotation ddes
        x.1 x.2.1 (arow_time_index x.2.1) x.2.2 o) ant_jones := by
  simp only [loops, triples, foldl_flat, List.foldl_map]

theorem element_other (f : Flags) (d : Dims) (bsqrt complex_phase feed_rotation ddes : Int → CT)
    (src row time chan : Int) (o : Int → CT) (p : Int)
    (hp : ∀ k : Int, 0 ≤ k → k < 4 → p ≠ out_index d src row chan + k) :
    element f d bsqrt complex_phase feed_rotation ddes src row time chan o p = o p := by
  have h0 := hp 0 (by norm_num) (by norm_num)
  have h1 := hp 1 (by norm_num) (by norm_num)
  have h2 := hp 2 (by norm_num) (by norm_num)
  have h3 := hp 3 (by norm_num) (by norm_num)
  simp only [element]
  rw [Function.update_noteq h3, Function.update_noteq h2, Function.update_noteq h1,
    Function.update_noteq h0]

theorem element_same (f : Flags) (d : Dims) (bsqrt complex_phase feed_rotation ddes : Int → CT)
    (src row time chan : Int) (o : Int → CT) :
    jones_at (element f d bsqrt complex_phase feed_rotation ddes src row time chan o)
        (out_index d src row chan) =
      (chain f d bsqrt complex_phase feed_rotation ddes src row time chan).active := by
  simp [jones_at, element, Bufs.active, Function.update]

/-- After the loops, the four cells of the element `(src, row, chan)` hold the
active slot of its chain: no later pass writes them again. -/
theorem loops_at (f : Flags) (d : Dims) (bsqrt complex_phase feed_rotation ddes : Int → CT)
    (arow_time_index : Int → Int) (ant_jones : Int → CT) (hpol : d.npol = 4)
    (src row chan : Int) (hs : 0 ≤ src ∧ src < d.nsrc) (hr : 0 ≤ row ∧ row < d.narow)
    (hc : 0 ≤ chan ∧ chan < d.nchan) :
    jones_at (loops f d bsqrt complex_phase feed_rotation ddes arow_time_index ant_jones)
        (out_index d src row chan) =
      (chain f d bsqrt complex_phase feed_rotation ddes src row (arow_time_index row)
        chan).active := by
  obtain ⟨s, rfl⟩ := Int.eq_ofNat_of_zero_le hs.1
  obtain ⟨r, rfl⟩ := Int.eq_ofNat_of_zero_le hr.1
  obtain ⟨c, rfl⟩ := Int.eq_ofNat_of_zero_le hc.1
  have hmem : (s, r, c) ∈ triples d := by
    rw [mem_triples]; omega
  rw [loops_eq_foldl, ← element_same f d bsqrt complex_phase feed_rotation ddes s r
    (arow_time_index r) c ant_jones]
  have key : ∀ k : Int, 0 ≤ k → k < 4 →
      (triples d).foldl (fun o x => element f d bsqrt complex_phase feed_rotation ddes
        x.1 x.2.1 (arow_time_index x.2.1) x.2.2 o) ant_jones (out_index d s r c + k) =
      element f d bsqrt complex_phase feed_rotation ddes s r (arow_time_index r) c ant_jones
        (out_index d s r c + k) := by
    intro k hk0 hk4
    apply foldl_last_write _ (s, r, c) _ _ _ _ _ _ (Or.inl hmem)
    · intro o
      have hk : k = 0 ∨ k = 1 ∨ k = 2 ∨ k = 3 := by omega
      rcases hk with rfl | rfl | rfl | rfl <;> simp [element, Function.update]
    · rintro ⟨s', r', c'⟩ hy hne o
      rw [mem_triples] at hy
      apply element_other
      intro j hj0 hj4 heq
      have := out_index_inj d hpol s r c s' r' c' k j (by omega) (by omega) (by omega)
        (by omega) ⟨hk0, hk4⟩ ⟨hj0, hj4⟩ heq
      apply hne
      simp only [Prod.mk.injEq]
      omega
  have k0 := key 0 (by norm_num) (by norm_num)
  have k1 := key 1 (by norm_num) (by norm_num)
  have k2 := key 2 (by norm_num) (by norm_num)
  have k3 := key 3 (by norm_num) (by norm_num)
  simp only [add_zero] at k0
  simp only [jones_at, k0, k1, k2, k3]

theorem triples_eq_nil (d : Dims) (h : d.narow ≤ 0) : triples d = [] := by
  have : d.narow.toNat = 0 := by omega
  simp [triples, this]

theorem loops_of_no_row (f : Flags) (d : Dims) (bsqrt complex_phase feed_rotation ddes : Int → CT)
    (arow_time_index : Int → Int) (ant_jones : Int → CT) (h : d.narow ≤ 0) :
    loops f d bsqrt complex_phase feed_rotation ddes arow_time_index ant_jones = ant_jones := by
  rw [loops_eq_foldl, triples_eq_nil d h]
  rfl

/-! ## Dimension resolution and validation -/

theorem to_int_of_range (x : Int) (h0 : -2 ^ 31 ≤ x) (h1 : x < 2 ^ 31) : to_int x = x := by
  unfold to_int; omega

theorem update_dim_unset {α : Type} (tensor : Tensor α) (dim : Nat) (n : Int)
    (hd : tensor.shape[dim]? = some n) (h0 : 0 ≤ n) (h1 : n < 2 ^ 31) :
    update_dim (-1) tensor dim = .ok n := by
  simp [update_dim, Tensor.dim_size, hd, to_int_of_range n (by omega) h1]

theorem update_dim_set {α : Type} (old_size : Int) (tensor : Tensor α) (dim : Nat) (n : Int)
    (hd : tensor.shape[dim]? = some n) (hold : old_size ≠ -1) :
    update_dim old_size tensor dim =
      if old_size = n then .ok old_size else .error (.DimensionConflict old_size n) := by
  simp only [update_dim, Tensor.dim_size, hd, hold, if_false]
  by_cases h : old_size = n <;> simp [h]

theorem bind_eq_ok {ε α β : Type} (x : Except ε α) (g : α → Except ε β) (b : β) :
    (x >>= g) = .ok b ↔ ∃ a, x = .ok a ∧ g a = .ok b := by
  cases x <;> simp [bind, Except.bind]

theorem update_dim_ok_unset {α : Type} (tensor : Tensor α) (dim : Nat) (v : Int)
    (h : update_dim (-1) tensor dim = .ok v) :
    ∃ n, tensor.shape[dim]? = some n ∧ v = to_int n := by
  unfold update_dim Tensor.dim_size at h
  cases hd : tensor.shape[dim]? with
  | none => simp [hd] at h
  | some n =>
    simp only [hd, if_true] at h
    exact ⟨n, rfl, by cases h; rfl⟩

theorem update_dim_ok_set {α : Type} (old_size : Int) (tensor : Tensor α) (dim : Nat) (v : Int)
    (hold : old_size ≠ -1) (h : update_dim old_size tensor dim = .ok v) :
    v = old_size ∧ tensor.shape[dim]? = some old_size := by
  unfold update_dim Tensor.dim_size at h
  cases hd : tensor.shape[dim]? with
  | none => simp [hd] at h
  | some n =>
    simp only [hd, hold, if_false] at h
    by_cases e : old_size = n
    · simp only [e, ne_eq, not_true_eq_false, if_false] at h
      cases h
      exact ⟨e.symm, by rw [e]⟩
    · simp [e] at h

theorem update_dim_ne_npol {α : Type} (old_size : Int) (tensor : Tensor α) (dim : Nat) (n : Int) :
    update_dim old_size tensor dim ≠ .error (.InvalidNpol n) := by
  unfold update_dim
  cases tensor.dim_size dim with
  | none => simp
  | some m =>
    simp only
    split
    · simp
    · split <;> simp

theorem bind_ne_npol {α β : Type} (x : Except Status α) (g : α → Except Status β) (n : Int)
    (hx : x ≠ .error (.InvalidNpol n)) (hg : ∀ a, g a ≠ .error (.InvalidNpol n)) :
    (x >>= g) ≠ .error (.InvalidNpol n) := by
  cases x with
  | error e => simpa [bind, Except.bind] using hx
  | ok a => simpa [bind, Except.bind] using hg a

theorem resolve_dims_ne_npol {α : Type} (f : Flags)
    (in_bsqrt in_complex_phase in_feed_rotation in_ddes : Tensor α) (n : Int) :
    resolve_dims f in_bsqrt in_complex_phase in_feed_rotation in_ddes ≠
      .error (.InvalidNpol n) := by
  have p : ∀ d : Dims, (pure d : Except Status Dims) ≠ .error (.InvalidNpol n) := by
    intro d; simp [pure, Except.pure]
  unfold resolve_dims
  refine bind_ne_npol _ _ n ?_ fun d1 => bind_ne_npol _ _ n ?_ fun d2 =>
    bind_ne_npol _ _ n ?_ fun d3 => ?_
  · unfold dims_bsqrt
    split
    · exact bind_ne_npol _ _ n (update_dim_ne_npol _ _ _ n) fun _ =>
        bind_ne_npol _ _ n (update_dim_ne_npol _ _ _ n) fun _ =>
        bind_ne_npol _ _ n (update_dim_ne_npol _ _ _ n) fun _ =>
        bind_ne_npol _ _ n (update_dim_ne_npol _ _ _ n) fun _ => p _
    · exact p _
  · unfold dims_complex_phase
    split
    · exact bind_ne_npol _ _ n (update_dim_ne_npol _ _ _ n) fun _ =>
        bind_ne_npol _ _ n (update_dim_ne_npol _ _ _ n) fun _ =>
        bind_ne_npol _ _ n (update_dim_ne_npol _ _ _ n) fun _ => p _
    · exact p _
  · unfold dims_feed_rotation
    split
    · exact bind_ne_npol _ _ n (update_dim_ne_npol _ _ _ n) fun _ => p _
    · exact p _
  · unfold dims_ddes
    split
    · exact bind_ne_npol _ _ n (update_dim_ne_npol _ _ _ n) fun _ =>
        bind_ne_npol _ _ n (update_dim_ne_npol _ _ _ n) fun _ =>
        bind_ne_npol _ _ n (update_dim_ne_npol _ _ _ n) fun _ =>
        bind_ne_npol _ _ n (update_dim_ne_npol _ _ _ n) fun _ => p _
    · exact p _

/-- The check of `npol` fails exactly when resolution succeeds with a size
other than 4. -/
theorem validate_npol_iff {α : Type} (f : Flags)
    (in_bsqrt in_complex_phase in_feed_rotation in_ddes : Tensor α) (n : Int) :
    validate f in_bsqrt in_complex_phase in_feed_rotation in_ddes = .error (.InvalidNpol n) ↔
      ∃ d, resolve_dims f in_bsqrt in_complex_phase in_feed_rotation in_ddes = .ok d ∧
        d.npol = n ∧ n ≠ 4 := by
  unfold validate
  cases hr : resolve_dims f in_bsqrt in_complex_phase in_feed_rotation in_ddes with
  | error e =>
    have := resolve_dims_ne_npol f in_bsqrt in_complex_phase in_feed_rotation in_ddes n
    rw [hr] at this
    simpa [bind, Except.bind] using this
  | ok d =>
    by_cases h4 : d.npol = 4
    · simp [bind, Except.bind, CREATE_ANTENNA_JONES_NPOL, h4, pure, Except.pure]
      intro h; omega
    · simp only [bind, Except.bind, CREATE_ANTENNA_JONES_NPOL, h4, if_false, Except.error.injEq,
        Status.InvalidNpol.injEq, Except.ok.injEq, exists_eq_left']
      constructor
      · intro h; exact ⟨h, by omega⟩
      · intro h; exact h.1

theorem dims_bsqrt_npol {α : Type} (f : Flags) (in_bsqrt : Tensor α) (d d' : Dims)
    (h : dims_bsqrt f in_bsqrt d = .ok d') :
    (f.have_bsqrt = false ∧ d' = d) ∨
      (f.have_bsqrt = true ∧ update_dim d.npol in_bsqrt 3 = .ok d'.npol) := by
  unfold dims_bsqrt at h
  cases hf : f.have_bsqrt with
  | false =>
    simp only [hf, Bool.false_eq_true, if_false, pure, Except.pure, Except.ok.injEq] at h
    exact Or.inl ⟨rfl, h.symm⟩
  | true =>
    simp only [hf, if_true, bind_eq_ok] at h
    obtain ⟨a, -, b, -, c, -, p, hp, h⟩ := h
    simp only [pure, Except.pure, Except.ok.injEq] at h
    subst h
    exact Or.inr ⟨rfl, hp⟩

theorem dims_complex_phase_npol {α : Type} (f : Flags) (in_complex_phase : Tensor α)
    (d d' : Dims) (h : dims_complex_phase f in_complex_phase d = .ok d') : d'.npol = d.npol := by
  unfold dims_complex_phase at h
  cases hf : f.have_complex_phase with
  | false =>
    simp only [hf, Bool.false_eq_true, if_false, pure, Except.pure, Except.ok.injEq] at h
    rw [← h]
  | true =>
    simp only [hf, if_true, bind_eq_ok] at h
    obtain ⟨a, -, b, -, c, -, h⟩ := h
    simp only [pure, Except.pure, Except.ok.injEq] at h
    subst h
    rfl

theorem dims_feed_rotation_npol {α : Type} (f : Flags) (in_feed_rotation : Tensor α)
    (d d' : Dims) (h : dims_feed_rotation f in_feed_rotation d = .ok d') : d'.npol = d.npol := by
  unfold dims_feed_rotation at h
  cases hf : f.have_feed_rotation with
  | false =>
    simp only [hf, Bool.false_eq_true, if_false, pure, Except.pure, Except.ok.injEq] at h
    rw [← h]
  | true =>
    simp only [hf, if_true, bind_eq_ok] at h
    obtain ⟨a, -, h⟩ := h
    simp only [pure, Except.pure, Except.ok.injEq] at h
    subst h
    rfl

theorem dims_ddes_npol {α : Type} (f : Flags) (in_ddes : Tensor α) (d d' : Dims)
    (h : dims_ddes f in_ddes d = .ok d') :
    (f.have_ddes = false ∧ d' = d) ∨
      (f.have_ddes = true ∧ update_dim d.npol in_ddes 3 = .ok d'.npol) := by
  unfold dims_ddes at h
  cases hf : f.have_ddes with
  | false =>
    simp only [hf, Bool.false_eq_true, if_false, pure, Except.pure, Except.ok.injEq] at h
    exact Or.inl ⟨rfl, h.symm⟩
  | true =>
    simp only [hf, if_true, bind_eq_ok] at h
    obtain ⟨a, -, b, -, c, -, p, hp, h⟩ := h
    simp only [pure, Except.pure, Except.ok.injEq] at h
    subst h
    exact Or.inr ⟨rfl, hp⟩

/-- The size `npol` that resolution ends with: the last axis of `bsqrt` when it
is present, else the last axis of `ddes` when it is present, else still `-1`. -/
theorem resolve_dims_npol {α : Type} (f : Flags)
    (in_bsqrt in_complex_phase in_feed_rotation in_ddes : Tensor α)
    (sb tb cb pb se re ce pe : Int)
    (hb : f.have_bsqrt = true → in_bsqrt.shape = [sb, tb, cb, pb])
    (he : f.have_ddes = true → in_ddes.shape = [se, re, ce, pe])
    (hpb : 0 ≤ pb ∧ pb < 2 ^ 31) (hpe : 0 ≤ pe ∧ pe < 2 ^ 31) (d : Dims)
    (h : resolve_dims f in_bsqrt in_complex_phase in_feed_rotation in_ddes = .ok d) :
    d.npol = if f.have_bsqrt then pb else if f.have_ddes then pe else -1 := by
  unfold resolve_dims at h
  simp only [bind_eq_ok] at h
  obtain ⟨d1, h1, d2, h2, d3, h3, h4⟩ := h
  have e2 := dims_complex_phase_npol f in_complex_phase d1 d2 h2
  have e3 := dims_feed_rotation_npol f in_feed_rotation d2 d3 h3
  have e1 : d1.npol = if f.have_bsqrt then pb else -1 := by
    rcases dims_bsqrt_npol f in_bsqrt _ _ h1 with ⟨hf, hd⟩ | ⟨hf, hu⟩
    · rw [hd, hf]; rfl
    · obtain ⟨n, hn, hv⟩ := update_dim_ok_unset in_bsqrt 3 _ hu
      rw [hb hf] at hn
      simp only [List.getElem?_cons_succ, List.getElem?_cons_zero, Option.some.injEq] at hn
      rw [hf, hv, ← hn, to_int_of_range pb (by omega) hpb.2]
      rfl
  rcases dims_ddes_npol f in_ddes _ _ h4 with ⟨hf, hd⟩ | ⟨hf, hu⟩
  · rw [hd, e3, e2, e1, hf]
    simp
  · rw [e3, e2, e1] at hu
    cases hfb : f.have_bsqrt with
    | true =>
      rw [hfb] at hu
      simp only [if_true] at hu
      have := (update_dim_ok_set pb in_ddes 3 _ (by omega) hu).1
      simp [this]
    | false =>
      rw [hfb] at hu
      simp only [Bool.false_eq_true, if_false] at hu
      obtain ⟨n, hn, hv⟩ := update_dim_ok_unset in_ddes 3 _ hu
      rw [he hf] at hn
      simp only [List.getElem?_cons_succ, List.getElem?_cons_zero, Option.some.injEq] at hn
      rw [hv, ← hn, to_int_of_range pe (by omega) hpe.2]
      simp [hf]

theorem validate_all {α : Type} (in_bsqrt in_complex_phase in_feed_rotation in_ddes : Tensor α)
    (nsrc ntime narow nchan : Int)
    (hsrc : 0 ≤ nsrc ∧ nsrc < 2 ^ 31) (htime : 0 ≤ ntime ∧ ntime < 2 ^ 31)
    (harow : 0 ≤ narow ∧ narow < 2 ^ 31) (hchan : 0 ≤ nchan ∧ nchan < 2 ^ 31)
    (hb : in_bsqrt.shape = [nsrc, ntime, nchan, 4])
    (hc : in_complex_phase.shape = [nsrc, narow, nchan])
    (hl : in_feed_rotation.shape = [narow, 4])
    (he : in_ddes.shape = [nsrc, narow, nchan, 4]) :
    validate ⟨true, true, true, true⟩ in_bsqrt in_complex_phase in_feed_rotation in_ddes =
      .ok ⟨nsrc, ntime, narow, nchan, 4⟩ := by
  have e1 : nsrc ≠ -1 := by omega
  have e2 : narow ≠ -1 := by omega
  have e3 : nchan ≠ -1 := by omega
  simp [validate, resolve_dims, dims_bsqrt, dims_complex_phase, dims_feed_rotation, dims_ddes,
    Dims.unset, bind, Except.bind, pure, Except.pure, CREATE_ANTENNA_JONES_NPOL,
    update_dim_unset in_bsqrt 0 nsrc (by simp [hb]) hsrc.1 hsrc.2,
    update_dim_unset in_bsqrt 1 ntime (by simp [hb]) htime.1 htime.2,
    update_dim_unset in_bsqrt 2 nchan (by simp [hb]) hchan.1 hchan.2,
    update_dim_unset in_bsqrt 3 4 (by simp [hb]) (by norm_num) (by norm_num),
    update_dim_unset in_complex_phase 1 narow (by simp [hc]) harow.1 harow.2,
    update_dim_set nsrc in_complex_phase 0 nsrc (by simp [hc]) e1,
    update_dim_set nchan in_complex_phase 2 nchan (by simp [hc]) e3,
    update_dim_set narow in_feed_rotation 0 narow (by simp [hl]) e2,
    update_dim_set nsrc in_ddes 0 nsrc (by simp [he]) e1,
    update_dim_set narow in_ddes 1 narow (by simp [he]) e2,
    update_dim_set nchan in_ddes 2 nchan (by simp [he]) e3,
    update_dim_set 4 in_ddes 3 4 (by simp [he]) (by norm_num)]

theorem validate_bsqrt_ddes {α : Type} (in_bsqrt in_complex_phase in_feed_rotation in_ddes : Tensor α)
    (nsrc ntime narow nchan : Int)
    (hsrc : 0 ≤ nsrc ∧ nsrc < 2 ^ 31) (htime : 0 ≤ ntime ∧ ntime < 2 ^ 31)
    (harow : 0 ≤ narow ∧ narow < 2 ^ 31) (hchan : 0 ≤ nchan ∧ nchan < 2 ^ 31)
    (hb : in_bsqrt.shape = [nsrc, ntime, nchan, 4])
    (he : in_ddes.shape = [nsrc, narow, nchan, 4]) :
    validate ⟨true, false, false, true⟩ in_bsqrt in_complex_phase in_feed_rotation in_ddes =
      .ok ⟨nsrc, ntime, narow, nchan, 4⟩ := by
  have e1 : nsrc ≠ -1 := by omega
  have e3 : nchan ≠ -1 := by omega
  simp [validate, resolve_dims, dims_bsqrt, dims_complex_phase, dims_feed_rotation, dims_ddes,
    Dims.unset, bind, Except.bind, pure, Except.pure, CREATE_ANTENNA_JONES_NPOL,
    update_dim_unset in_bsqrt 0 nsrc (by simp [hb]) hsrc.1 hsrc.2,
    update_dim_unset in_bsqrt 1 ntime (by simp [hb]) htime.1 htime.2,
    update_dim_unset in_bsqrt 2 nchan (by simp [hb]) hchan.1 hchan.2,
    update_dim_unset in_bsqrt 3 4 (by simp [hb]) (by norm_num) (by norm_num),
    update_dim_unset in_ddes 1 narow (by simp [he]) harow.1 harow.2,
    update_dim_set nsrc in_ddes 0 nsrc (by simp [he]) e1,
    update_dim_set nchan in_ddes 2 nchan (by simp [he]) e3,
    update_dim_set 4 in_ddes 3 4 (by simp [he]) (by norm_num)]

theorem validate_cp_ddes {α : Type} (in_bsqrt in_complex_phase in_feed_rotation in_ddes : Tensor α)
    (nsrc narow nchan : Int)
    (hsrc : 0 ≤ nsrc ∧ nsrc < 2 ^ 31)
    (harow : 0 ≤ narow ∧ narow < 2 ^ 31) (hchan : 0 ≤ nchan ∧ nchan < 2 ^ 31)
    (hc : in_complex_phase.shape = [nsrc, narow, nchan])
    (he : in_ddes.shape = [nsrc, narow, nchan, 4]) :
    validate ⟨false, true, false, true⟩ in_bsqrt in_complex_phase in_feed_rotation in_ddes =
      .ok ⟨nsrc, -1, narow, nchan, 4⟩ := by
  have e1 : nsrc ≠ -1 := by omega
  have e2 : narow ≠ -1 := by omega
  have e3 : nchan ≠ -1 := by omega
  simp [validate, resolve_dims, dims_bsqrt, dims_complex_phase, dims_feed_rotation, dims_ddes,
    Dims.unset, bind, Except.bind, pure, Except.pure, CREATE_ANTENNA_JONES_NPOL,
    update_dim_unset in_complex_phase 0 nsrc (by simp [hc]) hsrc.1 hsrc.2,
    update_dim_unset in_complex_phase 1 narow (by simp [hc]) harow.1 harow.2,
    update_dim_unset in_complex_phase 2 nchan (by simp [hc]) hchan.1 hchan.2,
    update_dim_unset in_ddes 3 4 (by simp [he]) (by norm_num) (by norm_num),
    update_dim_set nsrc in_ddes 0 nsrc (by simp [he]) e1,
    update_dim_set narow in_ddes 1 narow (by simp [he]) e2,
    update_dim_set nchan in_ddes 2 nchan (by simp [he]) e3]

theorem validate_bsqrt {α : Type} (in_bsqrt in_complex_phase in_feed_rotation in_ddes : Tensor α)
    (nsrc ntime nchan : Int)
    (hsrc : 0 ≤ nsrc ∧ nsrc < 2 ^ 31) (htime : 0 ≤ ntime ∧ ntime < 2 ^ 31)
    (hchan : 0 ≤ nchan ∧ nchan < 2 ^ 31)
    (hb : in_bsqrt.shape = [nsrc, ntime, nchan, 4]) :
    validate ⟨true, false, false, false⟩ in_bsqrt in_complex_phase in_feed_rotation in_ddes =
      .ok ⟨nsrc, ntime, -1, nchan, 4⟩ := by
  simp [validate, resolve_dims, dims_bsqrt, dims_complex_phase, dims_feed_rotation, dims_ddes,
    Dims.unset, bind, Except.bind, pure, Except.pure, CREATE_ANTENNA_JONES_NPOL,
    update_dim_unset in_bsqrt 0 nsrc (by simp [hb]) hsrc.1 hsrc.2,
    update_dim_unset in_bsqrt 1 ntime (by simp [hb]) htime.1 htime.2,
    update_dim_unset in_bsqrt 2 nchan (by simp [hb]) hchan.1 hchan.2,
    update_dim_unset in_bsqrt 3 4 (by simp [hb]) (by norm_num) (by norm_num)]

theorem validate_feed_rotation {α : Type}
    (in_bsqrt in_complex_phase in_feed_rotation in_ddes : Tensor α) (narow : Int)
    (rest : List Int) (hl : in_feed_rotation.shape = narow :: rest) :
    validate ⟨false, false, true, false⟩ in_bsqrt in_complex_phase in_feed_rotation in_ddes =
      .error (.InvalidNpol (-1)) := by
  simp [validate, resolve_dims, dims_bsqrt, dims_complex_phase, dims_feed_rotation, dims_ddes,
    Dims.unset, bind, Except.bind, pure, Except.pure, CREATE_ANTENNA_JONES_NPOL, update_dim,
    Tensor.dim_size, hl]

theorem validate_none {α : Type} (in_bsqrt in_complex_phase in_feed_rotation in_ddes : Tensor α) :
    validate ⟨false, false, false, false⟩ in_bsqrt in_complex_phase in_feed_rotation in_ddes =
      .error (.InvalidNpol (-1)) := by
  simp [validate, resolve_dims, dims_bsqrt, dims_complex_phase, dims_feed_rotation, dims_ddes,
    Dims.unset, bind, Except.bind, pure, Except.pure, CREATE_ANTENNA_JONES_NPOL]

/-! ## The result of Compute -/

theorem Compute_of_validate (f : Flags) (allocate_output : List Int → Option (Int → CT))
    (in_bsqrt in_complex_phase in_feed_rotation in_ddes : Tensor CT)
    (in_arow_time_index : Tensor Int) (d : Dims) (buffer : Int → CT)
    (hv : validate f in_bsqrt in_complex_phase in_feed_rotation in_ddes = .ok d)
    (ha : allocate_output [d.nsrc, d.narow, d.nchan, d.npol] = some buffer) :
    Compute f allocate_output in_bsqrt in_complex_phase in_feed_rotation in_ddes
        in_arow_time_index =
      .ok ⟨[d.nsrc, d.narow, d.nchan, d.npol],
        loops f d in_bsqrt.flat in_complex_phase.flat in_feed_rotation.flat in_ddes.flat
          in_arow_time_index.flat buffer⟩ := by
  simp only [Compute, hv, bind, Except.bind, ha]
  rfl

theorem Compute_of_validate_error (f : Flags) (allocate_output : List Int → Option (Int → CT))
    (in_bsqrt in_complex_phase in_feed_rotation in_ddes : Tensor CT)
    (in_arow_time_index : Tensor Int) (e : Status)
    (hv : validate f in_bsqrt in_complex_phase in_feed_rotation in_ddes = .error e) :
    Compute f allocate_output in_bsqrt in_complex_phase in_feed_rotation in_ddes
        in_arow_time_index = .error e := by
  simp only [Compute, hv, bind, Except.bind]

theorem Compute_npol_iff (f : Flags) (allocate_output : List Int → Option (Int → CT))
    (in_bsqrt in_complex_phase in_feed_rotation in_ddes : Tensor CT)
    (in_arow_time_index : Tensor Int) (n : Int) :
    Compute f allocate_output in_bsqrt in_complex_phase in_feed_rotation in_ddes
        in_arow_time_index = .error (.InvalidNpol n) ↔
      validate f in_bsqrt in_complex_phase in_feed_rotation in_ddes =
        .error (.InvalidNpol n) := by
  unfold Compute
  cases hv : validate f in_bsqrt in_complex_phase in_feed_rotation in_ddes with
  | error e => simp [bind, Except.bind]
  | ok d =>
    simp only [bind, Except.bind]
    cases allocate_output [d.nsrc, d.narow, d.nchan, d.npol] <;> simp [pure, Except.pure]

theorem validate_ok_npol {α : Type} (f : Flags)
    (in_bsqrt in_complex_phase in_feed_rotation in_ddes : Tensor α) (d : Dims)
    (hv : validate f in_bsqrt in_complex_phase in_feed_rotation in_ddes = .ok d) :
    d.npol = 4 := by
  unfold validate at hv
  rw [bind_eq_ok] at hv
  obtain ⟨d', -, h⟩ := hv
  by_cases h4 : d'.npol = CREATE_ANTENNA_JONES_NPOL
  · simp only [h4, if_true, pure, Except.pure, Except.ok.injEq] at h
    rw [← h]
    exact h4
  · simp [h4] at h

/-- When validation and allocation succeed, `Compute` returns an output of
shape `(nsrc, narow, nchan, 4)` in which the four values of the element
`(src, row, chan)` are what the single accumulator holds after the present
terms, read from the flattened inputs at the offsets of the source. -/
theorem Compute_elements (f : Flags) (allocate_output : List Int → Option (Int → CT))
    (in_bsqrt in_complex_phase in_feed_rotation in_ddes : Tensor CT)
    (in_arow_time_index : Tensor Int) (d : Dims) (buffer : Int → CT)
    (hv : validate f in_bsqrt in_complex_phase in_feed_rotation in_ddes = .ok d)
    (ha : allocate_output [d.nsrc, d.narow, d.nchan, 4] = some buffer) :
    ∃ ant_jones : Tensor CT,
      Compute f allocate_output in_bsqrt in_complex_phase in_feed_rotation in_ddes
        in_arow_time_index = .ok ant_jones ∧
      ant_jones.shape = [d.nsrc, d.narow, d.nchan, 4] ∧
      ∀ src row chan : Int, 0 ≤ src → src < d.nsrc → 0 ≤ row → row < d.narow →
        0 ≤ chan → chan < d.nchan →
        jones_at ant_jones.flat (((src * d.narow + row) * d.nchan + chan) * 4) =
          fold_terms f
            (jones_at in_bsqrt.flat
              (((src * d.ntime + in_arow_time_index.flat row) * d.nchan + chan) * 4))
            (in_complex_phase.flat ((src * d.narow + row) * d.nchan + chan))
            (jones_at in_feed_rotation.flat (row * 4))
            (jones_at in_ddes.flat (((src * d.narow + row) * d.nchan + chan) * 4)) := by
  have hpol := validate_ok_npol f in_bsqrt in_complex_phase in_feed_rotation in_ddes d hv
  rw [← hpol] at ha
  refine ⟨_, Compute_of_validate f allocate_output _ _ _ _ in_arow_time_index d buffer hv ha,
    by rw [hpol], ?_⟩
  intro src row chan hs0 hs1 hr0 hr1 hc0 hc1
  have h := loops_at f d in_bsqrt.flat in_complex_phase.flat in_feed_rotation.flat in_ddes.flat
    in_arow_time_index.flat buffer hpol src row chan ⟨hs0, hs1⟩ ⟨hr0, hr1⟩ ⟨hc0, hc1⟩
  rw [chain_active] at h
  simp only [out_index, hpol] at h
  exact h

/-- With exactly `bsqrt` and `ddes` present, validation passed with the sizes
`d` and inputs of the shapes of the interface for these sizes, the element
`(src, row, chan)` of the output is
`ddes[src, row, chan] * bsqrt[src, arow_time_index[row], chan]`. -/
theorem Compute_bsqrt_ddes_of_validate (allocate_output : List Int → Option (Int → CT))
    (in_bsqrt in_complex_phase in_feed_rotation in_ddes : Tensor CT)
    (in_arow_time_index : Tensor Int) (d : Dims) (buffer : Int → CT)
    (hv : validate ⟨true, false, false, true⟩ in_bsqrt in_complex_phase in_feed_rotation
      in_ddes = .ok d)
    (ha : allocate_output [d.nsrc, d.narow, d.nchan, 4] = some buffer)
    (hb : in_bsqrt.shape = [d.nsrc, d.ntime, d.nchan, 4])
    (he : in_ddes.shape = [d.nsrc, d.narow, d.nchan, 4]) :
    ∃ ant_jones : Tensor CT,
      Compute ⟨true, false, false, true⟩ allocate_output in_bsqrt in_complex_phase
        in_feed_rotation in_ddes in_arow_time_index = .ok ant_jones ∧
      ant_jones.shape = [d.nsrc, d.narow, d.nchan, 4] ∧
      ∀ src row chan : Int, 0 ≤ src → src < d.nsrc → 0 ≤ row → row < d.narow →
        0 ≤ chan → chan < d.nchan →
        jones_at ant_jones.flat (((src * d.narow + row) * d.nchan + chan) * 4) =
          in_ddes.matrix [src, row, chan] *
            in_bsqrt.matrix [src, in_arow_time_index.flat row, chan] := by
  obtain ⟨ant_jones, h1, h2, h3⟩ := Compute_elements _ allocate_output in_bsqrt
    in_complex_phase in_feed_rotation in_ddes in_arow_time_index d buffer hv ha
  refine ⟨ant_jones, h1, h2, ?_⟩
  intro src row chan hs0 hs1 hr0 hr1 hc0 hc1
  rw [h3 src row chan hs0 hs1 hr0 hr1 hc0 hc1, matrix4_eq in_ddes _ _ _ he,
    matrix4_eq in_bsqrt _ _ _ hb]
  simp [fold_terms, acc_matrix]

/-- With `complex_phase` and `ddes` present, validation passed with the sizes
`d` and inputs of the shapes of the interface for these sizes, the element
`(src, row, chan)` of the output is `ddes[src, row, chan]` times the matrix
whose four cells all hold `complex_phase[src, row, chan]`. -/
theorem Compute_complex_phase_ddes (allocate_output : List Int → Option (Int → CT))
    (in_bsqrt in_complex_phase in_feed_rotation in_ddes : Tensor CT)
    (in_arow_time_index : Tensor Int) (d : Dims) (buffer : Int → CT)
    (hv : validate ⟨false, true, false, true⟩ in_bsqrt in_complex_phase in_feed_rotation
      in_ddes = .ok d)
    (ha : allocate_output [d.nsrc, d.narow, d.nchan, 4] = some buffer)
    (hc : in_complex_phase.shape = [d.nsrc, d.narow, d.nchan])
    (he : in_ddes.shape = [d.nsrc, d.narow, d.nchan, 4]) :
    ∃ ant_jones : Tensor CT,
      Compute ⟨false, true, false, true⟩ allocate_output in_bsqrt in_complex_phase
        in_feed_rotation in_ddes in_arow_time_index = .ok ant_jones ∧
      ant_jones.shape = [d.nsrc, d.narow, d.nchan, 4] ∧
      ∀ src row chan : Int, 0 ≤ src → src < d.nsrc → 0 ≤ row → row < d.narow →
        0 ≤ chan → chan < d.nchan →
        jones_at ant_jones.flat (((src * d.narow + row) * d.nchan + chan) * 4) =
          in_ddes.matrix [src, row, chan] *
            jones (in_complex_phase.elem [src, row, chan]) (in_complex_phase.elem [src, row, chan])
              (in_complex_phase.elem [src, row, chan]) (in_complex_phase.elem [src, row, chan]) := by
  obtain ⟨ant_jones, h1, h2, h3⟩ := Compute_elements _ allocate_output in_bsqrt
    in_complex_phase in_feed_rotation in_ddes in_arow_time_index d buffer hv ha
  refine ⟨ant_jones, h1, h2, ?_⟩
  intro src row chan hs0 hs1 hr0 hr1 hc0 hc1
  rw [h3 src row chan hs0 hs1 hr0 hr1 hc0 hc1, matrix4_eq in_ddes _ _ _ he,
    elem3_eq in_complex_phase _ _ _ hc]
  simp [fold_terms, acc_matrix, acc_scalar]

/-! ## Invocations with a single term -/

theorem validate_ddes {α : Type} (in_bsqrt in_complex_phase in_feed_rotation in_ddes : Tensor α)
    (nsrc narow nchan : Int)
    (hsrc : 0 ≤ nsrc ∧ nsrc < 2 ^ 31) (harow : 0 ≤ narow ∧ narow < 2 ^ 31)
    (hchan : 0 ≤ nchan ∧ nchan < 2 ^ 31)
    (he : in_ddes.shape = [nsrc, narow, nchan, 4]) :
    validate ⟨false, false, false, true⟩ in_bsqrt in_complex_phase in_feed_rotation in_ddes =
      .ok ⟨nsrc, -1, narow, nchan, 4⟩ := by
  simp [validate, resolve_dims, dims_bsqrt, dims_complex_phase, dims_feed_rotation, dims_ddes,
    Dims.unset, bind, Except.bind, pure, Except.pure, CREATE_ANTENNA_JONES_NPOL,
    update_dim_unset in_ddes 0 nsrc (by simp [he]) hsrc.1 hsrc.2,
    update_dim_unset in_ddes 1 narow (by simp [he]) harow.1 harow.2,
    update_dim_unset in_ddes 2 nchan (by simp [he]) hchan.1 hchan.2,
    update_dim_unset in_ddes 3 4 (by simp [he]) (by norm_num) (by norm_num)]

theorem validate_complex_phase {α : Type}
    (in_bsqrt in_complex_phase in_feed_rotation in_ddes : Tensor α) (nsrc narow nchan : Int)
    (hsrc : 0 ≤ nsrc ∧ nsrc < 2 ^ 31) (harow : 0 ≤ narow ∧ narow < 2 ^ 31)
    (hchan : 0 ≤ nchan ∧ nchan < 2 ^ 31)
    (hc : in_complex_phase.shape = [nsrc, narow, nchan]) :
    validate ⟨false, true, false, false⟩ in_bsqrt in_complex_phase in_feed_rotation in_ddes =
      .error (.InvalidNpol (-1)) := by
  simp [validate, resolve_dims, dims_bsqrt, dims_complex_phase, dims_feed_rotation, dims_ddes,
    Dims.unset, bind, Except.bind, pure, Except.pure, CREATE_ANTENNA_JONES_NPOL,
    update_dim_unset in_complex_phase 0 nsrc (by simp [hc]) hsrc.1 hsrc.2,
    update_dim_unset in_complex_phase 1 narow (by simp [hc]) harow.1 harow.2,
    update_dim_unset in_complex_phase 2 nchan (by simp [hc]) hchan.1 hchan.2]

/-- With `bsqrt` the only present term nothing sets `narow`: validation passes
with `narow = -1`, the loops make no pass and `Compute` returns the buffer of the
allocator as it received it. -/
theorem Compute_bsqrt_alone (allocate_output : List Int → Option (Int → CT))
    (in_bsqrt in_complex_phase in_feed_rotation in_ddes : Tensor CT)
    (in_arow_time_index : Tensor Int) (nsrc ntime nchan : Int)
    (hsrc : 0 ≤ nsrc ∧ nsrc < 2 ^ 31) (htime : 0 ≤ ntime ∧ ntime < 2 ^ 31)
    (hchan : 0 ≤ nchan ∧ nchan < 2 ^ 31) (hb : in_bsqrt.shape = [nsrc, ntime, nchan, 4]) :
    Compute ⟨true, false, false, false⟩ allocate_output in_bsqrt in_complex_phase
        in_feed_rotation in_ddes in_arow_time_index =
      match allocate_output [nsrc, -1, nchan, 4] with
      | none => .error .AllocateOutput
      | some buffer => .ok ⟨[nsrc, -1, nchan, 4], buffer⟩ := by
  have hv := validate_bsqrt in_bsqrt in_complex_phase in_feed_rotation in_ddes nsrc ntime
    nchan hsrc htime hchan hb
  cases ha : allocate_output [nsrc, -1, nchan, 4] with
  | none =>
    simp only [Compute, hv, bind, Except.bind, ha]
  | some buffer =>
    rw [Compute_of_validate _ allocate_output _ _ _ _ in_arow_time_index _ buffer hv ha]
    simp only [loops_of_no_row _ ⟨nsrc, ntime, -1, nchan, 4⟩ _ _ _ _ _ _ (by norm_num)]

/-- With `ddes` the only present term, of the shape of the interface, the
element `(src, row, chan)` of the output of `Compute` is `ddes[src, row, chan]`. -/
theorem Compute_ddes_alone (allocate_output : List Int → Option (Int → CT))
    (in_bsqrt in_complex_phase in_feed_rotation in_ddes : Tensor CT)
    (in_arow_time_index : Tensor Int) (nsrc narow nchan : Int) (buffer : Int → CT)
    (hsrc : 0 ≤ nsrc ∧ nsrc < 2 ^ 31) (harow : 0 ≤ narow ∧ narow < 2 ^ 31)
    (hchan : 0 ≤ nchan ∧ nchan < 2 ^ 31) (he : in_ddes.shape = [nsrc, narow, nchan, 4])
    (ha : allocate_output [nsrc, narow, nchan, 4] = some buffer) :
    ∃ ant_jones : Tensor CT,
      Compute ⟨false, false, false, true⟩ allocate_output in_bsqrt in_complex_phase
        in_feed_rotation in_ddes in_arow_time_index = .ok ant_jones ∧
      ant_jones.shape = [nsrc, narow, nchan, 4] ∧
      ∀ src row chan : Int, 0 ≤ src → src < nsrc → 0 ≤ row → row < narow →
        0 ≤ chan → chan < nchan →
        jones_at ant_jones.flat (((src * narow + row) * nchan + chan) * 4) =
          in_ddes.matrix [src, row, chan] := by
  obtain ⟨ant_jones, h1, h2, h3⟩ := Compute_elements _ allocate_output in_bsqrt
    in_complex_phase in_feed_rotation in_ddes in_arow_time_index ⟨nsrc, -1, narow, nchan, 4⟩
    buffer
    (validate_ddes in_bsqrt in_complex_phase in_feed_rotation in_ddes nsrc narow nchan hsrc
      harow hchan he) ha
  refine ⟨ant_jones, h1, h2, ?_⟩
  intro src row chan hs0 hs1 hr0 hr1 hc0 hc1
  rw [h3 src row chan hs0 hs1 hr0 hr1 hc0 hc1, matrix4_eq in_ddes _ _ _ he]
  simp [fold_terms, acc_matrix]

theorem scale_matrix : scale.matrix [0, 0, 0] = jones ⟨2, 0⟩ 0 0 ⟨3, 0⟩ := by
  rw [matrix4_eq scale 1 1 1 rfl]
  simp [jones_at, scale, Tensor.of_list]
  rfl

theorem two_row_ddes_matrix (row : Int) (h : row = 0 ∨ row = 1) :
    two_row_ddes.matrix [0, row, 0] = 1 := by
  rw [matrix4_eq two_row_ddes 1 2 1 rfl, jones_one]
  rcases h with rfl | rfl <;> simp [jones_at, two_row_ddes, Tensor.of_list]

/-! ## One axis name -/

theorem update_dim_singleton (old_size new_size : Int) :
    update_dim old_size (⟨[new_size], fun _ => ()⟩ : Tensor Unit) 0 =
      if old_size = -1 then .ok (to_int new_size)
      else if old_size ≠ new_size then .error (.DimensionConflict old_size new_size)
      else .ok old_size := rfl

theorem fold_update_dim_cons_set (old_size : Int) (hold : old_size ≠ -1) (sizes : List Int) :
    sizes.foldlM (fun old_size new_size =>
        update_dim old_size (⟨[new_size], fun _ => ()⟩ : Tensor Unit) 0) old_size =
      if ∀ s ∈ sizes, s = old_size then .ok old_size
      else .error (.DimensionConflict old_size
        ((sizes.find? (fun s => decide (s ≠ old_size))).getD 0)) := by
  induction sizes with
  | nil => simp [pure, Except.pure]
  | cons s rest ih =>
    rw [List.foldlM_cons, update_dim_singleton]
    by_cases e : old_size = s
    · subst e
      simp only [hold, if_false, ne_eq, not_true_eq_false, bind, Except.bind]
      rw [ih]
      simp
    · have e' : ¬ s = old_size := fun h => e h.symm
      simp [hold, e, e', bind, Except.bind]

theorem fold_update_dim_nil : fold_update_dim [] = .ok (-1) := rfl

theorem fold_update_dim_cons (s : Int) (rest : List Int) (h0 : 0 ≤ s) (h1 : s < 2 ^ 31) :
    fold_update_dim (s :: rest) =
      if ∀ x ∈ rest, x = s then .ok s
      else .error (.DimensionConflict s ((rest.find? (fun x => decide (x ≠ s))).getD 0)) := by
  unfold fold_update_dim
  rw [List.foldlM_cons, update_dim_singleton]
  simp only [if_true, bind, Except.bind, to_int_of_range s (by omega) h1]
  exact fold_update_dim_cons_set s (by omega) rest

/-- The fold succeeds exactly when all sizes are equal. -/
theorem fold_update_dim_ok_iff (sizes : List Int) (h : ∀ s ∈ sizes, 0 ≤ s ∧ s < 2 ^ 31) :
    (∃ v, fold_update_dim sizes = .ok v) ↔ ∀ a ∈ sizes, ∀ b ∈ sizes, a = b := by
  cases sizes with
  | nil => simp [fold_update_dim_nil]
  | cons s rest =>
    have hs := h s (List.mem_cons_self _ _)
    rw [fold_update_dim_cons s rest hs.1 hs.2]
    by_cases hall : ∀ x ∈ rest, x = s
    · rw [if_pos hall]
      refine ⟨fun _ a ha b hb => ?_, fun _ => ⟨s, rfl⟩⟩
      have ea : a = s := by
        rcases List.mem_cons.mp ha with e | e
        · exact e
        · exact hall a e
      have eb : b = s := by
        rcases List.mem_cons.mp hb with e | e
        · exact e
        · exact hall b e
      rw [ea, eb]
    · rw [if_neg hall]
      constructor
      · rintro ⟨v, hv⟩
        cases hv
      · intro hsame
        exact absurd (fun x hx => hsame x (List.mem_cons_of_mem _ hx) s
          (List.mem_cons_self _ _)) hall

/-- A successful fold yields the common size. -/
theorem fold_update_dim_value (sizes : List Int) (h : ∀ s ∈ sizes, 0 ≤ s ∧ s < 2 ^ 31) (v : Int)
    (hv : fold_update_dim sizes = .ok v) : ∀ s ∈ sizes, s = v := by
  cases sizes with
  | nil => intro s hs; cases hs
  | cons s rest =>
    have hs := h s (List.mem_cons_self _ _)
    rw [fold_update_dim_cons s rest hs.1 hs.2] at hv
    by_cases hall : ∀ x ∈ rest, x = s
    · rw [if_pos hall] at hv
      cases hv
      intro x hx
      rcases List.mem_cons.mp hx with e | e
      · exact e
      · exact hall x e
    · rw [if_neg hall] at hv
      cases hv

/-- The accept or reject decision and the resolved value do not depend on the
order of the sizes. -/
theorem fold_update_dim_perm (l1 l2 : List Int) (hp : l1.Perm l2)
    (h : ∀ s ∈ l1, 0 ≤ s ∧ s < 2 ^ 31) :
    (fold_update_dim l1).toOption = (fold_update_dim l2).toOption := by
  have h2 : ∀ s ∈ l2, 0 ≤ s ∧ s < 2 ^ 31 := fun s hs => h s (hp.mem_iff.mpr hs)
  have same : (∀ a ∈ l1, ∀ b ∈ l1, a = b) ↔ (∀ a ∈ l2, ∀ b ∈ l2, a = b) := by
    constructor
    · intro H a ha b hb
      exact H a (hp.mem_iff.mpr ha) b (hp.mem_iff.mpr hb)
    · intro H a ha b hb
      exact H a (hp.mem_iff.mp ha) b (hp.mem_iff.mp hb)
  cases h1 : fold_update_dim l1 with
  | ok v =>
    obtain ⟨w, hw⟩ := (fold_update_dim_ok_iff l2 h2).mpr
      (same.mp ((fold_update_dim_ok_iff l1 h).mp ⟨v, h1⟩))
    rw [hw]
    have : v = w := by
      cases l1 with
      | nil =>
        have := hp.nil_eq
        subst this
        rw [fold_update_dim_nil] at h1 hw
        cases h1; cases hw; rfl
      | cons s rest =>
        have e1 := fold_update_dim_value _ h v h1 s (List.mem_cons_self _ _)
        have e2 := fold_update_dim_value _ h2 w hw s (hp.mem_iff.mp (List.mem_cons_self _ _))
        rw [← e1, ← e2]
    rw [this]
  | error e =>
    cases h2' : fold_update_dim l2 with
    | ok w =>
      obtain ⟨v, hv⟩ := (fold_update_dim_ok_iff l1 h).mpr
        (same.mpr ((fold_update_dim_ok_iff l2 h2).mp ⟨w, h2'⟩))
      rw [h1] at hv
      cases hv
    | error e' => rfl

/-! ## Dimension resolution as a fold of its call sites -/

theorem dims_bsqrt_eq_foldlM {α : Type} (f : Flags) (t : Tensor α) (d : Dims) :
    dims_bsqrt f t d =
      List.foldlM Update.apply d
        [⟨f.have_bsqrt, .source, t, 0⟩, ⟨f.have_bsqrt, .time, t, 1⟩,
          ⟨f.have_bsqrt, .chan, t, 2⟩, ⟨f.have_bsqrt, .corr, t, 3⟩] := by
  cases hf : f.have_bsqrt <;>
    simp [dims_bsqrt, hf, Update.apply, Dims.get, Dims.set, List.foldlM]

theorem dims_complex_phase_eq_foldlM {α : Type} (f : Flags) (t : Tensor α) (d : Dims) :
    dims_complex_phase f t d =
      List.foldlM Update.apply d
        [⟨f.have_complex_phase, .source, t, 0⟩, ⟨f.have_complex_phase, .row, t, 1⟩,
          ⟨f.have_complex_phase, .chan, t, 2⟩] := by
  cases hf : f.have_complex_phase <;>
    simp [dims_complex_phase, hf, Update.apply, Dims.get, Dims.set, List.foldlM]

theorem dims_feed_rotation_eq_foldlM {α : Type} (f : Flags) (t : Tensor α) (d : Dims) :
    dims_feed_rotation f t d =
      List.foldlM Update.apply d [⟨f.have_feed_rotation, .row, t, 0⟩] := by
  cases hf : f.have_feed_rotation <;>
    simp [dims_feed_rotation, hf, Update.apply, Dims.get, Dims.set, List.foldlM]

theorem dims_ddes_eq_foldlM {α : Type} (f : Flags) (t : Tensor α) (d : Dims) :
    dims_ddes f t d =
      List.foldlM Update.apply d
        [⟨f.have_ddes, .source, t, 0⟩, ⟨f.have_ddes, .row, t, 1⟩,
          ⟨f.have_ddes, .chan, t, 2⟩, ⟨f.have_ddes, .corr, t, 3⟩] := by
  cases hf : f.have_ddes <;>
    simp [dims_ddes, hf, Update.apply, Dims.get, Dims.set, List.foldlM]

/-- Dimension resolution is the fold of the call sites of `update_dim` over the
size variables. -/
theorem resolve_dims_eq_foldlM {α : Type} (f : Flags)
    (in_bsqrt in_complex_phase in_feed_rotation in_ddes : Tensor α) :
    resolve_dims f in_bsqrt in_complex_phase in_feed_rotation in_ddes =
      (updates f in_bsqrt in_complex_phase in_feed_rotation in_ddes).foldlM Update.apply
        Dims.unset := by
  have h : updates f in_bsqrt in_complex_phase in_feed_rotation in_ddes =
      [⟨f.have_bsqrt, .source, in_bsqrt, 0⟩, ⟨f.have_bsqrt, .time, in_bsqrt, 1⟩,
        ⟨f.have_bsqrt, .chan, in_bsqrt, 2⟩, ⟨f.have_bsqrt, .corr, in_bsqrt, 3⟩] ++
      ([⟨f.have_complex_phase, .source, in_complex_phase, 0⟩,
        ⟨f.have_complex_phase, .row, in_complex_phase, 1⟩,
        ⟨f.have_complex_phase, .chan, in_complex_phase, 2⟩] ++
      ([⟨f.have_feed_rotation, .row, in_feed_rotation, 0⟩] ++
      [⟨f.have_ddes, .source, in_ddes, 0⟩, ⟨f.have_ddes, .row, in_ddes, 1⟩,
        ⟨f.have_ddes, .chan, in_ddes, 2⟩, ⟨f.have_ddes, .corr, in_ddes, 3⟩])) := rfl
  rw [h, List.foldlM_append, ← dims_bsqrt_eq_foldlM]
  unfold resolve_dims
  congr 1
  funext d1
  rw [List.foldlM_append, ← dims_complex_phase_eq_foldlM]
  congr 1
  funext d2
  rw [List.foldlM_append, ← dims_feed_rotation_eq_foldlM]
  congr 1
  funext d3
  rw [← dims_ddes_eq_foldlM]

theorem agree_nil : agree [] := fun _ h => by cases h

theorem agree_of_append_left (l m : List Int) (h : agree (l ++ m)) : agree l :=
  fun a ha b hb => h a (List.mem_append_left m ha) b (List.mem_append_left m hb)

/-- One call of `update_dim` on a settled size variable: it succeeds with the
size read when that size agrees with the sizes read before, and returns a
dimension conflict otherwise. -/
theorem update_dim_settled {α : Type} (old_size : Int) (tensor : Tensor α) (dim : Nat)
    (sizes : List Int) (s : Int) (hs : tensor.dim_size dim = some s)
    (h0 : 0 ≤ s) (h1 : s < 2 ^ 31) (hpos : ∀ x ∈ sizes, 0 ≤ x) (hset : settled old_size sizes) :
    (agree (sizes ++ [s]) ∧ update_dim old_size tensor dim = .ok s ∧
        settled s (sizes ++ [s])) ∨
      (¬ agree (sizes ++ [s]) ∧
        update_dim old_size tensor dim = .error (.DimensionConflict old_size s)) := by
  unfold update_dim
  rw [hs]
  simp only
  rcases hset with ⟨hnil, hv⟩ | ⟨hne, hall⟩
  · subst hnil hv
    left
    refine ⟨?_, by simp [to_int_of_range s (by omega) h1], Or.inr ⟨by simp, by simp⟩⟩
    intro a ha b hb
    simp only [List.nil_append, List.mem_singleton] at ha hb
    rw [ha, hb]
  · obtain ⟨x, hx⟩ := List.exists_mem_of_ne_nil sizes hne
    have hold : old_size ≠ -1 := by
      have := hpos x hx
      have := hall x hx
      omega
    by_cases e : old_size = s
    · left
      subst e
      refine ⟨?_, by simp [hold], Or.inr ⟨by simp, ?_⟩⟩
      · intro a ha b hb
        have ea : a = old_size := by
          rcases List.mem_append.mp ha with h | h
          · exact hall a h
          · exact List.mem_singleton.mp h
        have eb : b = old_size := by
          rcases List.mem_append.mp hb with h | h
          · exact hall b h
          · exact List.mem_singleton.mp h
        rw [ea, eb]
      · intro y hy
        rcases List.mem_append.mp hy with h | h
        · exact hall y h
        · exact List.mem_singleton.mp h
    · right
      refine ⟨?_, by simp [hold, e]⟩
      intro hag
      apply e
      rw [← hall x hx]
      exact hag x (List.mem_append_left _ hx) s (List.mem_append_right _ (List.mem_singleton.mpr rfl))

theorem agree_of_settled (v : Int) (sizes : List Int) (h : settled v sizes) : agree sizes := by
  rcases h with ⟨hnil, -⟩ | ⟨-, hall⟩
  · rw [hnil]; exact agree_nil
  · intro a ha b hb
    rw [hall a ha, hall b hb]

theorem Dims.get_set_same (d : Dims) (a : Axis) (v : Int) : (d.set a v).get a = v := by
  cases a <;> rfl

theorem Dims.get_set_ne (d : Dims) (a b : Axis) (v : Int) (h : b ≠ a) :
    (d.set a v).get b = d.get b := by
  cases a <;> cases b <;> first | rfl | exact absurd rfl h

theorem Update.sizes_nil {α : Type} (a : Axis) : Update.sizes ([] : List (Update α)) a = [] :=
  rfl

theorem Update.sizes_cons {α : Type} (u : Update α) (us : List (Update α)) (a : Axis) :
    Update.sizes (u :: us) a =
      (if u.present ∧ u.axis = a then (u.tensor.dim_size u.dim).toList else []) ++
        Update.sizes us a := by
  simp [Update.sizes, List.flatMap_cons]

/-- The fold of a list of call sites over settled size variables: it succeeds,
with every variable settled for all the sizes read, when the sizes read for
every axis agree; otherwise it ends with a dimension conflict. -/
theorem foldlM_updates {α : Type} (us : List (Update α)) (d : Dims) (L : Axis → List Int)
    (hwf : ∀ u ∈ us, u.present = true →
      ∃ s, u.tensor.dim_size u.dim = some s ∧ 0 ≤ s ∧ s < 2 ^ 31)
    (hset : ∀ a, settled (d.get a) (L a)) (hpos : ∀ a, ∀ x ∈ L a, 0 ≤ x) :
    ((∀ a, agree (L a ++ Update.sizes us a)) ∧
        ∃ d', us.foldlM Update.apply d = .ok d' ∧
          ∀ a, settled (d'.get a) (L a ++ Update.sizes us a)) ∨
      (¬ (∀ a, agree (L a ++ Update.sizes us a)) ∧
        ∃ old_size new_size,
          us.foldlM Update.apply d = .error (.DimensionConflict old_size new_size)) := by
  induction us generalizing d L with
  | nil =>
    left
    simp only [Update.sizes_nil, List.append_nil]
    exact ⟨fun a => agree_of_settled _ _ (hset a), d, rfl, hset⟩
  | cons u us ih =>
    have hwf' : ∀ v ∈ us, v.present = true →
        ∃ s, v.tensor.dim_size v.dim = some s ∧ 0 ≤ s ∧ s < 2 ^ 31 :=
      fun v hv => hwf v (List.mem_cons_of_mem _ hv)
    cases hp : u.present with
    | false =>
      have hs : ∀ a, Update.sizes (u :: us) a = Update.sizes us a := by
        intro a; simp [Update.sizes_cons, hp]
      have hf : (u :: us).foldlM Update.apply d = us.foldlM Update.apply d := by
        simp [List.foldlM_cons, Update.apply, hp]
      simp only [hs, hf]
      exact ih d L hwf' hset hpos
    | true =>
      obtain ⟨s, hs, h0, h1⟩ := hwf u (List.mem_cons_self _ _) hp
      have hsz : ∀ a, Update.sizes (u :: us) a =
          (if u.axis = a then [s] else []) ++ Update.sizes us a := by
        intro a; simp [Update.sizes_cons, hp, hs]
      rcases update_dim_settled (d.get u.axis) u.tensor u.dim (L u.axis) s hs h0 h1
        (hpos u.axis) (hset u.axis) with ⟨hag, hok, hst⟩ | ⟨hnag, herr⟩
      · have hf : (u :: us).foldlM Update.apply d =
            us.foldlM Update.apply (d.set u.axis s) := by
          simp [List.foldlM_cons, Update.apply, hp, hok, bind, Except.bind, pure, Except.pure]
        have hL : ∀ a, L a ++ Update.sizes (u :: us) a =
            Function.update L u.axis (L u.axis ++ [s]) a ++ Update.sizes us a := by
          intro a
          rw [hsz]
          by_cases e : a = u.axis
          · subst e
            simp
          · have e' : ¬ u.axis = a := fun h => e h.symm
            simp [Function.update_noteq e, e']
        simp only [hL, hf]
        apply ih
        · exact hwf'
        · intro a
          by_cases e : a = u.axis
          · subst e
            rw [Function.update_same, Dims.get_set_same]
            exact hst
          · rw [Function.update_noteq e, Dims.get_set_ne _ _ _ _ e]
            exact hset a
        · intro a x hx
          by_cases e : a = u.axis
          · subst e
            rw [Function.update_same] at hx
            rcases List.mem_append.mp hx with h | h
            · exact hpos _ x h
            · rw [List.mem_singleton.mp h]; exact h0
          · rw [Function.update_noteq e] at hx
            exact hpos a x hx
      · right
        refine ⟨?_, d.get u.axis, s, ?_⟩
        · intro hall
          apply hnag
          have := hall u.axis
          rw [hsz, if_pos rfl, ← List.append_assoc] at this
          exact agree_of_append_left _ _ this
        · simp [List.foldlM_cons, Update.apply, hp, herr, bind, Except.bind]

theorem agree_declared (flag : Bool) (size : Int) : agree (declared flag size) := by
  cases flag <;> simp [agree, declared]

theorem eq_of_settled (v : Int) (sizes : List Int) (h : settled v sizes) :
    ∀ s ∈ sizes, v = s := by
  rcases h with ⟨hnil, -⟩ | ⟨-, hall⟩
  · rw [hnil]; intro s hs; cases hs
  · intro s hs; exact (hall s hs).symm

theorem sizes_updates {α : Type} (f : Flags)
    (in_bsqrt in_complex_phase in_feed_rotation in_ddes : Tensor α)
    (sb tb cb pb sc rc cc rl se re ce pe : Int) (rest : List Int)
    (hb : f.have_bsqrt = true → in_bsqrt.shape = [sb, tb, cb, pb])
    (hc : f.have_complex_phase = true → in_complex_phase.shape = [sc, rc, cc])
    (hl : f.have_feed_rotation = true → in_feed_rotation.shape = rl :: rest)
    (he : f.have_ddes = true → in_ddes.shape = [se, re, ce, pe]) :
    Update.sizes (updates f in_bsqrt in_complex_phase in_feed_rotation in_ddes) .source =
        declared f.have_bsqrt sb ++ declared f.have_complex_phase sc ++
          declared f.have_ddes se ∧
      Update.sizes (updates f in_bsqrt in_complex_phase in_feed_rotation in_ddes) .time =
        declared f.have_bsqrt tb ∧
      Update.sizes (updates f in_bsqrt in_complex_phase in_feed_rotation in_ddes) .row =
        declared f.have_complex_phase rc ++ declared f.have_feed_rotation rl ++
          declared f.have_ddes re ∧
      Update.sizes (updates f in_bsqrt in_complex_phase in_feed_rotation in_ddes) .chan =
        declared f.have_bsqrt cb ++ declared f.have_complex_phase cc ++
          declared f.have_ddes ce ∧
      Update.sizes (updates f in_bsqrt in_complex_phase in_feed_rotation in_ddes) .corr =
        declared f.have_bsqrt pb ++ declared f.have_ddes pe := by
  obtain ⟨fb, fc, fl, fe⟩ := f
  cases fb <;> cases fc <;> cases fl <;> cases fe <;>
    simp only [Bool.false_eq_true, false_implies, forall_true_left, true_implies] at hb hc hl he <;>
    simp [updates, Update.sizes, declared, Tensor.dim_size, *]

theorem updates_wf {α : Type} (f : Flags)
    (in_bsqrt in_complex_phase in_feed_rotation in_ddes : Tensor α)
    (sb tb cb pb sc rc cc rl se re ce pe : Int) (rest : List Int)
    (hb : f.have_bsqrt = true → in_bsqrt.shape = [sb, tb, cb, pb])
    (hc : f.have_complex_phase = true → in_complex_phase.shape = [sc, rc, cc])
    (hl : f.have_feed_rotation = true → in_feed_rotation.shape = rl :: rest)
    (he : f.have_ddes = true → in_ddes.shape = [se, re, ce, pe])
    (hrange : ∀ s ∈ [sb, tb, cb, pb, sc, rc, cc, rl, se, re, ce, pe], 0 ≤ s ∧ s < 2 ^ 31) :
    ∀ u ∈ updates f in_bsqrt in_complex_phase in_feed_rotation in_ddes, u.present = true →
      ∃ s, u.tensor.dim_size u.dim = some s ∧ 0 ≤ s ∧ s < 2 ^ 31 := by
  simp only [List.mem_cons, List.mem_singleton, forall_eq_or_imp, forall_eq, List.not_mem_nil,
    false_implies, implies_true, and_true] at hrange
  obtain ⟨r1, r2, r3, r4, r5, r6, r7, r8, r9, r10, r11, r12⟩ := hrange
  intro u hu hp
  simp only [updates, List.mem_cons, List.mem_singleton, List.not_mem_nil, or_false] at hu
  rcases hu with rfl | rfl | rfl | rfl | rfl | rfl | rfl | rfl | rfl | rfl | rfl | rfl
  · exact ⟨sb, by simp [Tensor.dim_size, hb hp], r1⟩
  · exact ⟨tb, by simp [Tensor.dim_size, hb hp], r2⟩
  · exact ⟨cb, by simp [Tensor.dim_size, hb hp], r3⟩
  · exact ⟨pb, by simp [Tensor.dim_size, hb hp], r4⟩
  · exact ⟨sc, by simp [Tensor.dim_size, hc hp], r5⟩
  · exact ⟨rc, by simp [Tensor.dim_size, hc hp], r6⟩
  · exact ⟨cc, by simp [Tensor.dim_size, hc hp], r7⟩
  · exact ⟨rl, by simp [Tensor.dim_size, hl hp], r8⟩
  · exact ⟨se, by simp [Tensor.dim_size, he hp], r9⟩
  · exact ⟨re, by simp [Tensor.dim_size, he hp], r10⟩
  · exact ⟨ce, by simp [Tensor.dim_size, he hp], r11⟩
  · exact ⟨pe, by simp [Tensor.dim_size, he hp], r12⟩

/-! ## The shape function -/

/-- A shape that the shape function sets has five axes. -/
theorem shape_function_rank (merged : Except String InferenceDimSizes) (shape : List Int)
    (h : create_antenna_jones_shape_function merged = .ok shape) : shape.length = 5 := by
  unfold create_antenna_jones_shape_function at h
  split at h
  · cases h
  · split at h
    · cases h
    · split at h
      · cases h
      · split at h
        · cases h
        · split at h
          · cases h
          · split at h
            · cases h
            · cases h; rfl

/-! ## The claims -/

/-- C1: with all four terms present, once validation has passed with the sizes
`nsrc`, `ntime`, `narow`, `nchan` and the output is allocated, `Compute`
returns an output of shape `(nsrc, narow, nchan, 4)` in which, for every
`src < nsrc`, `row < narow`, `chan < nchan`, the four values at offset
`((src*narow+row)*nchan+chan)*4`, read row-major as a 2x2 matrix, are
`E * (L * (cp • B))` with `B = bsqrt[src, arow_time_index[row], chan]`,
`cp = complex_phase[src, row, chan]`, `L = feed_rotation[row]` and
`E = ddes[src, row, chan]`, the inputs having the shapes of the interface. -/
theorem Compute_all_terms (allocate_output : List Int → Option (Int → CT))
    (in_bsqrt in_complex_phase in_feed_rotation in_ddes : Tensor CT)
    (in_arow_time_index : Tensor Int) (d : Dims) (buffer : Int → CT)
    (hv : validate ⟨true, true, true, true⟩ in_bsqrt in_complex_phase in_feed_rotation
      in_ddes = .ok d)
    (ha : allocate_output [d.nsrc, d.narow, d.nchan, 4] = some buffer)
    (hb : in_bsqrt.shape = [d.nsrc, d.ntime, d.nchan, 4])
    (hc : in_complex_phase.shape = [d.nsrc, d.narow, d.nchan])
    (hl : in_feed_rotation.shape = [d.narow, 4])
    (he : in_ddes.shape = [d.nsrc, d.narow, d.nchan, 4]) :
    ∃ ant_jones : Tensor CT,
      Compute ⟨true, true, true, true⟩ allocate_output in_bsqrt in_complex_phase
        in_feed_rotation in_ddes in_arow_time_index = .ok ant_jones ∧
      ant_jones.shape = [d.nsrc, d.narow, d.nchan, 4] ∧
      ∀ src row chan : Int, 0 ≤ src → src < d.nsrc → 0 ≤ row → row < d.narow →
        0 ≤ chan → chan < d.nchan →
        jones_at ant_jones.flat (((src * d.narow + row) * d.nchan + chan) * 4) =
          in_ddes.matrix [src, row, chan] *
            (in_feed_rotation.matrix [row] *
              (in_complex_phase.elem [src, row, chan] •
                in_bsqrt.matrix [src, in_arow_time_index.flat row, chan])) := by
  obtain ⟨ant_jones, h1, h2, h3⟩ := Compute_elements _ allocate_output in_bsqrt
    in_complex_phase in_feed_rotation in_ddes in_arow_time_index d buffer hv ha
  refine ⟨ant_jones, h1, h2, ?_⟩
  intro src row chan hs0 hs1 hr0 hr1 hc0 hc1
  rw [h3 src row chan hs0 hs1 hr0 hr1 hc0 hc1, matrix4_eq in_ddes _ _ _ he,
    matrix4_eq in_bsqrt _ _ _ hb, matrix2_eq in_feed_rotation _ hl,
    elem3_eq in_complex_phase _ _ _ hc]
  simp [fold_terms, acc_matrix, acc_scalar]

/-- Witness of C1: a single element with a rotation as `bsqrt`, the phase
`0.5 + 0.5i`, the identity as `feed_rotation` and a scale as `ddes`. -/
theorem Compute_all_terms_witness :
    ∃ ant_jones : Tensor Cplx,
      Compute ⟨true, true, true, true⟩ fresh rotation phase_half feed_identity scale one_row =
        .ok ant_jones ∧
      ant_jones.shape = [1, 1, 1, 4] ∧
      ∀ src row chan : Int, 0 ≤ src → src < 1 → 0 ≤ row → row < 1 → 0 ≤ chan → chan < 1 →
        jones_at ant_jones.flat (((src * 1 + row) * 1 + chan) * 4) =
          scale.matrix [src, row, chan] *
            (feed_identity.matrix [row] *
              (phase_half.elem [src, row, chan] •
                rotation.matrix [src, one_row.flat row, chan])) :=
  Compute_all_terms fresh rotation phase_half feed_identity scale one_row ⟨1, 1, 1, 1, 4⟩
    (fun _ => 0)
    (validate_all rotation phase_half feed_identity scale 1 1 1 1 (by norm_num) (by norm_num)
      (by norm_num) (by norm_num) rfl rfl rfl rfl)
    rfl rfl rfl rfl rfl

/-- C2: with exactly `bsqrt` (A, met first) and `ddes` (B, met second) present,
once validation has passed and the output is allocated, `Compute` returns an
output whose element `(src, row, chan)` is the product
`B * A = ddes[src, row, chan] * bsqrt[src, arow_time_index[row], chan]`, for
all inputs of the shapes of the interface; and for the quarter-turn rotation
as `bsqrt` and a non-uniform scale as `ddes` the output element differs from
`A * B`. -/
theorem Compute_chain_order :
    (∀ (CT : Type) [CommRing CT] (allocate_output : List Int → Option (Int → CT))
      (in_bsqrt in_complex_phase in_feed_rotation in_ddes : Tensor CT)
      (in_arow_time_index : Tensor Int) (d : Dims) (buffer : Int → CT),
      validate ⟨true, false, false, true⟩ in_bsqrt in_complex_phase in_feed_rotation
        in_ddes = .ok d →
      allocate_output [d.nsrc, d.narow, d.nchan, 4] = some buffer →
      in_bsqrt.shape = [d.nsrc, d.ntime, d.nchan, 4] →
      in_ddes.shape = [d.nsrc, d.narow, d.nchan, 4] →
      ∃ ant_jones : Tensor CT,
        Compute ⟨true, false, false, true⟩ allocate_output in_bsqrt in_complex_phase
          in_feed_rotation in_ddes in_arow_time_index = .ok ant_jones ∧
        ant_jones.shape = [d.nsrc, d.narow, d.nchan, 4] ∧
        ∀ src row chan : Int, 0 ≤ src → src < d.nsrc → 0 ≤ row → row < d.narow →
          0 ≤ chan → chan < d.nchan →
          jones_at ant_jones.flat (((src * d.narow + row) * d.nchan + chan) * 4) =
            in_ddes.matrix [src, row, chan] *
              in_bsqrt.matrix [src, in_arow_time_index.flat row, chan]) ∧
    (∃ ant_jones : Tensor Cplx,
      Compute ⟨true, false, false, true⟩ fresh rotation absent absent scale one_row =
        .ok ant_jones ∧
      jones_at ant_jones.flat 0 = scale.matrix [0, 0, 0] * rotation.matrix [0, 0, 0] ∧
      jones_at ant_jones.flat 0 ≠ rotation.matrix [0, 0, 0] * scale.matrix [0, 0, 0]) := by
  refine ⟨fun CT _ allocate_output in_bsqrt in_complex_phase in_feed_rotation in_ddes
      in_arow_time_index d buffer hv ha hb he =>
    Compute_bsqrt_ddes_of_validate allocate_output in_bsqrt in_complex_phase in_feed_rotation
      in_ddes in_arow_time_index d buffer hv ha hb he, ?_⟩
  obtain ⟨ant_jones, h1, -, h3⟩ := Compute_bsqrt_ddes_of_validate fresh
    rotation absent absent scale one_row ⟨1, 1, 1, 1, 4⟩ (fun _ => 0)
    (validate_bsqrt_ddes rotation absent absent scale 1 1 1 1 (by norm_num) (by norm_num)
      (by norm_num) (by norm_num) rfl rfl) rfl rfl rfl
  have h0 := h3 0 0 0 (le_refl 0) (by norm_num) (le_refl 0) (by norm_num) (le_refl 0)
    (by norm_num)
  have ht : one_row.flat 0 = 0 := rfl
  simp only [zero_mul, zero_add, ht] at h0
  exact ⟨ant_jones, h1, h0, by rw [h0]; exact scale_rotation_ne⟩

/-- Witness of C2: the first part of the claim at the rotation and the scale. -/
theorem Compute_chain_order_witness :
    ∃ ant_jones : Tensor Cplx,
      Compute ⟨true, false, false, true⟩ fresh rotation absent absent scale one_row =
        .ok ant_jones ∧
      ant_jones.shape = [1, 1, 1, 4] ∧
      ∀ src row chan : Int, 0 ≤ src → src < 1 → 0 ≤ row → row < 1 → 0 ≤ chan → chan < 1 →
        jones_at ant_jones.flat (((src * 1 + row) * 1 + chan) * 4) =
          scale.matrix [src, row, chan] * rotation.matrix [src, one_row.flat row, chan] :=
  Compute_chain_order.1 Cplx fresh rotation absent absent scale one_row ⟨1, 1, 1, 1, 4⟩
    (fun _ => 0)
    (validate_bsqrt_ddes rotation absent absent scale 1 1 1 1 (by norm_num) (by norm_num)
      (by norm_num) (by norm_num) rfl rfl) rfl rfl rfl

/-- C3: what the code does where the claim fails. In the chain of the scenario
of the claim (only `complex_phase = 0.5 + 0.5i` and `feed_rotation = identity`
present) the active slot ends as `[[cp, cp], [cp, cp]]`, not as
`[[cp, 0], [0, cp]]`; in general, with only these two terms present, it ends as
`L * [[cp, cp], [cp, cp]]`. A full invocation with these two terms is rejected
by the check of `npol`; with `complex_phase` and `ddes = identity` present
`Compute` returns the element `[[cp, cp], [cp, cp]]`. -/
theorem complex_phase_first_fills_all_cells :
    (chain ⟨false, true, true, false⟩ ⟨1, -1, 1, 1, 4⟩ absent.flat phase_half.flat
        feed_identity.flat absent.flat 0 0 (one_row.flat 0) 0).active =
      jones ⟨1 / 2, 1 / 2⟩ ⟨1 / 2, 1 / 2⟩ ⟨1 / 2, 1 / 2⟩ ⟨1 / 2, 1 / 2⟩ ∧
    (chain ⟨false, true, true, false⟩ ⟨1, -1, 1, 1, 4⟩ absent.flat phase_half.flat
        feed_identity.flat absent.flat 0 0 (one_row.flat 0) 0).active ≠
      jones ⟨1 / 2, 1 / 2⟩ 0 0 ⟨1 / 2, 1 / 2⟩ ∧
    (∀ (CT : Type) [CommRing CT] (d : Dims) (bsqrt complex_phase feed_rotation ddes : Int → CT)
      (src row time chan : Int),
      (chain ⟨false, true, true, false⟩ d bsqrt complex_phase feed_rotation ddes src row time
          chan).active =
        jones_at feed_rotation (row * d.npol) *
          jones (complex_phase ((src * d.narow + row) * d.nchan + chan))
            (complex_phase ((src * d.narow + row) * d.nchan + chan))
            (complex_phase ((src * d.narow + row) * d.nchan + chan))
            (complex_phase ((src * d.narow + row) * d.nchan + chan))) ∧
    Compute ⟨false, true, true, false⟩ fresh absent phase_half feed_identity absent one_row =
      .error (.InvalidNpol (-1)) ∧
    (∃ ant_jones : Tensor Cplx,
      Compute ⟨false, true, false, true⟩ fresh absent phase_half absent unit_ddes one_row =
        .ok ant_jones ∧
      jones_at ant_jones.flat 0 =
        jones ⟨1 / 2, 1 / 2⟩ ⟨1 / 2, 1 / 2⟩ ⟨1 / 2, 1 / 2⟩ ⟨1 / 2, 1 / 2⟩ ∧
      jones_at ant_jones.flat 0 ≠
        unit_ddes.matrix [0, 0, 0] * (phase_half.elem [0, 0, 0] • 1)) := by
  have gen : ∀ (CT : Type) [CommRing CT] (d : Dims)
      (bsqrt complex_phase feed_rotation ddes : Int → CT) (src row time chan : Int),
      (chain ⟨false, true, true, false⟩ d bsqrt complex_phase feed_rotation ddes src row time
          chan).active =
        jones_at feed_rotation (row * d.npol) *
          jones (complex_phase ((src * d.narow + row) * d.nchan + chan))
            (complex_phase ((src * d.narow + row) * d.nchan + chan))
            (complex_phase ((src * d.narow + row) * d.nchan + chan))
            (complex_phase ((src * d.narow + row) * d.nchan + chan)) := by
    intro CT _ d bsqrt complex_phase feed_rotation ddes src row time chan
    rw [chain_active]
    simp [fold_terms, acc_matrix, acc_scalar]
  have hval : (chain ⟨false, true, true, false⟩ ⟨1, -1, 1, 1, 4⟩ absent.flat phase_half.flat
        feed_identity.flat absent.flat 0 0 (one_row.flat 0) 0).active =
      jones ⟨1 / 2, 1 / 2⟩ ⟨1 / 2, 1 / 2⟩ ⟨1 / 2, 1 / 2⟩ ⟨1 / 2, 1 / 2⟩ := by
    rw [gen]
    simp [jones_at, jones_mul, jones_inj, feed_identity, phase_half, Tensor.of_list]
  refine ⟨hval, by rw [hval]; exact half_ne, gen, ?_, ?_⟩
  · simp [Compute, validate, resolve_dims, dims_bsqrt, dims_complex_phase, dims_feed_rotation,
      dims_ddes, Dims.unset, bind, Except.bind, pure, Except.pure, CREATE_ANTENNA_JONES_NPOL,
      update_dim, Tensor.dim_size, phase_half, feed_identity, Tensor.of_list, to_int]
  · obtain ⟨ant_jones, h1, -, h3⟩ := Compute_complex_phase_ddes fresh absent phase_half absent
      unit_ddes one_row ⟨1, -1, 1, 1, 4⟩ (fun _ => 0)
      (validate_cp_ddes absent phase_half absent unit_ddes 1 1 1 (by norm_num) (by norm_num)
        (by norm_num) rfl rfl) rfl rfl rfl
    have h0 := h3 0 0 0 (le_refl 0) (by norm_num) (le_refl 0) (by norm_num) (le_refl 0)
      (by norm_num)
    simp only [zero_mul, zero_add] at h0
    have hE : unit_ddes.matrix [0, 0, 0] = 1 := by
      rw [matrix4_eq unit_ddes 1 1 1 rfl, jones_one]
      simp [jones_at, unit_ddes, Tensor.of_list]
    have hcp : phase_half.elem [0, 0, 0] = ⟨1 / 2, 1 / 2⟩ := by
      rw [elem3_eq phase_half 1 1 1 rfl]
      simp [phase_half, Tensor.of_list]
    rw [hE, hcp, one_mul] at h0
    refine ⟨ant_jones, h1, h0, ?_⟩
    rw [h0, hE, hcp, one_mul, jones_one, jones_smul]
    simpa using half_ne

/-- Counterexample to C4: whole invocations with a single term. With only
`complex_phase` or only `feed_rotation` present `Compute` ends with the status
of the check of `npol` and produces no output; with only `bsqrt` present
nothing sets `narow`, the loops make no pass and the buffer of the allocator
comes back as it was, no cell holding a value of `bsqrt`. -/
theorem Compute_single_term_no_element :
    Compute ⟨false, true, false, false⟩ fresh absent phase_half absent absent one_row =
        .error (.InvalidNpol (-1)) ∧
      Compute ⟨false, false, true, false⟩ fresh absent absent feed_identity absent one_row =
        .error (.InvalidNpol (-1)) ∧
      Compute ⟨true, false, false, false⟩ fresh scale absent absent absent one_row =
        .ok ⟨[1, -1, 1, 4], fun _ => 0⟩ := by
  refine ⟨?_, ?_, ?_⟩
  · exact Compute_of_validate_error _ fresh _ _ _ _ one_row _
      (validate_complex_phase absent phase_half absent absent 1 1 1 (by norm_num) (by norm_num)
        (by norm_num) rfl)
  · exact Compute_of_validate_error _ fresh _ _ _ _ one_row _
      (validate_feed_rotation absent absent feed_identity absent 1 [4] rfl)
  · rw [Compute_bsqrt_alone fresh scale absent absent absent one_row 1 1 1 (by norm_num)
      (by norm_num) (by norm_num) rfl]
    rfl

/-- C4 as amended: single-term passthrough holds for `ddes`. When `ddes`, of
shape `(nsrc, narow, nchan, 4)` with sizes in `[0, 2^31)`, is the only present
term and the output is allocated, `Compute` returns an output of that shape
whose element `(src, row, chan)` is `ddes[src, row, chan]`. For the other three
terms a whole invocation computes no element: with only `complex_phase` (of
shape `(nsrc, narow, nchan)`) or only `feed_rotation` present it ends with the
status of the check of `npol`, and with only `bsqrt` present it returns the
buffer of the allocator as it was, nothing having set `narow`. -/
theorem Compute_single_term (allocate_output : List Int → Option (Int → CT))
    (in_bsqrt in_complex_phase in_feed_rotation in_ddes : Tensor CT)
    (in_arow_time_index : Tensor Int) (nsrc narow nchan : Int) (buffer : Int → CT)
    (hsrc : 0 ≤ nsrc ∧ nsrc < 2 ^ 31) (harow : 0 ≤ narow ∧ narow < 2 ^ 31)
    (hchan : 0 ≤ nchan ∧ nchan < 2 ^ 31) (he : in_ddes.shape = [nsrc, narow, nchan, 4])
    (ha : allocate_output [nsrc, narow, nchan, 4] = some buffer) :
    (∃ ant_jones : Tensor CT,
      Compute ⟨false, false, false, true⟩ allocate_output in_bsqrt in_complex_phase
        in_feed_rotation in_ddes in_arow_time_index = .ok ant_jones ∧
      ant_jones.shape = [nsrc, narow, nchan, 4] ∧
      ∀ src row chan : Int, 0 ≤ src → src < nsrc → 0 ≤ row → row < narow →
        0 ≤ chan → chan < nchan →
        jones_at ant_jones.flat (((src * narow + row) * nchan + chan) * 4) =
          in_ddes.matrix [src, row, chan]) ∧
    (∀ s r c : Int, (0 ≤ s ∧ s < 2 ^ 31) → (0 ≤ r ∧ r < 2 ^ 31) → (0 ≤ c ∧ c < 2 ^ 31) →
      in_complex_phase.shape = [s, r, c] →
      Compute ⟨false, true, false, false⟩ allocate_output in_bsqrt in_complex_phase
        in_feed_rotation in_ddes in_arow_time_index = .error (.InvalidNpol (-1))) ∧
    (∀ (r : Int) (rest : List Int), in_feed_rotation.shape = r :: rest →
      Compute ⟨false, false, true, false⟩ allocate_output in_bsqrt in_complex_phase
        in_feed_rotation in_ddes in_arow_time_index = .error (.InvalidNpol (-1))) ∧
    (∀ s t c : Int, (0 ≤ s ∧ s < 2 ^ 31) → (0 ≤ t ∧ t < 2 ^ 31) → (0 ≤ c ∧ c < 2 ^ 31) →
      in_bsqrt.shape = [s, t, c, 4] →
      Compute ⟨true, false, false, false⟩ allocate_output in_bsqrt in_complex_phase
          in_feed_rotation in_ddes in_arow_time_index =
        match allocate_output [s, -1, c, 4] with
        | none => .error .AllocateOutput
        | some buffer => .ok ⟨[s, -1, c, 4], buffer⟩) := by
  refine ⟨Compute_ddes_alone allocate_output in_bsqrt in_complex_phase in_feed_rotation in_ddes
    in_arow_time_index nsrc narow nchan buffer hsrc harow hchan he ha, ?_, ?_, ?_⟩
  · intro s r c hs hr hc hshape
    exact Compute_of_validate_error _ allocate_output _ _ _ _ in_arow_time_index _
      (validate_complex_phase in_bsqrt in_complex_phase in_feed_rotation in_ddes s r c hs hr hc
        hshape)
  · intro r rest hl
    exact Compute_of_validate_error _ allocate_output _ _ _ _ in_arow_time_index _
      (validate_feed_rotation in_bsqrt in_complex_phase in_feed_rotation in_ddes r rest hl)
  · intro s t c hs ht hc hb
    exact Compute_bsqrt_alone allocate_output in_bsqrt in_complex_phase in_feed_rotation
      in_ddes in_arow_time_index s t c hs ht hc hb

/-- Witness of C4 as amended: the non-uniform scale as the only term, `ddes`. -/
theorem Compute_single_term_witness :
    ∃ ant_jones : Tensor Cplx,
      Compute ⟨false, false, false, true⟩ fresh absent absent absent scale one_row =
        .ok ant_jones ∧
      ant_jones.shape = [1, 1, 1, 4] ∧
      ∀ src row chan : Int, 0 ≤ src → src < 1 → 0 ≤ row → row < 1 → 0 ≤ chan → chan < 1 →
        jones_at ant_jones.flat (((src * 1 + row) * 1 + chan) * 4) =
          scale.matrix [src, row, chan] :=
  (Compute_single_term fresh absent absent absent scale one_row 1 1 1 (fun _ => 0)
    (by norm_num) (by norm_num) (by norm_num) rfl rfl).1

/-- Counterexample to C5: with all four flags false `Compute` produces no
output, it ends with the status of the check of `npol`. -/
theorem Compute_no_term_rejected :
    Compute ⟨false, false, false, false⟩ fresh absent absent absent absent one_row =
        .error (.InvalidNpol (-1)) ∧
      ¬ ∃ ant_jones : Tensor Cplx,
        Compute ⟨false, false, false, false⟩ fresh absent absent absent absent one_row =
          .ok ant_jones := by
  have h := Compute_of_validate_error ⟨false, false, false, false⟩ fresh absent absent absent
    absent one_row _ (validate_none absent absent absent absent)
  refine ⟨h, ?_⟩
  rintro ⟨ant_jones, h'⟩
  rw [h] at h'
  cases h'

/-- C5 as amended: with all four flags false `Compute` ends, for every input,
with the status of the check of `npol` (which is still `-1`) and produces no
output; the per-element chain itself, with all four flags false, leaves the
identity matrix in the active slot. -/
theorem no_term_identity_unreachable (allocate_output : List Int → Option (Int → CT))
    (in_bsqrt in_complex_phase in_feed_rotation in_ddes : Tensor CT)
    (in_arow_time_index : Tensor Int) (d : Dims) (src row time chan : Int) :
    Compute ⟨false, false, false, false⟩ allocate_output in_bsqrt in_complex_phase
        in_feed_rotation in_ddes in_arow_time_index = .error (.InvalidNpol (-1)) ∧
      (chain ⟨false, false, false, false⟩ d in_bsqrt.flat in_complex_phase.flat
        in_feed_rotation.flat in_ddes.flat src row time chan).active = 1 := by
  refine ⟨Compute_of_validate_error _ allocate_output _ _ _ _ in_arow_time_index _
    (validate_none in_bsqrt in_complex_phase in_feed_rotation in_ddes), ?_⟩
  rw [chain_active]
  simp [fold_terms]

/-- Counterexample to C6: an invocation whose only present term is
`complex_phase` is rejected for its correlation count, with the reported size
`-1`. -/
theorem Compute_complex_phase_only_rejected :
    Compute ⟨false, true, false, false⟩ fresh absent phase_half absent absent one_row =
      .error (.InvalidNpol (-1)) := by
  simp [Compute, validate, resolve_dims, dims_bsqrt, dims_complex_phase, dims_feed_rotation,
    dims_ddes, Dims.unset, bind, Except.bind, pure, Except.pure, CREATE_ANTENNA_JONES_NPOL,
    update_dim, Tensor.dim_size, phase_half, Tensor.of_list, to_int]

/-- C6 as amended: when `feed_rotation` is absent, `Compute` ends with the
invalid correlation count status reporting the size `n` if and only if
dimension resolution succeeds and the corr size resolved from the last axes of
the present `bsqrt` and `ddes`, which is `-1` when neither is present, is `n`
and is not 4. -/
theorem Compute_invalid_npol_iff (f : Flags) (allocate_output : List Int → Option (Int → CT))
    (in_bsqrt in_complex_phase in_feed_rotation in_ddes : Tensor CT)
    (in_arow_time_index : Tensor Int) (sb tb cb pb se re ce pe n : Int)
    (_hfr : f.have_feed_rotation = false)
    (hb : f.have_bsqrt = true → in_bsqrt.shape = [sb, tb, cb, pb])
    (he : f.have_ddes = true → in_ddes.shape = [se, re, ce, pe])
    (hpb : 0 ≤ pb ∧ pb < 2 ^ 31) (hpe : 0 ≤ pe ∧ pe < 2 ^ 31) :
    Compute f allocate_output in_bsqrt in_complex_phase in_feed_rotation in_ddes
        in_arow_time_index = .error (.InvalidNpol n) ↔
      (∃ d, resolve_dims f in_bsqrt in_complex_phase in_feed_rotation in_ddes = .ok d) ∧
        n = (if f.have_bsqrt then pb else if f.have_ddes then pe else -1) ∧ n ≠ 4 := by
  rw [Compute_npol_iff, validate_npol_iff]
  constructor
  · rintro ⟨d, hd, hn, h4⟩
    refine ⟨⟨d, hd⟩, ?_, h4⟩
    rw [← hn]
    exact resolve_dims_npol f _ _ _ _ sb tb cb pb se re ce pe hb he hpb hpe d hd
  · rintro ⟨⟨d, hd⟩, hn, h4⟩
    refine ⟨d, hd, ?_, h4⟩
    rw [hn]
    exact resolve_dims_npol f _ _ _ _ sb tb cb pb se re ce pe hb he hpb hpe d hd

/-- Witness of C6: the amended claim at an invocation whose only present term
is `complex_phase`. -/
theorem Compute_invalid_npol_iff_witness :
    (Compute ⟨false, true, false, false⟩ fresh absent phase_half absent absent one_row =
        .error (.InvalidNpol (-1)) ↔
      (∃ d, resolve_dims ⟨false, true, false, false⟩ absent phase_half absent absent = .ok d) ∧
        (-1 : Int) = (if (⟨false, true, false, false⟩ : Flags).have_bsqrt then 4
          else if (⟨false, true, false, false⟩ : Flags).have_ddes then 4 else -1) ∧
        (-1 : Int) ≠ 4) :=
  Compute_invalid_npol_iff ⟨false, true, false, false⟩ fresh absent phase_half absent absent
    one_row 1 1 1 4 1 1 1 4 (-1) rfl (fun h => by cases h) (fun h => by cases h)
    (by norm_num) (by norm_num)

/-- The corr axis of `feed_rotation` is not read by dimension resolution:
`bsqrt` of shape `(1, 1, 1, 4)` and `feed_rotation` of shape `(1, 3)` pass
resolution and validation with `npol = 4`, and with only `feed_rotation` of
shape `(1, 4)` present resolution leaves `npol` unset. -/
theorem feed_rotation_corr_not_read :
    resolve_dims ⟨true, false, true, false⟩ rotation absent feed_three absent =
        .ok ⟨1, 1, 1, 1, 4⟩ ∧
      validate ⟨true, false, true, false⟩ rotation absent feed_three absent =
        .ok ⟨1, 1, 1, 1, 4⟩ ∧
      rotation.dim_size 3 = some 4 ∧ feed_three.dim_size 1 = some 3 ∧
      resolve_dims ⟨false, false, true, false⟩ absent absent feed_identity absent =
        .ok ⟨-1, -1, 1, -1, -1⟩ ∧
      feed_identity.dim_size 1 = some 4 := by
  simp [validate, resolve_dims, dims_bsqrt, dims_complex_phase, dims_feed_rotation,
    dims_ddes, Dims.unset, bind, Except.bind, pure, Except.pure, CREATE_ANTENNA_JONES_NPOL,
    update_dim, Tensor.dim_size, rotation, feed_three, feed_identity, Tensor.of_list, to_int]

/-- Counterexample to C7: an empty `bsqrt` and an empty `ddes`, both of shape
`(2^31, 1, 0, 4)`, agree on every shared axis, yet resolution fails with a
dimension conflict: the size `2^31` is stored in an `int` as `-2^31`. -/
theorem resolve_dims_not_unified :
    resolve_dims ⟨true, false, false, true⟩ wide_bsqrt absent absent wide_ddes =
        .error (.DimensionConflict (-2147483648) 2147483648) ∧
      wide_bsqrt.shape = wide_ddes.shape := by
  simp [resolve_dims, dims_bsqrt, dims_complex_phase, dims_feed_rotation,
    dims_ddes, Dims.unset, bind, Except.bind, pure, Except.pure,
    update_dim, Tensor.dim_size, wide_bsqrt, wide_ddes, Tensor.of_list, to_int]

/-- Dimension resolution over the twelve call sites of `update_dim`, for present
tensors of the shapes of their schemas with sizes in `[0, 2^31)`: it succeeds
exactly when the sizes read for each size variable agree, and then each size
variable holds the sizes read for it; else it ends with a dimension conflict.
The corr axis of `feed_rotation` is not among the sizes read. -/
theorem resolve_dims_agree {α : Type} (f : Flags)
    (in_bsqrt in_complex_phase in_feed_rotation in_ddes : Tensor α)
    (sb tb cb pb sc rc cc rl pl se re ce pe : Int)
    (hb : f.have_bsqrt = true → in_bsqrt.shape = [sb, tb, cb, pb])
    (hc : f.have_complex_phase = true → in_complex_phase.shape = [sc, rc, cc])
    (hl : f.have_feed_rotation = true → in_feed_rotation.shape = [rl, pl])
    (he : f.have_ddes = true → in_ddes.shape = [se, re, ce, pe])
    (hrange : ∀ s ∈ [sb, tb, cb, pb, sc, rc, cc, rl, se, re, ce, pe], 0 ≤ s ∧ s < 2 ^ 31) :
    (agree (declared f.have_bsqrt sb ++ declared f.have_complex_phase sc ++
          declared f.have_ddes se) ∧
        agree (declared f.have_complex_phase rc ++ declared f.have_feed_rotation rl ++
          declared f.have_ddes re) ∧
        agree (declared f.have_bsqrt cb ++ declared f.have_complex_phase cc ++
          declared f.have_ddes ce) ∧
        agree (declared f.have_bsqrt pb ++ declared f.have_ddes pe) →
      ∃ d, resolve_dims f in_bsqrt in_complex_phase in_feed_rotation in_ddes = .ok d ∧
        (∀ s ∈ declared f.have_bsqrt sb ++ declared f.have_complex_phase sc ++
          declared f.have_ddes se, d.nsrc = s) ∧
        (∀ s ∈ declared f.have_bsqrt tb, d.ntime = s) ∧
        (∀ s ∈ declared f.have_complex_phase rc ++ declared f.have_feed_rotation rl ++
          declared f.have_ddes re, d.narow = s) ∧
        (∀ s ∈ declared f.have_bsqrt cb ++ declared f.have_complex_phase cc ++
          declared f.have_ddes ce, d.nchan = s) ∧
        (∀ s ∈ declared f.have_bsqrt pb ++ declared f.have_ddes pe, d.npol = s)) ∧
    (¬ (agree (declared f.have_bsqrt sb ++ declared f.have_complex_phase sc ++
          declared f.have_ddes se) ∧
        agree (declared f.have_complex_phase rc ++ declared f.have_feed_rotation rl ++
          declared f.have_ddes re) ∧
        agree (declared f.have_bsqrt cb ++ declared f.have_complex_phase cc ++
          declared f.have_ddes ce) ∧
        agree (declared f.have_bsqrt pb ++ declared f.have_ddes pe)) →
      ∃ old_size new_size,
        resolve_dims f in_bsqrt in_complex_phase in_feed_rotation in_ddes =
          .error (.DimensionConflict old_size new_size)) := by
  obtain ⟨e1, e2, e3, e4, e5⟩ := sizes_updates f in_bsqrt in_complex_phase in_feed_rotation
    in_ddes sb tb cb pb sc rc cc rl se re ce pe [pl] hb hc hl he
  have hwf := updates_wf f in_bsqrt in_complex_phase in_feed_rotation in_ddes sb tb cb pb sc rc
    cc rl se re ce pe [pl] hb hc hl he hrange
  have key := foldlM_updates (updates f in_bsqrt in_complex_phase in_feed_rotation in_ddes)
    Dims.unset (fun _ => []) hwf (fun a => Or.inl ⟨rfl, by cases a <;> rfl⟩)
    (fun a x hx => by cases hx)
  rw [← resolve_dims_eq_foldlM] at key
  simp only [List.nil_append] at key
  have hall : (∀ a, agree (Update.sizes
        (updates f in_bsqrt in_complex_phase in_feed_rotation in_ddes) a)) ↔
      (agree (declared f.have_bsqrt sb ++ declared f.have_complex_phase sc ++
          declared f.have_ddes se) ∧
        agree (declared f.have_complex_phase rc ++ declared f.have_feed_rotation rl ++
          declared f.have_ddes re) ∧
        agree (declared f.have_bsqrt cb ++ declared f.have_complex_phase cc ++
          declared f.have_ddes ce) ∧
        agree (declared f.have_bsqrt pb ++ declared f.have_ddes pe)) := by
    constructor
    · intro h
      have h1 := h .source
      have h3 := h .row
      have h4 := h .chan
      have h5 := h .corr
      rw [e1] at h1
      rw [e3] at h3
      rw [e4] at h4
      rw [e5] at h5
      exact ⟨h1, h3, h4, h5⟩
    · rintro ⟨h1, h3, h4, h5⟩ a
      cases a
      · rw [e1]; exact h1
      · rw [e2]; exact agree_declared _ _
      · rw [e3]; exact h3
      · rw [e4]; exact h4
      · rw [e5]; exact h5
  rw [hall] at key
  constructor
  · intro hag
    rcases key with ⟨-, d, hd, hs⟩ | ⟨hn, -⟩
    · refine ⟨d, hd, ?_, ?_, ?_, ?_, ?_⟩
      · rw [← e1]; exact eq_of_settled _ _ (hs .source)
      · rw [← e2]; exact eq_of_settled _ _ (hs .time)
      · rw [← e3]; exact eq_of_settled _ _ (hs .row)
      · rw [← e4]; exact eq_of_settled _ _ (hs .chan)
      · rw [← e5]; exact eq_of_settled _ _ (hs .corr)
    · exact absurd hag hn
  · intro hnag
    rcases key with ⟨hag, -⟩ | ⟨-, h⟩
    · exact absurd hag hnag
    · exact h

theorem corr_sizes_mem (f : Flags) (pb pl pe : Int)
    (hpl : f.have_feed_rotation = true →
      (f.have_bsqrt = true ∧ pl = pb) ∨ (f.have_ddes = true ∧ pl = pe)) (s : Int) :
    s ∈ declared f.have_bsqrt pb ++ declared f.have_feed_rotation pl ++ declared f.have_ddes pe ↔
      s ∈ declared f.have_bsqrt pb ++ declared f.have_ddes pe := by
  obtain ⟨fb, fc, fl, fe⟩ := f
  cases fb <;> cases fl <;> cases fe <;> simp [declared] at hpl ⊢
  · intro h
    rw [h, hpl]
  · intro h
    rw [h, hpl]
  · rcases hpl with h | h
    · rw [h]
      tauto
    · rw [h]
      tauto

theorem corr_sizes_agree (f : Flags) (pb pl pe : Int)
    (hpl : f.have_feed_rotation = true →
      (f.have_bsqrt = true ∧ pl = pb) ∨ (f.have_ddes = true ∧ pl = pe)) :
    agree (declared f.have_bsqrt pb ++ declared f.have_feed_rotation pl ++
        declared f.have_ddes pe) ↔
      agree (declared f.have_bsqrt pb ++ declared f.have_ddes pe) := by
  unfold agree
  simp only [corr_sizes_mem f pb pl pe hpl]

/-- C7 as amended: for present tensors of the shapes of their schemas, with
sizes in `[0, 2^31)`, and a `feed_rotation` that, when present, comes with a
present `bsqrt` or `ddes` of the same corr size: when the sizes declared for
`source`, `row`, `chan` and `corr` agree among the present tensors, resolution
succeeds and each resolved size equals the size that any present tensor
carrying that axis declares; when two present tensors disagree on one of these
axes, resolution fails with a dimension conflict. -/
theorem resolve_dims_unifies {α : Type} (f : Flags)
    (in_bsqrt in_complex_phase in_feed_rotation in_ddes : Tensor α)
    (sb tb cb pb sc rc cc rl pl se re ce pe : Int)
    (hb : f.have_bsqrt = true → in_bsqrt.shape = [sb, tb, cb, pb])
    (hc : f.have_complex_phase = true → in_complex_phase.shape = [sc, rc, cc])
    (hl : f.have_feed_rotation = true → in_feed_rotation.shape = [rl, pl])
    (he : f.have_ddes = true → in_ddes.shape = [se, re, ce, pe])
    (hrange : ∀ s ∈ [sb, tb, cb, pb, sc, rc, cc, rl, se, re, ce, pe], 0 ≤ s ∧ s < 2 ^ 31)
    (hpl : f.have_feed_rotation = true →
      (f.have_bsqrt = true ∧ pl = pb) ∨ (f.have_ddes = true ∧ pl = pe)) :
    (agree (declared f.have_bsqrt sb ++ declared f.have_complex_phase sc ++
          declared f.have_ddes se) ∧
        agree (declared f.have_complex_phase rc ++ declared f.have_feed_rotation rl ++
          declared f.have_ddes re) ∧
        agree (declared f.have_bsqrt cb ++ declared f.have_complex_phase cc ++
          declared f.have_ddes ce) ∧
        agree (declared f.have_bsqrt pb ++ declared f.have_feed_rotation pl ++
          declared f.have_ddes pe) →
      ∃ d, resolve_dims f in_bsqrt in_complex_phase in_feed_rotation in_ddes = .ok d ∧
        (∀ s ∈ declared f.have_bsqrt sb ++ declared f.have_complex_phase sc ++
          declared f.have_ddes se, d.nsrc = s) ∧
        (∀ s ∈ declared f.have_bsqrt tb, d.ntime = s) ∧
        (∀ s ∈ declared f.have_complex_phase rc ++ declared f.have_feed_rotation rl ++
          declared f.have_ddes re, d.narow = s) ∧
        (∀ s ∈ declared f.have_bsqrt cb ++ declared f.have_complex_phase cc ++
          declared f.have_ddes ce, d.nchan = s) ∧
        (∀ s ∈ declared f.have_bsqrt pb ++ declared f.have_feed_rotation pl ++
          declared f.have_ddes pe, d.npol = s)) ∧
    (¬ (agree (declared f.have_bsqrt sb ++ declared f.have_complex_phase sc ++
          declared f.have_ddes se) ∧
        agree (declared f.have_complex_phase rc ++ declared f.have_feed_rotation rl ++
          declared f.have_ddes re) ∧
        agree (declared f.have_bsqrt cb ++ declared f.have_complex_phase cc ++
          declared f.have_ddes ce) ∧
        agree (declared f.have_bsqrt pb ++ declared f.have_feed_rotation pl ++
          declared f.have_ddes pe)) →
      ∃ old_size new_size,
        resolve_dims f in_bsqrt in_complex_phase in_feed_rotation in_ddes =
          .error (.DimensionConflict old_size new_size)) := by
  obtain ⟨h1, h2⟩ := resolve_dims_agree f in_bsqrt in_complex_phase in_feed_rotation in_ddes
    sb tb cb pb sc rc cc rl pl se re ce pe hb hc hl he hrange
  have hag := corr_sizes_agree f pb pl pe hpl
  constructor
  · rintro ⟨a1, a2, a3, a4⟩
    obtain ⟨d, hd, k1, k2, k3, k4, k5⟩ := h1 ⟨a1, a2, a3, hag.1 a4⟩
    exact ⟨d, hd, k1, k2, k3, k4,
      fun s hs => k5 s ((corr_sizes_mem f pb pl pe hpl s).1 hs)⟩
  · intro hn
    apply h2
    rintro ⟨a1, a2, a3, a4⟩
    exact hn ⟨a1, a2, a3, hag.2 a4⟩

/-- Witness of C7: `bsqrt` of shape `(1, 1, 1, 4)`, `feed_rotation` of shape
`(1, 4)` and `ddes` of shape `(1, 1, 1, 4)`. -/
theorem resolve_dims_unifies_witness :
    (agree (declared true 1 ++ declared false 1 ++ declared true 1) ∧
        agree (declared false 1 ++ declared true 1 ++ declared true 1) ∧
        agree (declared true 1 ++ declared false 1 ++ declared true 1) ∧
        agree (declared true 4 ++ declared true 4 ++ declared true 4) →
      ∃ d, resolve_dims ⟨true, false, true, true⟩ rotation absent feed_identity scale = .ok d ∧
        (∀ s ∈ declared true 1 ++ declared false 1 ++ declared true 1, d.nsrc = s) ∧
        (∀ s ∈ declared true 1, d.ntime = s) ∧
        (∀ s ∈ declared false 1 ++ declared true 1 ++ declared true 1, d.narow = s) ∧
        (∀ s ∈ declared true 1 ++ declared false 1 ++ declared true 1, d.nchan = s) ∧
        (∀ s ∈ declared true 4 ++ declared true 4 ++ declared true 4, d.npol = s)) ∧
    (¬ (agree (declared true 1 ++ declared false 1 ++ declared true 1) ∧
        agree (declared false 1 ++ declared true 1 ++ declared true 1) ∧
        agree (declared true 1 ++ declared false 1 ++ declared true 1) ∧
        agree (declared true 4 ++ declared true 4 ++ declared true 4)) →
      ∃ old_size new_size,
        resolve_dims ⟨true, false, true, true⟩ rotation absent feed_identity scale =
          .error (.DimensionConflict old_size new_size)) :=
  resolve_dims_unifies ⟨true, false, true, true⟩ rotation absent feed_identity scale
    1 1 1 4 1 1 1 1 4 1 1 1 4 (fun _ => rfl) (fun h => by cases h) (fun _ => rfl)
    (fun _ => rfl) (by decide) (fun _ => Or.inl ⟨rfl, rfl⟩)

/-- Counterexample to C8: two equal sizes that do not fit an `int` are rejected,
and a size that wraps to `-1` is overwritten by the next one. -/
theorem fold_update_dim_wraps :
    fold_update_dim [2147483648, 2147483648] =
        .error (.DimensionConflict (-2147483648) 2147483648) ∧
      fold_update_dim [4294967295, 5] = .ok 5 ∧
      fold_update_dim [5, 4294967295] = .error (.DimensionConflict 5 4294967295) := by
  refine ⟨?_, ?_, ?_⟩ <;> rfl

/-- C8 as amended: for declared sizes in `[0, 2^31)`, the range of an `int`,
folding `update_dim` from the unset value `-1` succeeds if and only if all
sizes are equal; when it succeeds every size equals the resolved value; and the
accept or reject decision and the resolved value are the same for every
permutation of the list. -/
theorem fold_update_dim_order_independent (sizes : List Int)
    (h : ∀ s ∈ sizes, 0 ≤ s ∧ s < 2 ^ 31) :
    ((∃ v, fold_update_dim sizes = .ok v) ↔ ∀ a ∈ sizes, ∀ b ∈ sizes, a = b) ∧
      (∀ v, fold_update_dim sizes = .ok v → ∀ s ∈ sizes, s = v) ∧
      (∀ sizes' : List Int, sizes.Perm sizes' →
        (fold_update_dim sizes').toOption = (fold_update_dim sizes).toOption) :=
  ⟨fold_update_dim_ok_iff sizes h, fold_update_dim_value sizes h,
    fun sizes' hp => (fold_update_dim_perm sizes sizes' hp h).symm⟩

/-- Witness of C8: three tensors that declare the size 3. -/
theorem fold_update_dim_order_independent_witness :
    ((∃ v, fold_update_dim [3, 3, 3] = .ok v) ↔
        ∀ a ∈ ([3, 3, 3] : List Int), ∀ b ∈ ([3, 3, 3] : List Int), a = b) ∧
      (∀ v, fold_update_dim [3, 3, 3] = .ok v → ∀ s ∈ ([3, 3, 3] : List Int), s = v) ∧
      (∀ sizes' : List Int, List.Perm [3, 3, 3] sizes' →
        (fold_update_dim sizes').toOption = (fold_update_dim [3, 3, 3]).toOption) :=
  fold_update_dim_order_independent [3, 3, 3] (by decide)

/-- C9: what the code does where the claim fails. The shape function never
sets the shape `(nsrc, narow, nchan, npol)` that `Compute` allocates: the shape
it sets has the five axes `(source, time, ant, chan, corr)`. For the merged map
of a single element it sets `(1, 1, 1, 1, 4)` where `Compute`, with all four
terms present and every size 1, returns an output of shape `(1, 1, 1, 4)`; for
a map with the axis names of the kernel, without `time` and `ant`, it fails. -/
theorem shape_function_disagrees :
    (∀ (merged : Except String InferenceDimSizes) (d : Dims),
      create_antenna_jones_shape_function merged ≠ .ok [d.nsrc, d.narow, d.nchan, d.npol]) ∧
    create_antenna_jones_shape_function
        (.ok [("source", 1), ("time", 1), ("ant", 1), ("chan", 1), ("corr", 4)]) =
      .ok [1, 1, 1, 1, 4] ∧
    (∃ ant_jones : Tensor Cplx,
      Compute ⟨true, true, true, true⟩ fresh rotation phase_half feed_identity scale one_row =
        .ok ant_jones ∧ ant_jones.shape = [1, 1, 1, 4]) ∧
    create_antenna_jones_shape_function
        (.ok [("source", 1), ("row", 1), ("chan", 1), ("corr", 4)]) =
      .error "No time dimension found" := by
  refine ⟨?_, rfl, ?_, rfl⟩
  · intro merged d h
    have := shape_function_rank merged _ h
    simp at this
  · obtain ⟨ant_jones, h1, h2, -⟩ := Compute_elements _ fresh rotation phase_half
      feed_identity scale one_row ⟨1, 1, 1, 1, 4⟩ (fun _ => 0)
      (validate_all rotation phase_half feed_identity scale 1 1 1 1 (by norm_num) (by norm_num)
        (by norm_num) (by norm_num) rfl rfl rfl rfl) rfl
    exact ⟨ant_jones, h1, h2⟩

/-- Counterexample to C10: with `bsqrt` of shape `(1, 1, 1, 4)` the only present
term nothing supplies the row axis, yet validation succeeds with `narow = -1`
and `Compute` returns, from the allocator that accepts every shape, an output
of shape `(1, -1, 1, 4)`. -/
theorem Compute_bsqrt_only_not_rejected :
    validate ⟨true, false, false, false⟩ rotation absent absent absent =
        .ok ⟨1, 1, -1, 1, 4⟩ ∧
      ∃ ant_jones : Tensor Cplx,
        Compute ⟨true, false, false, false⟩ fresh rotation absent absent absent one_row =
          .ok ant_jones ∧ ant_jones.shape = [1, -1, 1, 4] := by
  have hv := validate_bsqrt rotation absent absent absent 1 1 1 (by norm_num) (by norm_num)
    (by norm_num) rfl
  exact ⟨hv, _, Compute_of_validate _ fresh _ _ _ _ one_row _ (fun _ => 0) hv rfl, rfl⟩

/-- C10 as amended: `Compute` reports no missing dimension. Of the invocations
in which no present tensor supplies the source, row or chan size, the one with
no term and the one with only `feed_rotation` are rejected by the check of
`npol`, with the reported size `-1`; the one with only `bsqrt` passes
validation with `narow = -1`, hands the shape `(nsrc, -1, nchan, 4)` to the
allocator and, when the allocator returns a buffer, returns it untouched: the
loops perform no iteration, no output element is computed. -/
theorem Compute_missing_dimension (allocate_output : List Int → Option (Int → CT))
    (in_bsqrt in_complex_phase in_feed_rotation in_ddes : Tensor CT)
    (in_arow_time_index : Tensor Int) :
    Compute ⟨false, false, false, false⟩ allocate_output in_bsqrt in_complex_phase
        in_feed_rotation in_ddes in_arow_time_index = .error (.InvalidNpol (-1)) ∧
    (∀ (narow : Int) (rest : List Int), in_feed_rotation.shape = narow :: rest →
      Compute ⟨false, false, true, false⟩ allocate_output in_bsqrt in_complex_phase
        in_feed_rotation in_ddes in_arow_time_index = .error (.InvalidNpol (-1))) ∧
    (∀ nsrc ntime nchan : Int, (0 ≤ nsrc ∧ nsrc < 2 ^ 31) → (0 ≤ ntime ∧ ntime < 2 ^ 31) →
      (0 ≤ nchan ∧ nchan < 2 ^ 31) → in_bsqrt.shape = [nsrc, ntime, nchan, 4] →
      validate ⟨true, false, false, false⟩ in_bsqrt in_complex_phase in_feed_rotation in_ddes =
        .ok ⟨nsrc, ntime, -1, nchan, 4⟩ ∧
      Compute ⟨true, false, false, false⟩ allocate_output in_bsqrt in_complex_phase
          in_feed_rotation in_ddes in_arow_time_index =
        match allocate_output [nsrc, -1, nchan, 4] with
        | none => .error .AllocateOutput
        | some buffer => .ok ⟨[nsrc, -1, nchan, 4], buffer⟩) := by
  refine ⟨?_, ?_, ?_⟩
  · exact Compute_of_validate_error _ allocate_output _ _ _ _ in_arow_time_index _
      (validate_none in_bsqrt in_complex_phase in_feed_rotation in_ddes)
  · intro narow rest hl
    exact Compute_of_validate_error _ allocate_output _ _ _ _ in_arow_time_index _
      (validate_feed_rotation in_bsqrt in_complex_phase in_feed_rotation in_ddes narow rest hl)
  · intro nsrc ntime nchan hsrc htime hchan hb
    have hv := validate_bsqrt in_bsqrt in_complex_phase in_feed_rotation in_ddes nsrc ntime
      nchan hsrc htime hchan hb
    refine ⟨hv, ?_⟩
    cases ha : allocate_output [nsrc, -1, nchan, 4] with
    | none =>
      simp only [Compute, hv, bind, Except.bind, ha]
    | some buffer =>
      rw [Compute_of_validate _ allocate_output _ _ _ _ in_arow_time_index _ buffer hv ha]
      simp only [loops_of_no_row _ ⟨nsrc, ntime, -1, nchan, 4⟩ _ _ _ _ _ _ (by norm_num)]

/-! ## Shape inference of the framework -/

theorem dim_zero (a : Int) (s : ShapeHandle) : Dim (a :: s) 0 = a := by
  simp [Dim]

theorem dim_one (a b : Int) (s : ShapeHandle) : Dim (a :: b :: s) 1 = b := by
  simp [Dim]

theorem dim_two (a b c : Int) (s : ShapeHandle) : Dim (a :: b :: c :: s) 2 = c := by
  simp [Dim]

theorem known_cons (a : Int) (s : ShapeHandle) :
    ShapeHandle.known (a :: s) ↔ 0 ≤ a ∧ ShapeHandle.known s := by
  simp [ShapeHandle.known]

theorem withValue_known (dim value : Int) (h : 0 ≤ dim) :
    WithValue dim value = if dim = value then some dim else none := by
  have : dim ≠ -1 := by omega
  simp [WithValue, this]

theorem rank_eq_two (s : ShapeHandle) : Rank s = 2 ↔ ∃ a b, s = [a, b] := by
  unfold Rank
  constructor
  · intro h
    match s, h with
    | [a, b], _ => exact ⟨a, b, rfl⟩
    | [], h => simp at h
    | [a], h => simp at h
    | a :: b :: c :: rest, h =>
      simp only [List.length_cons, Nat.cast_add, Nat.cast_one] at h
      omega
  · rintro ⟨a, b, rfl⟩
    rfl

theorem rank_eq_three (s : ShapeHandle) : Rank s = 3 ↔ ∃ a b c, s = [a, b, c] := by
  unfold Rank
  constructor
  · intro h
    match s, h with
    | [a, b, c], _ => exact ⟨a, b, c, rfl⟩
    | [], h => simp at h
    | [a], h => simp at h
    | [a, b], h => simp at h
    | a :: b :: c :: d :: rest, h =>
      simp only [List.length_cons, Nat.cast_add, Nat.cast_one] at h
      omega
  · rintro ⟨a, b, c, rfl⟩
    rfl

/-! ## Bounds of the indices read and written -/

theorem radix_lt (x X y Y : Int) (hx : 0 ≤ x ∧ x < X) (hy : 0 ≤ y ∧ y < Y) :
    0 ≤ x * Y + y ∧ x * Y + y < X * Y := by
  have h1 : 0 ≤ x * Y := mul_nonneg hx.1 (by omega)
  have h2 : (x + 1) * Y ≤ X * Y := mul_le_mul_of_nonneg_right (by omega) (by omega)
  constructor
  · omega
  · nlinarith

theorem index4_lt (s S t T c C k : Int) (hs : 0 ≤ s ∧ s < S) (ht : 0 ≤ t ∧ t < T)
    (hc : 0 ≤ c ∧ c < C) (hk : 0 ≤ k ∧ k < 4) :
    0 ≤ ((s * T + t) * C + c) * 4 + k ∧ ((s * T + t) * C + c) * 4 + k < S * T * C * 4 :=
  radix_lt _ _ _ _ (radix_lt _ _ _ _ (radix_lt _ _ _ _ hs ht) hc) hk

theorem index3_lt (s S t T c C : Int) (hs : 0 ≤ s ∧ s < S) (ht : 0 ≤ t ∧ t < T)
    (hc : 0 ≤ c ∧ c < C) :
    0 ≤ (s * T + t) * C + c ∧ (s * T + t) * C + c < S * T * C :=
  radix_lt _ _ _ _ (radix_lt _ _ _ _ hs ht) hc

/-- The reads of the loop body are in bounds when the present tensors have the
shapes of the interface for the sizes `d`, `arow_time_index` has `narow`
entries, and, when `bsqrt` is read, the time of the row is a time of `bsqrt`. -/
theorem reads_in_bounds_of_shapes {α : Type} (f : Flags) (d : Dims)
    (in_bsqrt in_complex_phase in_feed_rotation in_ddes : Tensor α)
    (in_arow_time_index : Tensor Int) (hp : d.npol = 4)
    (hb : f.have_bsqrt = true → in_bsqrt.shape = [d.nsrc, d.ntime, d.nchan, 4])
    (hc : f.have_complex_phase = true → in_complex_phase.shape = [d.nsrc, d.narow, d.nchan])
    (hl : f.have_feed_rotation = true → in_feed_rotation.shape = [d.narow, 4])
    (he : f.have_ddes = true → in_ddes.shape = [d.nsrc, d.narow, d.nchan, 4])
    (ha : in_arow_time_index.shape = [d.narow])
    (src row chan : Int) (hs : 0 ≤ src ∧ src < d.nsrc) (hr : 0 ≤ row ∧ row < d.narow)
    (hch : 0 ≤ chan ∧ chan < d.nchan)
    (ht : f.have_bsqrt = true →
      0 ≤ in_arow_time_index.flat row ∧ in_arow_time_index.flat row < d.ntime) :
    reads_in_bounds f d in_bsqrt in_complex_phase in_feed_rotation in_ddes
      in_arow_time_index src row chan := by
  intro p hmem
  simp only [reads, List.mem_append, List.mem_singleton] at hmem
  rcases hmem with (((hmem | hmem) | hmem) | hmem) | hmem
  · subst hmem
    simpa [Input.num_elements, Tensor.num_elements, ha, in_bounds] using hr
  · by_cases hf : f.have_bsqrt = true
    · have hB := fun k hk => index4_lt src d.nsrc (in_arow_time_index.flat row) d.ntime
        chan d.nchan k hs (ht hf) hch hk
      simp only [hf, if_true, List.mem_cons, List.mem_singleton, List.not_mem_nil,
        or_false, hp] at hmem
      rcases hmem with rfl | rfl | rfl | rfl <;>
        simp only [Input.num_elements, Tensor.num_elements, hb hf, in_bounds, List.prod_cons,
          List.prod_nil, mul_one, ← mul_assoc] <;>
        apply hB <;> omega
    · simp [hf] at hmem
  · by_cases hf : f.have_complex_phase = true
    · have hB := index3_lt src d.nsrc row d.narow chan d.nchan hs hr hch
      simp only [hf, if_true, List.mem_singleton] at hmem
      subst hmem
      simpa only [Input.num_elements, Tensor.num_elements, hc hf, in_bounds, List.prod_cons,
        List.prod_nil, mul_one, ← mul_assoc] using hB
    · simp [hf] at hmem
  · by_cases hf : f.have_feed_rotation = true
    · have hB := fun k hk => radix_lt row d.narow k 4 hr hk
      simp only [hf, if_true, List.mem_cons, List.mem_singleton, List.not_mem_nil,
        or_false, hp] at hmem
      rcases hmem with rfl | rfl | rfl | rfl <;>
        simp only [Input.num_elements, Tensor.num_elements, hl hf, in_bounds, List.prod_cons,
          List.prod_nil, mul_one, ← mul_assoc] <;>
        apply hB <;> omega
    · simp [hf] at hmem
  · by_cases hf : f.have_ddes = true
    · have hB := fun k hk => index4_lt src d.nsrc row d.narow chan d.nchan k hs hr hch hk
      simp only [hf, if_true, List.mem_cons, List.mem_singleton, List.not_mem_nil,
        or_false, hp] at hmem
      rcases hmem with rfl | rfl | rfl | rfl <;>
        simp only [Input.num_elements, Tensor.num_elements, he hf, in_bounds, List.prod_cons,
          List.prod_nil, mul_one, ← mul_assoc] <;>
        apply hB <;> omega
    · simp [hf] at hmem

theorem writes_in_bounds (d : Dims) (hp : d.npol = 4) (src row chan : Int)
    (hs : 0 ≤ src ∧ src < d.nsrc) (hr : 0 ≤ row ∧ row < d.narow)
    (hch : 0 ≤ chan ∧ chan < d.nchan) :
    ∀ index ∈ writes d src row chan, 0 ≤ index ∧ index < d.nsrc * d.narow * d.nchan * 4 := by
  intro index hmem
  have hB := fun k hk => index4_lt src d.nsrc row d.narow chan d.nchan k hs hr hch hk
  simp only [writes, List.mem_cons, List.mem_singleton, List.not_mem_nil, or_false, hp] at hmem
  rcases hmem with rfl | rfl | rfl | rfl <;> apply hB <;> omega

theorem validate_ok_resolve {α : Type} (f : Flags)
    (in_bsqrt in_complex_phase in_feed_rotation in_ddes : Tensor α) (d : Dims)
    (hv : validate f in_bsqrt in_complex_phase in_feed_rotation in_ddes = .ok d) :
    resolve_dims f in_bsqrt in_complex_phase in_feed_rotation in_ddes = .ok d := by
  unfold validate at hv
  cases h : resolve_dims f in_bsqrt in_complex_phase in_feed_rotation in_ddes with
  | error e => simp [h, bind, Except.bind] at hv
  | ok d' =>
    simp only [h, bind, Except.bind, pure, Except.pure] at hv
    split at hv
    · injection hv with hv
      rw [hv]
    · cases hv

/-- The sizes that a successful dimension resolution leaves in the size
variables: those of the axes of each present tensor. -/
theorem resolve_dims_sizes {α : Type} (f : Flags)
    (in_bsqrt in_complex_phase in_feed_rotation in_ddes : Tensor α)
    (sb tb cb pb sc rc cc rl se re ce pe : Int) (rest : List Int)
    (hb : f.have_bsqrt = true → in_bsqrt.shape = [sb, tb, cb, pb])
    (hc : f.have_complex_phase = true → in_complex_phase.shape = [sc, rc, cc])
    (hl : f.have_feed_rotation = true → in_feed_rotation.shape = rl :: rest)
    (he : f.have_ddes = true → in_ddes.shape = [se, re, ce, pe])
    (hrange : ∀ s ∈ [sb, tb, cb, pb, sc, rc, cc, rl, se, re, ce, pe], 0 ≤ s ∧ s < 2 ^ 31)
    (d : Dims)
    (hd : resolve_dims f in_bsqrt in_complex_phase in_feed_rotation in_ddes = .ok d) :
    (f.have_bsqrt = true → d.nsrc = sb ∧ d.ntime = tb ∧ d.nchan = cb ∧ d.npol = pb) ∧
      (f.have_complex_phase = true → d.nsrc = sc ∧ d.narow = rc ∧ d.nchan = cc) ∧
      (f.have_feed_rotation = true → d.narow = rl) ∧
      (f.have_ddes = true → d.nsrc = se ∧ d.narow = re ∧ d.nchan = ce ∧ d.npol = pe) := by
  obtain ⟨e1, e2, e3, e4, e5⟩ := sizes_updates f in_bsqrt in_complex_phase in_feed_rotation
    in_ddes sb tb cb pb sc rc cc rl se re ce pe rest hb hc hl he
  have hwf := updates_wf f in_bsqrt in_complex_phase in_feed_rotation in_ddes sb tb cb pb sc rc
    cc rl se re ce pe rest hb hc hl he hrange
  have key := foldlM_updates (updates f in_bsqrt in_complex_phase in_feed_rotation in_ddes)
    Dims.unset (fun _ => []) hwf (fun a => Or.inl ⟨rfl, by cases a <;> rfl⟩)
    (fun a x hx => by cases hx)
  rw [← resolve_dims_eq_foldlM, hd] at key
  simp only [List.nil_append] at key
  rcases key with ⟨-, d', hd', hs⟩ | ⟨-, o, n, herr⟩
  swap
  · cases herr
  injection hd' with hd'
  subst hd'
  have h1 := eq_of_settled _ _ (hs .source)
  have h2 := eq_of_settled _ _ (hs .time)
  have h3 := eq_of_settled _ _ (hs .row)
  have h4 := eq_of_settled _ _ (hs .chan)
  have h5 := eq_of_settled _ _ (hs .corr)
  rw [e1] at h1
  rw [e2] at h2
  rw [e3] at h3
  rw [e4] at h4
  rw [e5] at h5
  simp only [Dims.get] at h1 h2 h3 h4 h5
  refine ⟨fun hf => ?_, fun hf => ?_, fun hf => ?_, fun hf => ?_⟩
  · exact ⟨h1 sb (by simp [declared, hf]), h2 tb (by simp [declared, hf]),
      h4 cb (by simp [declared, hf]), h5 pb (by simp [declared, hf])⟩
  · exact ⟨h1 sc (by simp [declared, hf]), h3 rc (by simp [declared, hf]),
      h4 cc (by simp [declared, hf])⟩
  · exact h3 rl (by simp [declared, hf])
  · exact ⟨h1 se (by simp [declared, hf]), h3 re (by simp [declared, hf]),
      h4 ce (by simp [declared, hf]), h5 pe (by simp [declared, hf])⟩

/-- The list `reads` covers what the loop body reads: two sets of input buffers
that agree on the indices of the list give the same buffers at the end of the
chain. -/
theorem chain_of_reads (f : Flags) (d : Dims)
    (bsqrt bsqrt' complex_phase complex_phase' feed_rotation feed_rotation' ddes ddes' : Int → CT)
    (src row time chan : Int)
    (hb : ∀ x, (Input.bsqrt, x) ∈ reads f d src row time chan → bsqrt x = bsqrt' x)
    (hc : ∀ x, (Input.complex_phase, x) ∈ reads f d src row time chan →
      complex_phase x = complex_phase' x)
    (hl : ∀ x, (Input.feed_rotation, x) ∈ reads f d src row time chan →
      feed_rotation x = feed_rotation' x)
    (he : ∀ x, (Input.ddes, x) ∈ reads f d src row time chan → ddes x = ddes' x) :
    chain f d bsqrt complex_phase feed_rotation ddes src row time chan =
      chain f d bsqrt' complex_phase' feed_rotation' ddes' src row time chan := by
  obtain ⟨fb, fc, fl, fe⟩ := f
  cases fb <;> cases fc <;> cases fl <;> cases fe <;>
    simp [reads] at hb hc hl he <;> simp [chain, *]

/-! ## The trace of the writes -/

theorem mem_writes (d : Dims) (src row chan x : Int) :
    x ∈ writes d src row chan ↔ ∃ k : Int, (0 ≤ k ∧ k < 4) ∧ x = out_index d src row chan + k := by
  simp only [writes, out_index, List.mem_cons, List.mem_singleton, List.not_mem_nil, or_false]
  constructor
  · rintro (h | h | h | h)
    · exact ⟨0, by norm_num, h⟩
    · exact ⟨1, by norm_num, h⟩
    · exact ⟨2, by norm_num, h⟩
    · exact ⟨3, by norm_num, h⟩
  · rintro ⟨k, hk, rfl⟩
    have : k = 0 ∨ k = 1 ∨ k = 2 ∨ k = 3 := by omega
    rcases this with rfl | rfl | rfl | rfl <;> simp

/-- A pass through the loop body leaves every cell outside its `writes` as it
was. -/
theorem element_frame (f : Flags) (d : Dims) (bsqrt complex_phase feed_rotation ddes : Int → CT)
    (src row time chan : Int) (o : Int → CT) (p : Int) (hp : p ∉ writes d src row chan) :
    element f d bsqrt complex_phase feed_rotation ddes src row time chan o p = o p := by
  apply element_other
  intro k hk0 hk4 h
  exact hp ((mem_writes d src row chan p).2 ⟨k, ⟨hk0, hk4⟩, h⟩)

/-- The loops leave every cell outside the trace of their writes as it was. -/
theorem loops_frame (f : Flags) (d : Dims) (bsqrt complex_phase feed_rotation ddes : Int → CT)
    (arow_time_index : Int → Int) (ant_jones : Int → CT) (p : Int) (hp : p ∉ write_trace d) :
    loops f d bsqrt complex_phase feed_rotation ddes arow_time_index ant_jones p =
      ant_jones p := by
  rw [loops_eq_foldl]
  unfold write_trace at hp
  generalize triples d = l at hp
  induction l generalizing ant_jones with
  | nil => rfl
  | cons x l ih =>
    simp only [List.flatMap_cons, List.mem_append, not_or] at hp
    rw [List.foldl_cons, ih _ hp.2, element_frame _ _ _ _ _ _ _ _ _ _ _ _ hp.1]

/-! ## Index arithmetic in 32 bits -/

theorem index_steps_fit (s S t T c C : Int) (hs : 0 ≤ s ∧ s < S) (ht : 0 ≤ t ∧ t < T)
    (hc : 0 ≤ c ∧ c < C) (hN : S * T * C * 4 ≤ 2 ^ 31 - 1) :
    (0 ≤ s * T ∧ s * T < 2 ^ 31) ∧ (0 ≤ s * T + t ∧ s * T + t < 2 ^ 31) ∧
      (0 ≤ (s * T + t) * C ∧ (s * T + t) * C < 2 ^ 31) ∧
      (0 ≤ (s * T + t) * C + c ∧ (s * T + t) * C + c < 2 ^ 31) ∧
      (0 ≤ ((s * T + t) * C + c) * 4 ∧ ((s * T + t) * C + c) * 4 < 2 ^ 31) ∧
      (0 ≤ ((s * T + t) * C + c) * 4 + 3 ∧ ((s * T + t) * C + c) * 4 + 3 < 2 ^ 31) := by
  have a0 : 0 ≤ s * T := mul_nonneg hs.1 (by omega)
  have b := radix_lt s S t T hs ht
  have c0 : 0 ≤ (s * T + t) * C := mul_nonneg b.1 (by omega)
  have e := radix_lt (s * T + t) (S * T) c C b hc
  have g := radix_lt ((s * T + t) * C + c) (S * T * C) 3 4 e (by norm_num)
  have h4 : 0 ≤ ((s * T + t) * C + c) * 4 := mul_nonneg e.1 (by norm_num)
  have hST : S * T ≤ S * T * C := le_mul_of_one_le_right (by omega) (by omega)
  refine ⟨⟨a0, ?_⟩, ⟨b.1, ?_⟩, ⟨c0, ?_⟩, ⟨e.1, ?_⟩, ⟨h4, ?_⟩, ⟨g.1, ?_⟩⟩ <;> omega

theorem index_int_exact (s S t T c C k : Int) (hs : 0 ≤ s ∧ s < S) (ht : 0 ≤ t ∧ t < T)
    (hc : 0 ≤ c ∧ c < C) (hN : S * T * C * 4 ≤ 2 ^ 31 - 1) (hk : 0 ≤ k ∧ k ≤ 3) :
    int_add (int_mul (int_add (int_mul (int_add (int_mul s T) t) C) c) 4) k =
      ((s * T + t) * C + c) * 4 + k := by
  obtain ⟨f1, f2, f3, f4, f5, f6⟩ := index_steps_fit s S t T c C hs ht hc hN
  unfold int_add int_mul
  rw [to_int_of_range (s * T) (by omega) f1.2, to_int_of_range (s * T + t) (by omega) f2.2,
    to_int_of_range ((s * T + t) * C) (by omega) f3.2,
    to_int_of_range ((s * T + t) * C + c) (by omega) f4.2,
    to_int_of_range (((s * T + t) * C + c) * 4) (by omega) f5.2,
    to_int_of_range (((s * T + t) * C + c) * 4 + k) (by omega) (by omega)]

/-! ## The claims, continued -/

/-! ## The claims, continued -/

/-- C11: given a merged dimension map, the shape function returns an error if
and only if one of the names `source`, `time`, `ant`, `chan`, `corr` is absent
from the map; the error is then `No <name> dimension found` for the first
absent name in that order and no output shape is set; when all five names are
present it succeeds and sets the shape made of the five sizes looked up. -/
theorem shape_function_missing_dimension (dim_sizes : InferenceDimSizes) :
    ((∃ e, create_antenna_jones_shape_function (.ok dim_sizes) = .error e) ↔
        ∃ name ∈ required_names, dim_sizes.lookup name = none) ∧
      (∀ name, required_names.find? (fun n => (dim_sizes.lookup n).isNone) = some name →
        create_antenna_jones_shape_function (.ok dim_sizes) =
          .error ("No " ++ name ++ " dimension found")) ∧
      (∀ nsrc ntime na nchan ncorr, dim_sizes.lookup "source" = some nsrc →
        dim_sizes.lookup "time" = some ntime → dim_sizes.lookup "ant" = some na →
        dim_sizes.lookup "chan" = some nchan → dim_sizes.lookup "corr" = some ncorr →
        create_antenna_jones_shape_function (.ok dim_sizes) =
          .ok [nsrc, ntime, na, nchan, ncorr]) := by
  unfold create_antenna_jones_shape_function required_names
  cases h1 : dim_sizes.lookup "source" <;> cases h2 : dim_sizes.lookup "time" <;>
    cases h3 : dim_sizes.lookup "ant" <;> cases h4 : dim_sizes.lookup "chan" <;>
    cases h5 : dim_sizes.lookup "corr"
  all_goals simp [List.find?, h1, h2, h3, h4, h5, -List.lookup_eq_none_iff]
  intros
  subst_vars
  exact ⟨rfl, rfl, rfl, rfl, rfl⟩

/-- Counterexample to C12: `bsqrt` and `ddes` of shape `(1, 1, 1, 4)` pass
validation, which resolves every size to 1 and `npol` to 4 and never looks at
`arow_time_index`; with the single row mapped to time 5 the pass for the element
`(0, 0, 0)` reads `bsqrt` at the flat index 20, outside its four cells. -/
theorem validate_does_not_bound_reads :
    validate ⟨true, false, false, true⟩ scale absent absent unit_ddes = .ok ⟨1, 1, 1, 1, 4⟩ ∧
      (Input.bsqrt, 20) ∈ reads ⟨true, false, false, true⟩ ⟨1, 1, 1, 1, 4⟩ 0 0
        (late_row.flat 0) 0 ∧
      scale.num_elements = 4 ∧
      ¬ reads_in_bounds ⟨true, false, false, true⟩ ⟨1, 1, 1, 1, 4⟩ scale absent absent
        unit_ddes late_row 0 0 0 := by
  have hmem : (Input.bsqrt, 20) ∈ reads ⟨true, false, false, true⟩ ⟨1, 1, 1, 1, 4⟩ 0 0
      (late_row.flat 0) 0 := by decide
  refine ⟨rfl, hmem, rfl, fun h => ?_⟩
  have h20 := h _ hmem
  revert h20
  decide

/-- C12 as amended: for present tensors of the shapes of their schemas with
sizes in `[0, 2^31)`, a `feed_rotation` whose corr axis has size 4, an
`arow_time_index` of `narow` entries and, when `bsqrt` is present, with every
entry in `[0, ntime)`: when the invocation passes validation with sizes `d`,
every read of the pass for an element `(src, row, chan)` of the loops is within
the bounds of the tensor it indexes. -/
theorem validate_bounds_reads {α : Type} (f : Flags)
    (in_bsqrt in_complex_phase in_feed_rotation in_ddes : Tensor α)
    (in_arow_time_index : Tensor Int)
    (sb tb cb pb sc rc cc rl se re ce pe : Int)
    (hb : f.have_bsqrt = true → in_bsqrt.shape = [sb, tb, cb, pb])
    (hc : f.have_complex_phase = true → in_complex_phase.shape = [sc, rc, cc])
    (hl : f.have_feed_rotation = true → in_feed_rotation.shape = [rl, 4])
    (he : f.have_ddes = true → in_ddes.shape = [se, re, ce, pe])
    (hrange : ∀ s ∈ [sb, tb, cb, pb, sc, rc, cc, rl, se, re, ce, pe], 0 ≤ s ∧ s < 2 ^ 31)
    (d : Dims)
    (hv : validate f in_bsqrt in_complex_phase in_feed_rotation in_ddes = .ok d)
    (ha : in_arow_time_index.shape = [d.narow])
    (ht : f.have_bsqrt = true → ∀ row, 0 ≤ row → row < d.narow →
      0 ≤ in_arow_time_index.flat row ∧ in_arow_time_index.flat row < d.ntime)
    (src row chan : Int) (hs : 0 ≤ src ∧ src < d.nsrc) (hr : 0 ≤ row ∧ row < d.narow)
    (hch : 0 ≤ chan ∧ chan < d.nchan) :
    reads_in_bounds f d in_bsqrt in_complex_phase in_feed_rotation in_ddes
      in_arow_time_index src row chan := by
  have hp := validate_ok_npol f in_bsqrt in_complex_phase in_feed_rotation in_ddes d hv
  obtain ⟨k1, k2, k3, k4⟩ := resolve_dims_sizes f in_bsqrt in_complex_phase in_feed_rotation
    in_ddes sb tb cb pb sc rc cc rl se re ce pe [4] hb hc hl he hrange d
    (validate_ok_resolve f in_bsqrt in_complex_phase in_feed_rotation in_ddes d hv)
  apply reads_in_bounds_of_shapes f d in_bsqrt in_complex_phase in_feed_rotation in_ddes
    in_arow_time_index hp _ _ _ _ ha src row chan hs hr hch
  · intro hf
    exact ht hf row hr.1 hr.2
  · intro hf
    obtain ⟨a1, a2, a3, a4⟩ := k1 hf
    rw [hb hf, a1, a2, a3, ← hp, a4]
  · intro hf
    obtain ⟨a1, a2, a3⟩ := k2 hf
    rw [hc hf, a1, a2, a3]
  · intro hf
    rw [hl hf, k3 hf]
  · intro hf
    obtain ⟨a1, a2, a3, a4⟩ := k4 hf
    rw [he hf, a1, a2, a3, ← hp, a4]

/-- Witness of C12 as amended: all four terms present with one source, one
time, one row and one channel, the row mapped to time 0. -/
theorem validate_bounds_reads_witness :
    reads_in_bounds ⟨true, true, true, true⟩ ⟨1, 1, 1, 1, 4⟩ scale phase_half feed_identity
      unit_ddes one_row 0 0 0 :=
  validate_bounds_reads ⟨true, true, true, true⟩ scale phase_half feed_identity unit_ddes
    one_row 1 1 1 4 1 1 1 1 1 1 1 4 (fun _ => rfl) (fun _ => rfl) (fun _ => rfl)
    (fun _ => rfl) (by decide) ⟨1, 1, 1, 1, 4⟩ rfl rfl
    (fun _ row h0 h1 => by
      have hrow : row = 0 := by
        have h1' : row < 1 := h1
        omega
      subst hrow
      decide)
    0 0 0 (by decide) (by decide) (by decide)

/-- Counterexample to C13: the scenario of the claim as a whole invocation.
With `bsqrt = [2, 0, 0, 3]` of shape `(1, 1, 1, 4)` the only present term and
two rows mapped to time 0, validation passes with `narow = -1`; whatever the
allocator, `Compute` then fails or returns the buffer of the allocator as it
was, of shape `(1, -1, 1, 4)`: there is no output of a row. -/
theorem Compute_bsqrt_only_no_rows :
    validate ⟨true, false, false, false⟩ scale absent absent absent = .ok ⟨1, 1, -1, 1, 4⟩ ∧
      (∀ allocate_output : List Int → Option (Int → Cplx),
        Compute ⟨true, false, false, false⟩ allocate_output scale absent absent absent
            two_rows =
          match allocate_output [1, -1, 1, 4] with
          | none => .error .AllocateOutput
          | some buffer => .ok ⟨[1, -1, 1, 4], buffer⟩) ∧
      Compute ⟨true, false, false, false⟩ fresh scale absent absent absent two_rows =
        .ok ⟨[1, -1, 1, 4], fun _ => 0⟩ := by
  refine ⟨validate_bsqrt scale absent absent absent 1 1 1 (by norm_num) (by norm_num)
    (by norm_num) rfl, fun allocate_output => ?_, ?_⟩
  · rw [Compute_bsqrt_alone allocate_output scale absent absent absent two_rows 1 1 1
      (by norm_num) (by norm_num) (by norm_num) rfl]
    cases allocate_output [1, -1, 1, 4] with
    | none => rfl
    | some buffer => rfl
  · rw [Compute_bsqrt_alone fresh scale absent absent absent two_rows 1 1 1 (by norm_num)
      (by norm_num) (by norm_num) rfl]
    rfl

/-- C13 as amended: with `bsqrt` and `ddes` the present terms, once validation
has passed and the output is allocated, for rows `r1`, `r2` with the same entry
in `arow_time_index` and every `src`, `chan`, the elements `(src, r1, chan)` and
`(src, r2, chan)` of the output of `Compute` are `ddes[src, r1, chan] * B` and
`ddes[src, r2, chan] * B` with the same
`B = bsqrt[src, arow_time_index[r1], chan]`, and both are `B` where `ddes` is
the identity. For one source, one time, two rows both mapped to time 0, one
channel, `bsqrt = [2, 0, 0, 3]` and `ddes` the identity, the output of both rows
is `[[2, 0], [0, 3]]`. -/
theorem Compute_row_time_indirection :
    (∀ (CT : Type) [CommRing CT] (allocate_output : List Int → Option (Int → CT))
      (in_bsqrt in_complex_phase in_feed_rotation in_ddes : Tensor CT)
      (in_arow_time_index : Tensor Int) (d : Dims) (buffer : Int → CT)
      (src r1 r2 chan : Int),
      validate ⟨true, false, false, true⟩ in_bsqrt in_complex_phase in_feed_rotation
        in_ddes = .ok d →
      allocate_output [d.nsrc, d.narow, d.nchan, 4] = some buffer →
      in_bsqrt.shape = [d.nsrc, d.ntime, d.nchan, 4] →
      in_ddes.shape = [d.nsrc, d.narow, d.nchan, 4] →
      (0 ≤ src ∧ src < d.nsrc) → (0 ≤ r1 ∧ r1 < d.narow) → (0 ≤ r2 ∧ r2 < d.narow) →
      (0 ≤ chan ∧ chan < d.nchan) →
      in_arow_time_index.flat r1 = in_arow_time_index.flat r2 →
      ∃ ant_jones : Tensor CT,
        Compute ⟨true, false, false, true⟩ allocate_output in_bsqrt in_complex_phase
          in_feed_rotation in_ddes in_arow_time_index = .ok ant_jones ∧
        jones_at ant_jones.flat (((src * d.narow + r1) * d.nchan + chan) * 4) =
          in_ddes.matrix [src, r1, chan] *
            in_bsqrt.matrix [src, in_arow_time_index.flat r1, chan] ∧
        jones_at ant_jones.flat (((src * d.narow + r2) * d.nchan + chan) * 4) =
          in_ddes.matrix [src, r2, chan] *
            in_bsqrt.matrix [src, in_arow_time_index.flat r1, chan] ∧
        (in_ddes.matrix [src, r1, chan] = 1 → in_ddes.matrix [src, r2, chan] = 1 →
          jones_at ant_jones.flat (((src * d.narow + r1) * d.nchan + chan) * 4) =
              in_bsqrt.matrix [src, in_arow_time_index.flat r1, chan] ∧
            jones_at ant_jones.flat (((src * d.narow + r2) * d.nchan + chan) * 4) =
              in_bsqrt.matrix [src, in_arow_time_index.flat r1, chan])) ∧
    (∃ ant_jones : Tensor Cplx,
      Compute ⟨true, false, false, true⟩ fresh scale absent absent two_row_ddes two_rows =
        .ok ant_jones ∧
      ant_jones.shape = [1, 2, 1, 4] ∧
      jones_at ant_jones.flat 0 = jones ⟨2, 0⟩ 0 0 ⟨3, 0⟩ ∧
      jones_at ant_jones.flat 4 = jones ⟨2, 0⟩ 0 0 ⟨3, 0⟩) := by
  constructor
  · intro CT _ allocate_output in_bsqrt in_complex_phase in_feed_rotation in_ddes
      in_arow_time_index d buffer src r1 r2 chan hv ha hb he hs hr1 hr2 hc ht
    obtain ⟨ant_jones, h1, -, h3⟩ := Compute_bsqrt_ddes_of_validate allocate_output in_bsqrt
      in_complex_phase in_feed_rotation in_ddes in_arow_time_index d buffer hv ha hb he
    have e1 := h3 src r1 chan hs.1 hs.2 hr1.1 hr1.2 hc.1 hc.2
    have e2 := h3 src r2 chan hs.1 hs.2 hr2.1 hr2.2 hc.1 hc.2
    rw [← ht] at e2
    refine ⟨ant_jones, h1, e1, e2, fun i1 i2 => ?_⟩
    rw [e1, e2, i1, i2, one_mul]
    exact ⟨rfl, rfl⟩
  · obtain ⟨ant_jones, h1, h2, h3⟩ := Compute_bsqrt_ddes_of_validate fresh scale absent absent
      two_row_ddes two_rows ⟨1, 1, 2, 1, 4⟩ (fun _ => 0)
      (validate_bsqrt_ddes scale absent absent two_row_ddes 1 1 2 1 (by norm_num)
        (by norm_num) (by norm_num) (by norm_num) rfl rfl) rfl rfl rfl
    have e0 := h3 0 0 0 (le_refl 0) (by norm_num) (le_refl 0) (by norm_num) (le_refl 0)
      (by norm_num)
    have e1 := h3 0 1 0 (le_refl 0) (by norm_num) (by norm_num) (by norm_num) (le_refl 0)
      (by norm_num)
    have t0 : two_rows.flat 0 = 0 := rfl
    have t1 : two_rows.flat 1 = 0 := rfl
    rw [t0, two_row_ddes_matrix 0 (Or.inl rfl), one_mul, scale_matrix] at e0
    rw [t1, two_row_ddes_matrix 1 (Or.inr rfl), one_mul, scale_matrix] at e1
    norm_num at e0 e1
    exact ⟨ant_jones, h1, h2, e0, e1⟩

/-- Witness of C13 as amended: the first part at the scenario, rows 0 and 1. -/
theorem Compute_row_time_indirection_witness :
    ∃ ant_jones : Tensor Cplx,
      Compute ⟨true, false, false, true⟩ fresh scale absent absent two_row_ddes two_rows =
        .ok ant_jones ∧
      jones_at ant_jones.flat (((0 * 2 + 0) * 1 + 0) * 4) =
        two_row_ddes.matrix [0, 0, 0] * scale.matrix [0, two_rows.flat 0, 0] ∧
      jones_at ant_jones.flat (((0 * 2 + 1) * 1 + 0) * 4) =
        two_row_ddes.matrix [0, 1, 0] * scale.matrix [0, two_rows.flat 0, 0] ∧
      (two_row_ddes.matrix [0, 0, 0] = 1 → two_row_ddes.matrix [0, 1, 0] = 1 →
        jones_at ant_jones.flat (((0 * 2 + 0) * 1 + 0) * 4) =
            scale.matrix [0, two_rows.flat 0, 0] ∧
          jones_at ant_jones.flat (((0 * 2 + 1) * 1 + 0) * 4) =
            scale.matrix [0, two_rows.flat 0, 0]) :=
  Compute_row_time_indirection.1 Cplx fresh scale absent absent two_row_ddes two_rows
    ⟨1, 1, 2, 1, 4⟩ (fun _ => 0) 0 0 1 0
    (validate_bsqrt_ddes scale absent absent two_row_ddes 1 1 2 1 (by norm_num) (by norm_num)
      (by norm_num) (by norm_num) rfl rfl) rfl rfl rfl (by decide) (by decide) (by decide)
    (by decide) rfl

/-- C15: for a fully known `uvw`, an `lm` that passes its two checks and a
`frequency` of rank 1, the shape function succeeds if and only if `uvw` is
`[nrow, 3]` or `[ntime, na, 3]` (rank 2 or 3, last dimension 3); for
`[ntime, na, 3]` the output shape is (lm dim 0, ntime, na, frequency dim 0) and
for `[nrow, 3]` it is (lm dim 0, nrow, frequency dim 0). -/
theorem phase_shape_function_uvw (lm uvw frequency : ShapeHandle)
    (hlm : 2 ≤ Rank lm) (hlm1 : Dim lm 1 = 2) (hf : Rank frequency = 1)
    (hk : uvw.known) :
    ((∃ out, phase_shape_function lm uvw frequency = .ok out) ↔
        (Rank uvw = 2 ∨ Rank uvw = 3) ∧ uvw.getLast? = some 3) ∧
      (∀ ntime na, uvw = [ntime, na, 3] →
        phase_shape_function lm uvw frequency =
          .ok [Dim lm 0, ntime, na, Dim frequency 0]) ∧
      (∀ nrow, uvw = [nrow, 3] →
        phase_shape_function lm uvw frequency = .ok [Dim lm 0, nrow, Dim frequency 0]) := by
  have h2 : WithValue (Dim lm 1) 2 = some 2 := by simp [hlm1, WithValue]
  have key : ∀ u : ShapeHandle, phase_shape_function lm u frequency =
      match Status.Update (Status.Update (WithRankAtLeast u 2) (WithRankAtMost u 3))
        (WithValue (Dim u (Rank u - 1)) 3) with
      | none => .error "uvw shape must either be [nrow, 3] or [ntime, na, 3] but is "
      | some _ => if Rank u = 3 then .ok [Dim lm 0, Dim u 0, Dim u 1, Dim frequency 0]
          else .ok [Dim lm 0, Dim u 0, Dim frequency 0] := by
    intro u
    simp [phase_shape_function, WithRankAtLeast, hlm, h2, WithRank, hf]
  refine ⟨?_, ?_, ?_⟩
  · rw [key]
    match uvw, hk with
    | [], _ => simp [Status.Update, WithRankAtLeast, Rank]
    | [a], _ => simp [Status.Update, WithRankAtLeast, Rank]
    | [a, b], hk =>
      simp only [known_cons] at hk
      simp [Status.Update, WithRankAtLeast, WithRankAtMost, Rank, dim_one,
        withValue_known b 3 hk.2.1]
      by_cases hb : b = 3 <;> simp [hb]
    | [a, b, c], hk =>
      simp only [known_cons] at hk
      simp [Status.Update, WithRankAtLeast, WithRankAtMost, Rank, dim_two,
        withValue_known c 3 hk.2.2.1]
      by_cases hc : c = 3 <;> simp [hc]
    | a :: b :: c :: d :: rest, _ =>
      have h1 : (2 : Int) ≤ (rest.length : Int) + 1 + 1 + 1 + 1 := by omega
      have h2 : ¬ ((rest.length : Int) + 1 + 1 + 1 + 1 ≤ 3) := by omega
      have h3 : ¬ ((rest.length : Int) + 1 + 1 + 1 + 1 = 2) := by omega
      have h4 : ¬ ((rest.length : Int) + 1 + 1 + 1 + 1 = 3) := by omega
      simp [Status.Update, WithRankAtLeast, WithRankAtMost, Rank, h1, h2, h3, h4]
  · rintro ntime na rfl
    rw [key]
    simp [Status.Update, WithRankAtLeast, WithRankAtMost, Rank, Dim, WithValue]
  · rintro nrow rfl
    rw [key]
    simp [Status.Update, WithRankAtLeast, WithRankAtMost, Rank, Dim, WithValue]

theorem phase_shape_function_uvw_witness :
    ((∃ out, phase_shape_function [5, 2] [7, 10, 3] [4] = .ok out) ↔
        (Rank [7, 10, 3] = 2 ∨ Rank [7, 10, 3] = 3) ∧
          ([7, 10, 3] : ShapeHandle).getLast? = some 3) ∧
      (∀ ntime na, ([7, 10, 3] : ShapeHandle) = [ntime, na, 3] →
        phase_shape_function [5, 2] [7, 10, 3] [4] =
          .ok [Dim [5, 2] 0, ntime, na, Dim [4] 0]) ∧
      (∀ nrow, ([7, 10, 3] : ShapeHandle) = [nrow, 3] →
        phase_shape_function [5, 2] [7, 10, 3] [4] = .ok [Dim [5, 2] 0, nrow, Dim [4] 0]) :=
  phase_shape_function_uvw [5, 2] [7, 10, 3] [4] (by decide) (by decide) (by decide)
    (by simp [ShapeHandle.known])

/-- C16: for fully known shapes of `uvw` and `params`, the shape function
succeeds if and only if `time_index`, `antenna1`, `antenna2` and `frequency`
have rank 1, `uvw` is `[ntime, na, 3]` and `params` is `[3, ngsrc]`; when it
succeeds the output shape is (params dim 1, antenna1 dim 0, frequency dim 0),
and in every other case it returns an error, so that no output shape is set. -/
theorem gauss_shape_shape_function_iff
    (time_index uvw antenna1 antenna2 frequency params : ShapeHandle)
    (hu : uvw.known) (hp : params.known) :
    ((∃ out, gauss_shape_shape_function time_index uvw antenna1 antenna2 frequency params =
          .ok out) ↔
        Rank time_index = 1 ∧ Rank antenna1 = 1 ∧ Rank antenna2 = 1 ∧ Rank frequency = 1 ∧
          (Rank uvw = 3 ∧ Dim uvw 2 = 3) ∧ (Rank params = 2 ∧ Dim params 0 = 3)) ∧
      (∀ out, gauss_shape_shape_function time_index uvw antenna1 antenna2 frequency params =
          .ok out → out = [Dim params 1, Dim antenna1 0, Dim frequency 0]) ∧
      (¬ (Rank time_index = 1 ∧ Rank antenna1 = 1 ∧ Rank antenna2 = 1 ∧ Rank frequency = 1 ∧
          (Rank uvw = 3 ∧ Dim uvw 2 = 3) ∧ (Rank params = 2 ∧ Dim params 0 = 3)) →
        ∃ e, gauss_shape_shape_function time_index uvw antenna1 antenna2 frequency params =
          .error e) := by
  unfold gauss_shape_shape_function
  by_cases h1 : Rank time_index = 1
  swap
  · simp [WithRank, h1]
  by_cases h2 : Rank uvw = 3
  swap
  · simp [WithRank, h1, h2]
  obtain ⟨a, b, c, rfl⟩ := (rank_eq_three uvw).1 h2
  simp only [known_cons] at hu
  by_cases h3 : c = 3
  swap
  · simp [WithRank, h1, h2, dim_two, withValue_known c 3 hu.2.2.1, h3]
  subst h3
  have hr : Rank [a, b, 3] = 3 := rfl
  have hv : WithValue 3 3 = some 3 := rfl
  by_cases h4 : Rank antenna1 = 1
  swap
  · simp [WithRank, h1, h2, dim_two, hr, hv, h4]
  by_cases h5 : Rank antenna2 = 1
  swap
  · simp [WithRank, h1, h2, dim_two, hr, hv, h4, h5]
  by_cases h6 : Rank frequency = 1
  swap
  · simp [WithRank, h1, h2, dim_two, hr, hv, h4, h5, h6]
  by_cases h7 : Rank params = 2
  swap
  · simp [WithRank, h1, h2, dim_two, hr, hv, h4, h5, h6, h7]
  obtain ⟨p, q, rfl⟩ := (rank_eq_two params).1 h7
  simp only [known_cons] at hp
  by_cases h8 : p = 3
  swap
  · simp [WithRank, h1, h2, dim_two, dim_zero, hr, hv,
      withValue_known p 3 hp.1, h4, h5, h6, h7, h8]
  subst h8
  have hr2 : Rank [3, q] = 2 := rfl
  simp [WithRank, h1, dim_two, dim_zero, hr, hv, h4, h5, h6, hr2]

theorem gauss_shape_shape_function_iff_witness :
    ((∃ out, gauss_shape_shape_function [8] [2, 4, 3] [8] [8] [5] [3, 6] = .ok out) ↔
        Rank [8] = 1 ∧ Rank [8] = 1 ∧ Rank [8] = 1 ∧ Rank [5] = 1 ∧
          (Rank [2, 4, 3] = 3 ∧ Dim [2, 4, 3] 2 = 3) ∧ (Rank [3, 6] = 2 ∧ Dim [3, 6] 0 = 3)) ∧
      (∀ out, gauss_shape_shape_function [8] [2, 4, 3] [8] [8] [5] [3, 6] = .ok out →
        out = [Dim [3, 6] 1, Dim [8] 0, Dim [5] 0]) ∧
      (¬ (Rank [8] = 1 ∧ Rank [8] = 1 ∧ Rank [8] = 1 ∧ Rank [5] = 1 ∧
          (Rank [2, 4, 3] = 3 ∧ Dim [2, 4, 3] 2 = 3) ∧ (Rank [3, 6] = 2 ∧ Dim [3, 6] 0 = 3)) →
        ∃ e, gauss_shape_shape_function [8] [2, 4, 3] [8] [8] [5] [3, 6] = .error e) :=
  gauss_shape_shape_function_iff [8] [2, 4, 3] [8] [8] [5] [3, 6]
    (by simp [ShapeHandle.known]) (by simp [ShapeHandle.known])

/-- C17: an `lm` of shape `[5, 2, 7]`, which is not `[nsrc, 2]`, passes the
checks of the shape function: with `uvw` of shape `[10, 3]` and `frequency` of
shape `[4]` the function succeeds and sets the output shape `[5, 10, 4]`; in
general every `lm` of rank at least 2 whose second dimension is 2 is accepted,
whatever its rank. -/
theorem phase_shape_function_accepts_rank3_lm :
    phase_shape_function [5, 2, 7] [10, 3] [4] = .ok [5, 10, 4] ∧
      ∀ (nsrc : Int) (rest : ShapeHandle),
        phase_shape_function (nsrc :: 2 :: rest) [10, 3] [4] = .ok [nsrc, 10, 4] := by
  refine ⟨rfl, ?_⟩
  intro nsrc rest
  have h : (2 : Int) ≤ (rest.length : Int) + 1 + 1 := by omega
  simp [h, phase_shape_function, WithRankAtLeast, WithRankAtMost, WithRank, WithValue,
    Status.Update, Rank, Dim]

/-- C18: when the present tensors have the shapes `bsqrt (nsrc, ntime, nchan, 4)`,
`complex_phase (nsrc, narow, nchan)`, `feed_rotation (narow, 4)`,
`ddes (nsrc, narow, nchan, 4)`, `arow_time_index` has `narow` entries and every
entry of a row below `narow` is in `[0, ntime)`, then for `src < nsrc`,
`row < narow`, `chan < nchan` every flat index read by the pass for the element
is non-negative and less than the number of cells of the tensor it indexes, and
every output index written is non-negative and less than `nsrc*narow*nchan*4`. -/
theorem conditional_index_safety {α : Type} (f : Flags) (d : Dims)
    (in_bsqrt in_complex_phase in_feed_rotation in_ddes : Tensor α)
    (in_arow_time_index : Tensor Int) (hp : d.npol = 4)
    (hb : f.have_bsqrt = true → in_bsqrt.shape = [d.nsrc, d.ntime, d.nchan, 4])
    (hc : f.have_complex_phase = true → in_complex_phase.shape = [d.nsrc, d.narow, d.nchan])
    (hl : f.have_feed_rotation = true → in_feed_rotation.shape = [d.narow, 4])
    (he : f.have_ddes = true → in_ddes.shape = [d.nsrc, d.narow, d.nchan, 4])
    (ha : in_arow_time_index.shape = [d.narow])
    (ht : ∀ row, 0 ≤ row → row < d.narow →
      0 ≤ in_arow_time_index.flat row ∧ in_arow_time_index.flat row < d.ntime)
    (src row chan : Int) (hs : 0 ≤ src ∧ src < d.nsrc) (hr : 0 ≤ row ∧ row < d.narow)
    (hch : 0 ≤ chan ∧ chan < d.nchan) :
    (∀ p ∈ reads f d src row (in_arow_time_index.flat row) chan,
        0 ≤ p.2 ∧ p.2 < Input.num_elements in_bsqrt in_complex_phase in_feed_rotation in_ddes
          in_arow_time_index p.1) ∧
      ∀ index ∈ writes d src row chan,
        0 ≤ index ∧ index < d.nsrc * d.narow * d.nchan * 4 :=
  ⟨reads_in_bounds_of_shapes f d in_bsqrt in_complex_phase in_feed_rotation in_ddes
      in_arow_time_index hp hb hc hl he ha src row chan hs hr hch
      (fun _ => ht row hr.1 hr.2),
    writes_in_bounds d hp src row chan hs hr hch⟩

/-- Witness of C18: all four terms present, two sources, three times, two rows
and two channels; the element `(1, 1, 1)`, whose row is mapped to time 2. -/
theorem conditional_index_safety_witness :
    (∀ p ∈ reads ⟨true, true, true, true⟩ ⟨2, 3, 2, 2, 4⟩ 1 1 (row_times.flat 1) 1,
        0 ≤ p.2 ∧ p.2 < Input.num_elements (zeros [2, 3, 2, 4]) (zeros [2, 2, 2])
          (zeros [2, 4]) (zeros [2, 2, 2, 4]) row_times p.1) ∧
      ∀ index ∈ writes ⟨2, 3, 2, 2, 4⟩ 1 1 1, 0 ≤ index ∧ index < 2 * 2 * 2 * 4 :=
  conditional_index_safety ⟨true, true, true, true⟩ ⟨2, 3, 2, 2, 4⟩ (zeros [2, 3, 2, 4])
    (zeros [2, 2, 2]) (zeros [2, 4]) (zeros [2, 2, 2, 4]) row_times rfl (fun _ => rfl)
    (fun _ => rfl) (fun _ => rfl) (fun _ => rfl) rfl
    (fun row h0 h1 => by
      have h1' : row < 2 := h1
      have hrow : row = 0 ∨ row = 1 := by omega
      rcases hrow with rfl | rfl <;> decide)
    1 1 1 (by decide) (by decide) (by decide)

/-- C19: for every combination of the four presence flags and all input values,
the pass for an element made with the two-slot buffers, whose active and
inactive indices are swapped after each present term, ends with the active slot
holding what a single accumulator holds after the present terms in the order
`bsqrt`, `complex_phase`, `feed_rotation`, `ddes`, each term initialising the
accumulator or multiplying it from the left by the rule of the source, the
identity when no term is present; the four values written to the output are
these. Block by block: on buffers whose two indices differ, a block acts on
the active slot as its term acts on the accumulator, and it swaps the
indices. -/
theorem double_buffer_refines_fold (f : Flags) (d : Dims)
    (bsqrt complex_phase feed_rotation ddes : Int → CT) (src row time chan : Int)
    (ant_jones : Int → CT) :
    (chain f d bsqrt complex_phase feed_rotation ddes src row time chan).active =
        fold_terms f
          (jones_at bsqrt (((src * d.ntime + time) * d.nchan + chan) * d.npol))
          (complex_phase ((src * d.narow + row) * d.nchan + chan))
          (jones_at feed_rotation (row * d.npol))
          (jones_at ddes (((src * d.narow + row) * d.nchan + chan) * d.npol)) ∧
      jones_at (element f d bsqrt complex_phase feed_rotation ddes src row time chan ant_jones)
          (out_index d src row chan) =
        fold_terms f
          (jones_at bsqrt (((src * d.ntime + time) * d.nchan + chan) * d.npol))
          (complex_phase ((src * d.narow + row) * d.nchan + chan))
          (jones_at feed_rotation (row * d.npol))
          (jones_at ddes (((src * d.narow + row) * d.nchan + chan) * d.npol)) ∧
      (∀ (m0 m1 m2 m3 : CT) (s : Bufs CT), s.a ≠ s.i →
        (matrix_block m0 m1 m2 m3 s).acc = acc_matrix (jones m0 m1 m2 m3) s.acc ∧
          (matrix_block m0 m1 m2 m3 s).a = s.i ∧ (matrix_block m0 m1 m2 m3 s).i = s.a) ∧
      (∀ (cp : CT) (s : Bufs CT), s.a ≠ s.i →
        (scalar_block cp s).acc = acc_scalar cp s.acc ∧
          (scalar_block cp s).a = s.i ∧ (scalar_block cp s).i = s.a) ∧
      ∀ s : Bufs CT, (identity_block s).active = s.acc.getD 1 := by
  refine ⟨chain_active f d bsqrt complex_phase feed_rotation ddes src row time chan, ?_,
    fun m0 m1 m2 m3 s h => ⟨matrix_block_acc m0 m1 m2 m3 s h, matrix_block_a m0 m1 m2 m3 s,
      matrix_block_i m0 m1 m2 m3 s⟩,
    fun cp s h => ⟨scalar_block_acc cp s h, scalar_block_a cp s, scalar_block_i cp s⟩,
    identity_block_active⟩
  rw [element_same, chain_active]

/-- C20: for `npol = 4`, sizes with `nsrc*narow*nchan*4 <= 2^31 - 1` and
`nsrc*ntime*nchan*4 <= 2^31 - 1`, and `src`, `row`, `time`, `chan` in range,
every subexpression of `((src*ntime + time)*nchan + chan)*npol + 3` and of
`((src*narow + row)*nchan + chan)*npol + 3` has a value that fits a signed
32-bit `int`, and the offsets `index + k`, `k = 0..3`, computed with every
operation reduced to 32 bits equal the mathematical offsets. -/
theorem index_arithmetic_fits (d : Dims) (hp : d.npol = 4) (src row time chan : Int)
    (hs : 0 ≤ src ∧ src < d.nsrc) (hr : 0 ≤ row ∧ row < d.narow)
    (ht : 0 ≤ time ∧ time < d.ntime) (hc : 0 ≤ chan ∧ chan < d.nchan)
    (hrow : d.nsrc * d.narow * d.nchan * 4 ≤ 2 ^ 31 - 1)
    (htime : d.nsrc * d.ntime * d.nchan * 4 ≤ 2 ^ 31 - 1) :
    (∀ x ∈ bsqrt_index_steps d src time chan, fits_int x) ∧
      (∀ x ∈ ddes_index_steps d src row chan, fits_int x) ∧
      (∀ k : Int, 0 ≤ k ∧ k ≤ 3 →
        int_add (bsqrt_index_int d src time chan) k =
          ((src * d.ntime + time) * d.nchan + chan) * d.npol + k) ∧
      ∀ k : Int, 0 ≤ k ∧ k ≤ 3 →
        int_add (ddes_index_int d src row chan) k =
          ((src * d.narow + row) * d.nchan + chan) * d.npol + k := by
  obtain ⟨f1, f2, f3, f4, f5, f6⟩ :=
    index_steps_fit src d.nsrc time d.ntime chan d.nchan hs ht hc htime
  obtain ⟨g1, g2, g3, g4, g5, g6⟩ :=
    index_steps_fit src d.nsrc row d.narow chan d.nchan hs hr hc hrow
  refine ⟨?_, ?_, ?_, ?_⟩
  · intro x hx
    simp only [bsqrt_index_steps, hp, List.mem_cons, List.mem_singleton, List.not_mem_nil,
      or_false] at hx
    unfold fits_int
    rcases hx with rfl | rfl | rfl | rfl | rfl | rfl <;> constructor <;> omega
  · intro x hx
    simp only [ddes_index_steps, hp, List.mem_cons, List.mem_singleton, List.not_mem_nil,
      or_false] at hx
    unfold fits_int
    rcases hx with rfl | rfl | rfl | rfl | rfl | rfl <;> constructor <;> omega
  · intro k hk
    unfold bsqrt_index_int
    rw [hp]
    exact index_int_exact src d.nsrc time d.ntime chan d.nchan k hs ht hc htime hk
  · intro k hk
    unfold ddes_index_int
    rw [hp]
    exact index_int_exact src d.nsrc row d.narow chan d.nchan k hs hr hc hrow hk

/-- Witness of C20: the last element of the sizes `(1024, 32, 1024, 16, 4)`, of
which both products are `2^26`. -/
theorem index_arithmetic_fits_witness :
    (∀ x ∈ bsqrt_index_steps ⟨1024, 32, 1024, 16, 4⟩ 1023 31 15, fits_int x) ∧
      (∀ x ∈ ddes_index_steps ⟨1024, 32, 1024, 16, 4⟩ 1023 1023 15, fits_int x) ∧
      (∀ k : Int, 0 ≤ k ∧ k ≤ 3 →
        int_add (bsqrt_index_int ⟨1024, 32, 1024, 16, 4⟩ 1023 31 15) k =
          ((1023 * 32 + 31) * 16 + 15) * 4 + k) ∧
      ∀ k : Int, 0 ≤ k ∧ k ≤ 3 →
        int_add (ddes_index_int ⟨1024, 32, 1024, 16, 4⟩ 1023 1023 15) k =
          ((1023 * 1024 + 1023) * 16 + 15) * 4 + k :=
  index_arithmetic_fits ⟨1024, 32, 1024, 16, 4⟩ rfl 1023 1023 31 15 (by decide) (by decide)
    (by decide) (by decide) (by decide) (by decide)

end create_antenna_jones
end montblanc
